import Mathlib

/-!
# Hold actions of the avatar subsystem

A shallow embedding of `interface/src/avatar/AvatarActionHold.{h,cpp}`:
the target resolver (`getTarget`, `updateActionWorker`, `doKinematicUpdate`),
the argument update (`updateArguments`) and the wire format
(`serialize`, `deserialize`); and of `interface/src/avatar/AvatarManager.{h,cpp}`:
the registry (`init`, `removeAvatar`, `clearOtherAvatars`, `getAvatar`), the
render-distance governor and the fade-out (`updateOtherAvatars`,
`simulateAvatarFades`) and the bookkeeping of the motion states.

Conventions of the embedding.

* `float` is modelled by exact rational arithmetic (`ℚ`); rounding, infinities
  and NaN are outside the model.
* Objects reached through pointers live in a heap `Ptr → AvatarActionHold`;
  pointer comparison is comparison of addresses.
* Calls into the physics engine and the owning entity are recorded, in order,
  as a list of `Effect`s.
* The outcome of a non-blocking lock attempt is an input (`World.tryReadLock`,
  `World.tryWriteLock`).
-/

namespace Hifi

/-! ## GLM values -/

/-- The type `glm::vec3`, three `float` components. -/
@[ext]
structure Vec3 where
  x : ℚ
  y : ℚ
  z : ℚ
deriving DecidableEq, Repr

/-- The type `glm::quat`, four `float` components. -/
structure Quat where
  w : ℚ
  x : ℚ
  y : ℚ
  z : ℚ
deriving DecidableEq, Repr

namespace Vec3

/-- Component-wise `operator+` of `glm::vec3`. -/
def add (a b : Vec3) : Vec3 := ⟨a.x + b.x, a.y + b.y, a.z + b.z⟩

/-- Component-wise `operator-` of `glm::vec3`. -/
def sub (a b : Vec3) : Vec3 := ⟨a.x - b.x, a.y - b.y, a.z - b.z⟩

/-- Multiplication `glm::vec3 * float`. -/
def mulScalar (v : Vec3) (s : ℚ) : Vec3 := ⟨v.x * s, v.y * s, v.z * s⟩

/-- Division `glm::vec3 / float` (an `int` divisor is converted to `float`). -/
def divScalar (v : Vec3) (s : ℚ) : Vec3 := ⟨v.x / s, v.y / s, v.z / s⟩

/-- The function `glm::cross`. -/
def cross (a b : Vec3) : Vec3 :=
  ⟨a.y * b.z - b.y * a.z, a.z * b.x - b.z * a.x, a.x * b.y - b.x * a.y⟩

instance : Add Vec3 := ⟨add⟩

instance : Sub Vec3 := ⟨sub⟩

instance : Zero Vec3 := ⟨⟨0, 0, 0⟩⟩

instance : AddCommMonoid Vec3 where
  add := (· + ·)
  zero := 0
  add_assoc := by
    intro a b c
    show add (add a b) c = add a (add b c)
    ext <;> simp [add, add_assoc]
  zero_add := by
    intro a
    show add ⟨0, 0, 0⟩ a = a
    ext <;> simp [add]
  add_zero := by
    intro a
    show add a ⟨0, 0, 0⟩ = a
    ext <;> simp [add]
  add_comm := by
    intro a b
    show add a b = add b a
    ext <;> simp [add, add_comm]
  nsmul := nsmulRec

end Vec3

namespace Quat

/-- Quaternion product, `operator*` of two `glm::quat`. -/
def mul (p q : Quat) : Quat :=
  { w := p.w * q.w - p.x * q.x - p.y * q.y - p.z * q.z
    x := p.w * q.x + p.x * q.w + p.y * q.z - p.z * q.y
    y := p.w * q.y + p.y * q.w + p.z * q.x - p.x * q.z
    z := p.w * q.z + p.z * q.w + p.x * q.y - p.y * q.x }

/-- Rotation of a vector, `operator*` of a `glm::quat` and a `glm::vec3`. -/
def rotate (q : Quat) (v : Vec3) : Vec3 :=
  let quatVector : Vec3 := ⟨q.x, q.y, q.z⟩
  let uv := Vec3.cross quatVector v
  let uuv := Vec3.cross quatVector uv
  v + Vec3.mulScalar (Vec3.mulScalar uv q.w + uuv) 2

instance : Mul Quat := ⟨mul⟩

end Quat

/-- Modelled from the spec: `Vectors::ZERO` is declared outside the sources; it
is the zero vector from which the resolver accumulates positions. -/
def Vectors.ZERO : Vec3 := ⟨0, 0, 0⟩

/-- Modelled from the spec: `Quaternions::IDENTITY` is declared outside the
sources; it is the identity rotation `(w, x, y, z) = (1, 0, 0, 0)`. -/
def Quaternions.IDENTITY : Quat := ⟨1, 0, 0, 0⟩

/-! ## Identifiers and the objects of the data model -/

/-- The type `QUuid`: a 128-bit identifier; the null identifier is `0`. -/
abbrev QUuid := Nat

/-- Addresses of heap objects. -/
abbrev Ptr := Nat

/-- Modelled from the spec: the enumeration `EntityActionType` is declared
outside the sources, which name only `ACTION_TYPE_HOLD`; every other member
is represented by its numeric code. -/
inductive EntityActionType where
  | ACTION_TYPE_HOLD
  | other (code : Nat)
deriving DecidableEq, Repr

open EntityActionType

/-- Pose returned by `getCopyOfPalmData(..)`: `getPosition()` and
`getRotation()` of the raw tracked palm. -/
structure PalmData where
  position : Vec3
  rotation : Quat
deriving DecidableEq, Repr

/-- What `getTarget` reads from an `Avatar`. -/
structure Avatar where
  /-- Result of `isMyAvatar()`. -/
  isMyAvatar : Bool
  /-- Result of `getHand()->getCopyOfPalmData(HandData::RightHand)`. -/
  handRightPalm : PalmData
  /-- Result of `getHand()->getCopyOfPalmData(HandData::LeftHand)`. -/
  handLeftPalm : PalmData
  /-- Result of `getRightPalmPosition()`. -/
  rightPalmPosition : Vec3
  /-- Result of `getRightPalmRotation()`. -/
  rightPalmRotation : Quat
  /-- Result of `getLeftPalmPosition()`. -/
  leftPalmPosition : Vec3
  /-- Result of `getLeftPalmRotation()`. -/
  leftPalmRotation : Quat
deriving DecidableEq, Repr

/-- Members of the base class `ObjectAction` used by the hold action. -/
structure ObjectAction where
  _type : EntityActionType
  _id : QUuid
  _active : Bool
  _expires : Nat
  _tag : String
deriving DecidableEq, Repr

/-- Members of `ObjectActionSpring` used by the hold action. -/
structure ObjectActionSpring extends ObjectAction where
  _positionalTarget : Vec3
  _rotationalTarget : Quat
  _linearTimeScale : ℚ
  _angularTimeScale : ℚ
  _positionalTargetSet : Bool
  _rotationalTargetSet : Bool
deriving DecidableEq, Repr

/-- The class `AvatarActionHold` (members of `AvatarActionHold.h`). -/
structure AvatarActionHold extends ObjectActionSpring where
  _relativePosition : Vec3
  _relativeRotation : Quat
  _hand : String
  _holderID : QUuid
  _kinematic : Bool
  _kinematicSetVelocity : Bool
  _previousSet : Bool
  _ignoreIK : Bool
  _previousPositionalTarget : Vec3
  _previousRotationalTarget : Quat
  _previousDeltaTimeStep : ℚ
  _previousPositionalDelta : Vec3
deriving DecidableEq, Repr

/-- The method `getType()`. -/
def AvatarActionHold.getType (a : AvatarActionHold) : EntityActionType := a._type

/-- The method `getID()`. -/
def AvatarActionHold.getID (a : AvatarActionHold) : QUuid := a._id

/-- Calls made on the rigid body, the motion state and the owning entity. -/
inductive Effect where
  | setLinearVelocity (v : Vec3)
  | setWorldTransform (origin : Vec3) (rotation : Quat)
  | dirtyInternalKinematicChanges
  | activateBody
  | forceBodyNonStatic
  | springUpdateActionWorker (deltaTimeStep : ℚ)
  | setActionDataDirty (value : Bool)
  | setActionDataNeedsTransmit (value : Bool)
deriving DecidableEq, Repr

/-- The `ObjectMotionState` behind `getPhysicsInfo()`. -/
structure ObjectMotionState where
  /-- Whether `getRigidBody()` is non-null. -/
  hasRigidBody : Bool
deriving DecidableEq, Repr

/-- What the hold action reads from its owner entity. -/
structure EntityItem where
  /-- Result of `getActionsOfType(ACTION_TYPE_HOLD)`, in iteration order. -/
  holdActions : List Ptr
  /-- Result of `getPhysicsInfo()`; `none` is the null pointer. -/
  physicsInfo : Option ObjectMotionState
deriving DecidableEq, Repr

/-- Modelled from the spec: the helpers `EntityActionInterface::extract*Argument`
are outside the sources. An arguments map is represented by what each helper
answers for each key: `none` when the helper reports `ok = false` (the key is
absent or its value cannot be parsed), `some v` when it returns `v` and leaves
`ok` true. -/
structure QVariantMap where
  extractVec3Argument : String → Option Vec3
  extractQuatArgument : String → Option Quat
  extractFloatArgument : String → Option ℚ
  extractStringArgument : String → Option String
  extractBooleanArgument : String → Option Bool

/-- Everything outside the evaluated action that its methods consult. -/
structure World where
  /-- Result of `AvatarManager::getAvatarBySessionID`; `none` is null. -/
  getAvatarBySessionID : QUuid → Option Avatar
  /-- Result of `getMyAvatar()->getSessionUUID()`. -/
  myAvatarSessionUUID : QUuid
  /-- Result of `_ownerEntity.lock()`; `none` when the entity is gone. -/
  ownerEntity : Option EntityItem
  /-- Whether `withTryReadLock` on the action at this address gets the lock. -/
  tryReadLock : Ptr → Bool
  /-- Whether `withTryWriteLock` on the evaluated action gets the lock. -/
  tryWriteLock : Bool
  /-- Value of a default-constructed `glm::quat`. -/
  defaultQuat : Quat
  /-- Value of a default-constructed `glm::vec3`. -/
  defaultVec3 : Vec3
  /-- The method `ObjectAction::localTimeToServerTime`. -/
  localTimeToServerTime : Nat → Nat
  /-- The method `ObjectAction::serverTimeToLocalTime`. -/
  serverTimeToLocalTime : Nat → Nat
  /-- Whether `assert` is compiled in (`NDEBUG` not defined). -/
  assertsEnabled : Bool
  /-- The base-class method `ObjectAction::updateArguments`, which is outside
  the sources: the members of `ObjectAction` after the call and the returned
  flag. -/
  objectActionUpdateArguments : QVariantMap → ObjectAction → ObjectAction × Bool

/-! ## `AvatarActionHold::getTarget` -/

/-- Result of `getTarget`: the returned avatar pointer and the two reference
parameters after the call. -/
structure Target where
  holdingAvatar : Option Avatar
  rotation : Quat
  position : Vec3
deriving DecidableEq, Repr

/-- Anchor pose chosen inside the read lock of `getTarget`. -/
def palmPose (self : AvatarActionHold) (holdingAvatar : Avatar) : Vec3 × Quat :=
  let isRightHand := self._hand == "right"
  if self._ignoreIK && holdingAvatar.isMyAvatar then
    if isRightHand then
      (holdingAvatar.handRightPalm.position, holdingAvatar.handRightPalm.rotation)
    else
      (holdingAvatar.handLeftPalm.position, holdingAvatar.handLeftPalm.rotation)
  else
    if isRightHand then
      (holdingAvatar.rightPalmPosition, holdingAvatar.rightPalmRotation)
    else
      (holdingAvatar.leftPalmPosition, holdingAvatar.leftPalmRotation)

/-- The method `AvatarActionHold::getTarget`. `rotation` and `position` are
the values of the reference parameters on entry; `gotReadLock` tells whether
`withTryReadLock` ran its body. -/
def getTarget (w : World) (self : AvatarActionHold) (gotReadLock : Bool)
    (rotation : Quat) (position : Vec3) : Target :=
  match w.getAvatarBySessionID self._holderID with
  | none => ⟨none, rotation, position⟩
  | some holdingAvatar =>
    if gotReadLock then
      let palm := palmPose self holdingAvatar
      let palmPosition := palm.1
      let palmRotation := palm.2
      let rotation1 := palmRotation * self._relativeRotation
      let position1 := palmPosition + Quat.rotate rotation1 self._relativePosition
      ⟨some holdingAvatar, rotation1, position1⟩
    else
      ⟨some holdingAvatar, rotation, position⟩

/-! ## `AvatarActionHold::doKinematicUpdate` -/

/-- The method `AvatarActionHold::doKinematicUpdate`: the new state of the
action and the calls made. -/
def doKinematicUpdate (w : World) (self : AvatarActionHold) (deltaTimeStep : ℚ) :
    AvatarActionHold × List Effect :=
  match w.ownerEntity with
  | none => (self, [])
  | some ownerEntity =>
    match ownerEntity.physicsInfo with
    | none => (self, [])
    | some motionState =>
      if !motionState.hasRigidBody then (self, [])
      else
        let r : AvatarActionHold × List Effect :=
          if self._kinematicSetVelocity && self._previousSet then
            let positionalDelta := self._positionalTarget - self._previousPositionalTarget
            let positionalVelocity :=
              Vec3.divScalar (positionalDelta + self._previousPositionalDelta)
                (deltaTimeStep + self._previousDeltaTimeStep)
            ({ self with _previousPositionalDelta := positionalDelta
                         _previousDeltaTimeStep := deltaTimeStep },
             [Effect.setLinearVelocity positionalVelocity])
          else (self, [])
        let s := r.1
        ({ s with _previousPositionalTarget := s._positionalTarget
                  _previousRotationalTarget := s._rotationalTarget
                  _previousSet := true },
         r.2 ++ [Effect.setWorldTransform s._positionalTarget s._rotationalTarget,
                 Effect.dirtyInternalKinematicChanges,
                 Effect.activateBody,
                 Effect.forceBodyNonStatic])

/-! ## `AvatarActionHold::updateActionWorker` -/

/-- Local variables of `updateActionWorker` that the loop updates. -/
structure HoldLoop where
  rotation : Quat
  position : Vec3
  valid : Bool
  holdCount : Nat
deriving DecidableEq, Repr

/-- One iteration of the `foreach` over the owner's hold actions. -/
def holdLoopBody (w : World) (heap : Ptr → AvatarActionHold) (this : Ptr)
    (acc : HoldLoop) (action : Ptr) : HoldLoop :=
  let t := getTarget w (heap action) (w.tryReadLock action) w.defaultQuat w.defaultVec3
  if t.holdingAvatar.isSome then
    { holdCount := acc.holdCount + 1
      valid := if action = this then true else acc.valid
      rotation := if action = this then t.rotation else acc.rotation
      position := acc.position + t.position }
  else acc

/-- The locals of `updateActionWorker` after the `foreach`. -/
def holdLoop (w : World) (heap : Ptr → AvatarActionHold) (this : Ptr)
    (holdActions : List Ptr) : HoldLoop :=
  holdActions.foldl (holdLoopBody w heap this)
    { rotation := Quaternions.IDENTITY, position := Vectors.ZERO, valid := false, holdCount := 0 }

/-- The method `AvatarActionHold::updateActionWorker`, run on the action at
address `this`: the new state of that action and the calls made. -/
def updateActionWorker (w : World) (heap : Ptr → AvatarActionHold) (this : Ptr)
    (deltaTimeStep : ℚ) : AvatarActionHold × List Effect :=
  let self := heap this
  match w.ownerEntity with
  | none => (self, [])
  | some ownerEntity =>
    let acc := holdLoop w heap this ownerEntity.holdActions
    if acc.valid && decide (acc.holdCount > 0) then
      let position := Vec3.divScalar acc.position (acc.holdCount : ℚ)
      if w.tryWriteLock then
        let self1 : AvatarActionHold :=
          { self with _positionalTarget := position
                      _rotationalTarget := acc.rotation
                      _positionalTargetSet := true
                      _rotationalTargetSet := true
                      _active := true }
        if self1._kinematic then
          doKinematicUpdate w self1 deltaTimeStep
        else
          (self1, [Effect.activateBody, Effect.forceBodyNonStatic,
                   Effect.springUpdateActionWorker deltaTimeStep])
      else (self, [])
    else (self, [])

/-- The outcome of `getTarget` for the hold action at address `action`, as
called from the loop of `updateActionWorker`. -/
def targetOf (w : World) (heap : Ptr → AvatarActionHold) (action : Ptr) : Target :=
  getTarget w (heap action) (w.tryReadLock action) w.defaultQuat w.defaultVec3

/-- The hold actions of a list whose holding avatar is found, in order. -/
def liveHolders (w : World) (heap : Ptr → AvatarActionHold) (holdActions : List Ptr) :
    List Ptr :=
  holdActions.filter (fun action => (targetOf w heap action).holdingAvatar.isSome)

/-- The anchor pose as the specification words it: the right or the left
hand, and the raw tracked palm or the IK-resolved palm. -/
def specAnchorPose (rightHand rawPalm : Bool) (holder : Avatar) : Vec3 × Quat :=
  match rightHand, rawPalm with
  | true, true => (holder.handRightPalm.position, holder.handRightPalm.rotation)
  | false, true => (holder.handLeftPalm.position, holder.handLeftPalm.rotation)
  | true, false => (holder.rightPalmPosition, holder.rightPalmRotation)
  | false, false => (holder.leftPalmPosition, holder.leftPalmRotation)

/-! ## Sample data -/

/-- An avatar of another user whose palms are all at `p`, unrotated. -/
def sampleAvatar (p : Vec3) : Avatar :=
  { isMyAvatar := false
    handRightPalm := ⟨p, Quaternions.IDENTITY⟩
    handLeftPalm := ⟨p, Quaternions.IDENTITY⟩
    rightPalmPosition := p
    rightPalmRotation := Quaternions.IDENTITY
    leftPalmPosition := p
    leftPalmRotation := Quaternions.IDENTITY }

/-- The local avatar: raw tracked palms and IK-resolved palms differ. -/
def sampleMyAvatar : Avatar :=
  { isMyAvatar := true
    handRightPalm := ⟨⟨1, 0, 0⟩, Quaternions.IDENTITY⟩
    handLeftPalm := ⟨⟨-1, 0, 0⟩, Quaternions.IDENTITY⟩
    rightPalmPosition := ⟨2, 0, 0⟩
    rightPalmRotation := ⟨0, 0, 0, 1⟩
    leftPalmPosition := ⟨-2, 0, 0⟩
    leftPalmRotation := ⟨0, 0, 0, 1⟩ }

/-- A freshly constructed hold action with the given id and holder. -/
def sampleHold (id holder : QUuid) : AvatarActionHold :=
  { _type := ACTION_TYPE_HOLD
    _id := id
    _active := false
    _expires := 0
    _tag := ""
    _positionalTarget := ⟨0, 0, 0⟩
    _rotationalTarget := Quaternions.IDENTITY
    _linearTimeScale := 1
    _angularTimeScale := 1
    _positionalTargetSet := false
    _rotationalTargetSet := false
    _relativePosition := Vectors.ZERO
    _relativeRotation := Quaternions.IDENTITY
    _hand := "right"
    _holderID := holder
    _kinematic := false
    _kinematicSetVelocity := false
    _previousSet := false
    _ignoreIK := false
    _previousPositionalTarget := ⟨0, 0, 0⟩
    _previousRotationalTarget := Quaternions.IDENTITY
    _previousDeltaTimeStep := 0
    _previousPositionalDelta := ⟨0, 0, 0⟩ }

/-- Three hold actions at addresses 10, 11 and 12, held by the participants
1, 2 and 3. -/
def sampleHeap : Ptr → AvatarActionHold := fun p =>
  if p = 10 then sampleHold 100 1 else if p = 11 then sampleHold 101 2 else sampleHold 102 3

/-- The sample heap after the action at address 11 has been given another
relative rotation. -/
def sampleHeapTurned : Ptr → AvatarActionHold := fun p =>
  if p = 11 then { sampleHold 101 2 with _relativeRotation := ⟨0, 1, 0, 0⟩ } else sampleHeap p

/-- The owner entity of the three sample hold actions. -/
def sampleEntity : EntityItem := ⟨[10, 11, 12], some ⟨true⟩⟩

/-- A world in which the participants 1 and 2 are present (1 is the local
user) and 3 is not, and every lock is free. -/
def sampleWorld : World :=
  { getAvatarBySessionID := fun u =>
      if u = 1 then some sampleMyAvatar
      else if u = 2 then some (sampleAvatar ⟨4, 2, 6⟩) else none
    myAvatarSessionUUID := 1
    ownerEntity := some sampleEntity
    tryReadLock := fun _ => true
    tryWriteLock := true
    defaultQuat := ⟨0, 0, 0, 0⟩
    defaultVec3 := ⟨0, 0, 0⟩
    localTimeToServerTime := fun t => t + 5
    serverTimeToLocalTime := fun t => t - 5
    assertsEnabled := true
    objectActionUpdateArguments := fun _ b => (b, false) }

/-- The sample world after every participant has left. -/
def sampleEmptyWorld : World :=
  { sampleWorld with getAvatarBySessionID := fun _ => none }

/-- The sample world built without assertions (`NDEBUG` defined). -/
def sampleReleaseWorld : World :=
  { sampleWorld with assertsEnabled := false }

/-- A hold action of the local user whose stored time scale is `0.05`, as a
record received with `linearTimeScale = 0.05` leaves it. -/
def sampleFastHold : AvatarActionHold :=
  { sampleHold 100 1 with _linearTimeScale := 1 / 20, _angularTimeScale := 1 / 20 }

/-- An arguments map with the single entry `timeScale = t`. -/
def timeScaleArguments (t : ℚ) : QVariantMap :=
  { extractVec3Argument := fun _ => none
    extractQuatArgument := fun _ => none
    extractFloatArgument := fun key => if key = "timeScale" then some t else none
    extractStringArgument := fun _ => none
    extractBooleanArgument := fun _ => none }

/-! ## `AvatarActionHold::updateArguments` -/

/-- The local constant `MIN_TIMESCALE = 0.1f`. -/
def MIN_TIMESCALE : ℚ := 1 / 10

/-- The function `glm::max`: `(a < b) ? b : a`. -/
def glmMax (a b : ℚ) : ℚ := if a < b then b else a

/-- Replace the `ObjectAction` members of a hold action. -/
def AvatarActionHold.withObjectAction (self : AvatarActionHold) (b : ObjectAction) :
    AvatarActionHold :=
  { self with toObjectActionSpring := { self.toObjectActionSpring with toObjectAction := b } }

/-- The locals of `updateArguments` at the end of the read-locked block. -/
structure HoldArguments where
  relativePosition : Vec3
  relativeRotation : Quat
  timeScale : ℚ
  hand : String
  holderID : QUuid
  kinematic : Bool
  kinematicSetVelocity : Bool
  ignoreIK : Bool
  needUpdate : Bool
deriving DecidableEq, Repr

/-- The read-locked block of `updateArguments`: every local is the extracted
argument, or the stored member when extraction fails. -/
def readArguments (w : World) (self : AvatarActionHold) (arguments : QVariantMap)
    (somethingChanged : Bool) : HoldArguments :=
  let relativePosition :=
    match arguments.extractVec3Argument "relativePosition" with
    | some v => v
    | none => self._relativePosition
  let relativeRotation :=
    match arguments.extractQuatArgument "relativeRotation" with
    | some q => q
    | none => self._relativeRotation
  let timeScale :=
    match arguments.extractFloatArgument "timeScale" with
    | some t => t
    | none => self._linearTimeScale
  let hand :=
    match arguments.extractStringArgument "hand" with
    | some h => if !(h == "left" || h == "right") then self._hand else h
    | none => self._hand
  let holderID := w.myAvatarSessionUUID
  let kinematic :=
    match arguments.extractBooleanArgument "kinematic" with
    | some b => b
    | none => self._kinematic
  let kinematicSetVelocity :=
    match arguments.extractBooleanArgument "kinematicSetVelocity" with
    | some b => b
    | none => self._kinematicSetVelocity
  let ignoreIK :=
    match arguments.extractBooleanArgument "ignoreIK" with
    | some b => b
    | none => self._ignoreIK
  { relativePosition := relativePosition
    relativeRotation := relativeRotation
    timeScale := timeScale
    hand := hand
    holderID := holderID
    kinematic := kinematic
    kinematicSetVelocity := kinematicSetVelocity
    ignoreIK := ignoreIK
    needUpdate :=
      somethingChanged ||
      relativePosition != self._relativePosition ||
      relativeRotation != self._relativeRotation ||
      timeScale != self._linearTimeScale ||
      hand != self._hand ||
      holderID != self._holderID ||
      kinematic != self._kinematic ||
      kinematicSetVelocity != self._kinematicSetVelocity ||
      ignoreIK != self._ignoreIK }

/-- Result of `updateArguments`: the action afterwards, the calls made and
the returned flag. -/
structure UpdateResult where
  action : AvatarActionHold
  effects : List Effect
  returned : Bool
deriving DecidableEq, Repr

/-- The method `AvatarActionHold::updateArguments`. -/
def updateArguments (w : World) (self : AvatarActionHold) (arguments : QVariantMap) :
    UpdateResult :=
  let base := w.objectActionUpdateArguments arguments self.toObjectAction
  let self0 := self.withObjectAction base.1
  let somethingChanged := base.2
  let a := readArguments w self0 arguments somethingChanged
  if a.needUpdate then
    let linearTimeScale := glmMax MIN_TIMESCALE a.timeScale
    let self1 : AvatarActionHold :=
      { self0 with _relativePosition := a.relativePosition
                   _relativeRotation := a.relativeRotation
                   _linearTimeScale := linearTimeScale
                   _angularTimeScale := linearTimeScale
                   _hand := a.hand
                   _holderID := a.holderID
                   _kinematic := a.kinematic
                   _kinematicSetVelocity := a.kinematicSetVelocity
                   _ignoreIK := a.ignoreIK
                   _active := true }
    let ownerCalls : List Effect :=
      match w.ownerEntity with
      | some _ => [Effect.setActionDataDirty true, Effect.setActionDataNeedsTransmit true]
      | none => []
    { action := self1, effects := ownerCalls ++ [Effect.activateBody], returned := true }
  else
    { action := self0, effects := [], returned := true }

/-! ## `AvatarActionHold::serialize` and `AvatarActionHold::deserialize` -/

/-- The constant `AvatarActionHold::holdVersion`. -/
def holdVersion : Nat := 1

/-- One value written to a `QDataStream` by `operator<<`. -/
inductive Datum where
  | actionType (t : EntityActionType)
  | uuid (u : QUuid)
  | uint16 (n : Nat)
  | vec3 (v : Vec3)
  | quat (q : Quat)
  | float (f : ℚ)
  | string (s : String)
  | uint64 (n : Nat)
  | bool (b : Bool)
deriving DecidableEq, Repr

/-- A `QByteArray` holding a data stream: the values written, in order. The
byte encoding of each value is that of `QDataStream` and is not modelled. -/
abbrev QByteArray := List Datum

/-- `dataStream >> type` for an `EntityActionType`. A read that does not find
a value of its kind yields the default and exhausts the stream. -/
def readActionType : QByteArray → EntityActionType × QByteArray
  | Datum.actionType t :: rest => (t, rest)
  | _ => (EntityActionType.other 0, [])

/-- `dataStream >> id` for a `QUuid`. -/
def readUuid : QByteArray → QUuid × QByteArray
  | Datum.uuid u :: rest => (u, rest)
  | _ => (0, [])

/-- `dataStream >> n` for a `uint16_t`. -/
def readUInt16 : QByteArray → Nat × QByteArray
  | Datum.uint16 n :: rest => (n % 2 ^ 16, rest)
  | _ => (0, [])

/-- `dataStream >> v` for a `glm::vec3`. -/
def readVec3 : QByteArray → Vec3 × QByteArray
  | Datum.vec3 v :: rest => (v, rest)
  | _ => (⟨0, 0, 0⟩, [])

/-- `dataStream >> q` for a `glm::quat`. -/
def readQuat : QByteArray → Quat × QByteArray
  | Datum.quat q :: rest => (q, rest)
  | _ => (⟨0, 0, 0, 0⟩, [])

/-- `dataStream >> f` for a `float`. -/
def readFloat : QByteArray → ℚ × QByteArray
  | Datum.float f :: rest => (f, rest)
  | _ => (0, [])

/-- `dataStream >> s` for a `QString`. -/
def readString : QByteArray → String × QByteArray
  | Datum.string s :: rest => (s, rest)
  | _ => ("", [])

/-- `dataStream >> n` for a `quint64`. -/
def readUInt64 : QByteArray → Nat × QByteArray
  | Datum.uint64 n :: rest => (n % 2 ^ 64, rest)
  | _ => (0, [])

/-- `dataStream >> b` for a `bool`. -/
def readBool : QByteArray → Bool × QByteArray
  | Datum.bool b :: rest => (b, rest)
  | _ => (false, [])

/-- The method `AvatarActionHold::serialize`. -/
def serialize (w : World) (self : AvatarActionHold) : QByteArray :=
  [ Datum.actionType ACTION_TYPE_HOLD,
    Datum.uuid self.getID,
    Datum.uint16 holdVersion,
    Datum.uuid self._holderID,
    Datum.vec3 self._relativePosition,
    Datum.quat self._relativeRotation,
    Datum.float self._linearTimeScale,
    Datum.string self._hand,
    Datum.uint64 (w.localTimeToServerTime self._expires),
    Datum.string self._tag,
    Datum.bool self._kinematic,
    Datum.bool self._kinematicSetVelocity ]

/-- The write-locked block of `deserialize`: the payload is read into the
members in stream order. -/
def readPayload (w : World) (self : AvatarActionHold) (dataStream : QByteArray) :
    AvatarActionHold :=
  let r1 := readUuid dataStream
  let r2 := readVec3 r1.2
  let r3 := readQuat r2.2
  let r4 := readFloat r3.2
  let r5 := readString r4.2
  let r6 := readUInt64 r5.2
  let r7 := readString r6.2
  let r8 := readBool r7.2
  let r9 := readBool r8.2
  { self with _holderID := r1.1
              _relativePosition := r2.1
              _relativeRotation := r3.1
              _linearTimeScale := r4.1
              _angularTimeScale := r4.1
              _hand := r5.1
              _expires := w.serverTimeToLocalTime r6.1
              _tag := r7.1
              _kinematic := r8.1
              _kinematicSetVelocity := r9.1
              _active := true }

/-- The method `AvatarActionHold::deserialize`. The result is `none` when an
`assert` fails in a build that has assertions (the process is aborted), and
otherwise the action afterwards with the calls made. -/
def deserialize (w : World) (self : AvatarActionHold) (serializedArguments : QByteArray) :
    Option (AvatarActionHold × List Effect) :=
  let t := readActionType serializedArguments
  if w.assertsEnabled && t.1 != self.getType then none
  else
    let i := readUuid t.2
    if w.assertsEnabled && i.1 != self.getID then none
    else
      let v := readUInt16 i.2
      if v.1 != holdVersion then some (self, [])
      else
        some (readPayload w self v.2, [Effect.activateBody, Effect.forceBodyNonStatic])

/-- An arguments map with the single entry `kinematic = true`. -/
def kinematicArguments : QVariantMap :=
  { extractVec3Argument := fun _ => none
    extractQuatArgument := fun _ => none
    extractFloatArgument := fun _ => none
    extractStringArgument := fun _ => none
    extractBooleanArgument := fun key => if key = "kinematic" then some true else none }

/-- A hold action in kinematic mode that sets the velocity, with the given
positional target. -/
def sampleKinematicHold (target : Vec3) : AvatarActionHold :=
  { sampleHold 100 1 with
    _kinematic := true
    _kinematicSetVelocity := true
    _positionalTarget := target }

/-! ## The avatar manager: data model -/

/-- The constant `MY_AVATAR_KEY`, the null `QUuid`. -/
def MY_AVATAR_KEY : QUuid := 0

/-- Modelled from the spec: the classes `AvatarData` and `Avatar` are outside
the sources. An avatar object is represented by the values `AvatarManager`
reads from it and writes to it. -/
structure AvatarData where
  /-- Result of `isInitialized()`. -/
  initialized : Bool
  /-- Result of `shouldDie()`. -/
  shouldDie : Bool
  /-- Result of `getShouldRender()`. -/
  shouldRender : Bool
  /-- Result of `getAvatarScale()`. -/
  avatarScale : ℚ
  /-- Result of `getTargetScale()`. -/
  targetScale : ℚ
  /-- Result of `getMotionState()`; `none` is the null pointer. -/
  motionState : Option Ptr
deriving DecidableEq, Repr

/-- Modelled from the spec: `setTargetScale` is outside the sources; it stores
the scale that `getTargetScale` returns. -/
def AvatarData.setTargetScale (a : AvatarData) (targetScale : ℚ) : AvatarData :=
  { a with targetScale := targetScale }

/-- The method `setMotionState`. -/
def AvatarData.setMotionState (a : AvatarData) (motionState : Option Ptr) : AvatarData :=
  { a with motionState := motionState }

/-- Modelled from the spec: the class `PIDController` is outside the sources.
Its state is the setpoint, the two limits of the controlled value, the gains
and the stored terms of the integral and the derivative. -/
structure PIDController where
  measuredValueSetpoint : ℚ
  controlledValueLowLimit : ℚ
  controlledValueHighLimit : ℚ
  kp : ℚ
  ki : ℚ
  kd : ℚ
  lastError : ℚ
  lastAccumulation : ℚ
deriving DecidableEq, Repr

namespace PIDController

/-- The method `setMeasuredValueSetpoint`. -/
def setMeasuredValueSetpoint (c : PIDController) (v : ℚ) : PIDController :=
  { c with measuredValueSetpoint := v }

/-- The method `setControlledValueLowLimit`. -/
def setControlledValueLowLimit (c : PIDController) (v : ℚ) : PIDController :=
  { c with controlledValueLowLimit := v }

/-- The method `setControlledValueHighLimit`. -/
def setControlledValueHighLimit (c : PIDController) (v : ℚ) : PIDController :=
  { c with controlledValueHighLimit := v }

/-- The method `getControlledValueLowLimit`. -/
def getControlledValueLowLimit (c : PIDController) : ℚ := c.controlledValueLowLimit

/-- The method `getControlledValueHighLimit`. -/
def getControlledValueHighLimit (c : PIDController) : ℚ := c.controlledValueHighLimit

/-- The methods `setKP`, `setKI` and `setKD`, called in this order. -/
def setGains (c : PIDController) (kp ki kd : ℚ) : PIDController :=
  { c with kp := kp, ki := ki, kd := kd }

end PIDController

/-- Modelled from the spec: the class `SimpleMovingAverage` is outside the
sources. It is a window of the last `numSamplesToAverage` samples, the most
recent first, and its average is the mean of the window. -/
structure SimpleMovingAverage where
  numSamplesToAverage : Nat
  samples : List ℚ
deriving DecidableEq, Repr

namespace SimpleMovingAverage

/-- The method `updateAverage`: push a sample into the window. -/
def updateAverage (a : SimpleMovingAverage) (sample : ℚ) : SimpleMovingAverage :=
  { a with samples := (sample :: a.samples).take a.numSamplesToAverage }

/-- The method `getAverage`: the mean of the window. -/
def getAverage (a : SimpleMovingAverage) : ℚ :=
  a.samples.sum / (a.samples.length : ℚ)

end SimpleMovingAverage

/-- The type `AvatarHash`, a `QHash<QUuid, AvatarSharedPointer>`: the entries
in iteration order; the value `none` is a null shared pointer. -/
abbrev AvatarHash := List (QUuid × Option Ptr)

namespace QHash

/-- The method `QHash::contains`. -/
def contains (h : AvatarHash) (key : QUuid) : Bool := (h.lookup key).isSome

/-- The method `QHash::value`: the stored value, or a null pointer for a key
that is not in the hash. -/
def value (h : AvatarHash) (key : QUuid) : Option Ptr := (h.lookup key).getD none

/-- The method `QHash::insert`: replace the value of a key that is present,
add the entry otherwise. -/
def insert (h : AvatarHash) (key : QUuid) (v : Option Ptr) : AvatarHash :=
  if contains h key then h.map (fun e => if e.1 = key then (key, v) else e)
  else h ++ [(key, v)]

/-- The method `QHash::take`: remove the key and return its value, a null
pointer for a key that is not in the hash. -/
def take (h : AvatarHash) (key : QUuid) : Option Ptr × AvatarHash :=
  (value h key, h.filter (fun e => e.1 ≠ key))

/-- The non-const `QHash::operator[]`: the value of the key, after inserting
a default-constructed (null) value when the key is not in the hash. -/
def index (h : AvatarHash) (key : QUuid) : Option Ptr × AvatarHash :=
  match h.lookup key with
  | some v => (v, h)
  | none => (none, h ++ [(key, none)])

/-- The method `QHash::keys`. -/
def keys (h : AvatarHash) : List QUuid := h.map Prod.fst

/-- The method `QHash::size`. -/
def size (h : AvatarHash) : Nat := h.length

end QHash

/-- A `QSet` of motion-state pointers: `insert` adds a pointer that is not
yet a member. -/
def setInsert (s : List Ptr) (p : Ptr) : List Ptr := if p ∈ s then s else s ++ [p]

/-- A `QSet` of motion-state pointers: `remove`. -/
def setRemove (s : List Ptr) (p : Ptr) : List Ptr := s.filter (fun q => q ≠ p)

/-- The class `AvatarManager`: its members, and `avatars`, the avatar objects
its shared pointers refer to. -/
structure AvatarManager where
  _avatarHash : AvatarHash
  _avatarFades : List Ptr
  _myAvatar : Ptr
  avatars : Ptr → AvatarData
  _renderDistance : ℚ
  _renderedAvatarCount : Nat
  _renderDistanceController : PIDController
  _renderDistanceAverage : SimpleMovingAverage
  _avatarMotionStates : List Ptr
  _motionStatesToAdd : List Ptr
  _motionStatesToDelete : List Ptr

/-- What the avatar manager uses and the sources do not contain. -/
structure Engine where
  /-- The constant `MIN_AVATAR_SCALE`. -/
  MIN_AVATAR_SCALE : ℚ
  /-- The method `Avatar::simulate(deltaTime)`: the avatar object afterwards. -/
  simulate : ℚ → AvatarData → AvatarData
  /-- The method `PIDController::update(measuredValue, dt)`: the controller
  afterwards and the controlled value it returns. -/
  pidUpdate : PIDController → ℚ → ℚ → PIDController × ℚ

/-- Modelled from the spec: `Avatar::simulate` is outside the sources; a fade
entry is simulated at the shrunken scale, that is, after `simulate` the scale
of the avatar is its target scale. -/
def SimulatesAtTargetScale (env : Engine) : Prop :=
  ∀ (deltaTime : ℚ) (a : AvatarData), (env.simulate deltaTime a).avatarScale = a.targetScale

/-- What `updateOtherAvatars` asks of `qApp` in one call, with its argument. -/
structure Frame where
  /-- Result of `qApp->isThrottleRendering()`. -/
  isThrottleRendering : Bool
  /-- Result of `qApp->getTargetFrameRate()`. -/
  getTargetFrameRate : ℚ
  /-- Result of `qApp->getLastUnsynchronizedFps()`. -/
  getLastUnsynchronizedFps : ℚ
  /-- The argument `deltaTime`. -/
  deltaTime : ℚ
deriving DecidableEq, Repr

/-! ## The avatar manager: operations -/

/-- The method `AvatarManager::init`. `_myAvatar->init()` and the calls on the
scene do not change the members modelled here. `targetFps` is
`qApp->getTargetFrameRate()`, `highLimit` the value of the setting
`avatarRenderDistanceHighLimit`, `treeScale` the constant `TREE_SCALE`. -/
def AvatarManager.init (m : AvatarManager) (targetFps highLimit treeScale : ℚ) :
    AvatarManager :=
  { m with
    _avatarHash := QHash.insert m._avatarHash MY_AVATAR_KEY (some m._myAvatar)
    _renderDistanceController :=
      (((m._renderDistanceController.setMeasuredValueSetpoint targetFps
        ).setControlledValueHighLimit highLimit
        ).setControlledValueLowLimit (1 / treeScale)
        ).setGains (8 / 10000) (6 / 10000) (1 / 1000000) }

/-- The method `AvatarManager::removeAvatarMotionState`. -/
def removeAvatarMotionState (m : AvatarManager) (avatar : Ptr) : AvatarManager :=
  match (m.avatars avatar).motionState with
  | none => m
  | some motionState =>
    { m with
      avatars := Function.update m.avatars avatar ((m.avatars avatar).setMotionState none)
      _avatarMotionStates := setRemove m._avatarMotionStates motionState
      _motionStatesToAdd := setRemove m._motionStatesToAdd motionState
      _motionStatesToDelete := m._motionStatesToDelete ++ [motionState] }

/-- The method `AvatarManager::handleRemovedAvatar`. The base-class method
`AvatarHashMap::handleRemovedAvatar`, outside the sources, is taken to leave
the members modelled here as they are. -/
def handleRemovedAvatar (m : AvatarManager) (removedAvatar : Ptr) : AvatarManager :=
  let m1 := removeAvatarMotionState m removedAvatar
  { m1 with _avatarFades := m1._avatarFades ++ [removedAvatar] }

/-- The method `AvatarManager::removeAvatar`. -/
def removeAvatar (m : AvatarManager) (sessionUUID : QUuid) : AvatarManager :=
  let t := QHash.take m._avatarHash sessionUUID
  let m1 := { m with _avatarHash := t.2 }
  match t.1 with
  | some removedAvatar => handleRemovedAvatar m1 removedAvatar
  | none => m1

/-- The constant `SHRINK_RATE = 0.9f`. -/
def SHRINK_RATE : ℚ := 9 / 10

/-- State of the loop of `simulateAvatarFades`: the avatar objects, the
entries of `_avatarFades` before the iterator, and the avatars handed to
`removeFromScene`. -/
structure FadeLoop where
  avatars : Ptr → AvatarData
  kept : List Ptr
  removedFromScene : List Ptr

/-- The loop of `simulateAvatarFades` over the entries from the iterator to
the end of `_avatarFades`. -/
def fadeLoop (env : Engine) (deltaTime : ℚ) : List Ptr → FadeLoop → FadeLoop
  | [], st => st
  | avatar :: rest, st =>
    let a := (st.avatars avatar).setTargetScale ((st.avatars avatar).avatarScale * SHRINK_RATE)
    if a.targetScale ≤ env.MIN_AVATAR_SCALE then
      fadeLoop env deltaTime rest
        { st with
          avatars := Function.update st.avatars avatar a
          removedFromScene := st.removedFromScene ++ [avatar] }
    else
      fadeLoop env deltaTime rest
        { st with
          avatars := Function.update st.avatars avatar (env.simulate deltaTime a)
          kept := st.kept ++ [avatar] }

/-- The method `AvatarManager::simulateAvatarFades`: the manager afterwards
and the avatars removed from the scene, in order. -/
def simulateAvatarFades (env : Engine) (m : AvatarManager) (deltaTime : ℚ) :
    AvatarManager × List Ptr :=
  let r := fadeLoop env deltaTime m._avatarFades
    { avatars := m.avatars, kept := [], removedFromScene := [] }
  ({ m with avatars := r.avatars, _avatarFades := r.kept }, r.removedFromScene)

/-- The loop of `updateOtherAvatars` over the entries of the hash copy, with
the manager and `renderableCount`. The result is `none` when a null avatar
pointer is dereferenced. -/
def updateLoop (env : Engine) (deltaTime : ℚ) :
    List (QUuid × Option Ptr) → AvatarManager × Nat → Option (AvatarManager × Nat)
  | [], st => some st
  | (_, none) :: _, _ => none
  | (key, some avatar) :: rest, (m, renderableCount) =>
    if avatar = m._myAvatar || !(m.avatars avatar).initialized then
      updateLoop env deltaTime rest (m, renderableCount)
    else if (m.avatars avatar).shouldDie then
      updateLoop env deltaTime rest (removeAvatar m key, renderableCount)
    else
      let a := env.simulate deltaTime (m.avatars avatar)
      updateLoop env deltaTime rest
        ({ m with avatars := Function.update m.avatars avatar a },
          if a.shouldRender then renderableCount + 1 else renderableCount)

/-- Whether `updateOtherAvatars` returns at once. -/
def returnsEarly (m : AvatarManager) : Bool :=
  decide (QHash.size m._avatarHash < 2) && m._avatarFades.isEmpty

/-- The part of `updateOtherAvatars` that computes the render distance. -/
def updateRenderDistance (env : Engine) (m : AvatarManager) (frame : Frame) : AvatarManager :=
  let r : PIDController × ℚ :=
    if !frame.isThrottleRendering then
      let c := m._renderDistanceController.setMeasuredValueSetpoint frame.getTargetFrameRate
      let deduced := frame.getLastUnsynchronizedFps
      let u := env.pidUpdate c deduced frame.deltaTime
      (u.1, 1 / u.2)
    else
      (m._renderDistanceController,
        1 / m._renderDistanceController.getControlledValueLowLimit)
  let average := m._renderDistanceAverage.updateAverage r.2
  { m with
    _renderDistanceController := r.1
    _renderDistanceAverage := average
    _renderDistance := average.getAverage }

/-- The method `AvatarManager::updateOtherAvatars`: the manager afterwards
and the avatars removed from the scene; `none` when a null avatar pointer is
dereferenced. -/
def updateOtherAvatars (env : Engine) (m : AvatarManager) (frame : Frame) :
    Option (AvatarManager × List Ptr) :=
  if returnsEarly m then some (m, [])
  else
    let m1 := updateRenderDistance env m frame
    let hashCopy := m1._avatarHash
    match updateLoop env frame.deltaTime hashCopy (m1, 0) with
    | none => none
    | some (m2, renderableCount) =>
      some (simulateAvatarFades env { m2 with _renderedAvatarCount := renderableCount }
        frame.deltaTime)

/-- The loop of `clearOtherAvatars` over the entries from the iterator to the
end of the hash; `kept` holds the entries before the iterator. The result is
`none` when a null avatar pointer is dereferenced. -/
def clearLoop : List (QUuid × Option Ptr) → AvatarHash → AvatarManager → Option AvatarManager
  | [], kept, m => some { m with _avatarHash := kept }
  | (_, none) :: _, _, _ => none
  | (key, some avatar) :: rest, kept, m =>
    if avatar = m._myAvatar || !(m.avatars avatar).initialized then
      clearLoop rest (kept ++ [(key, some avatar)]) m
    else
      clearLoop rest kept (handleRemovedAvatar m avatar)

/-- The method `AvatarManager::clearOtherAvatars`. -/
def clearOtherAvatars (m : AvatarManager) : Option AvatarManager :=
  clearLoop m._avatarHash [] m

/-- The method `AvatarManager::getAvatarIdentifiers`. -/
def getAvatarIdentifiers (m : AvatarManager) : List QUuid := QHash.keys m._avatarHash

/-- The method `AvatarManager::getAvatar`: the returned pointer (`none` is
null) and the manager afterwards. -/
def getAvatar (m : AvatarManager) (avatarID : QUuid) : Option Ptr × AvatarManager :=
  let r := QHash.index m._avatarHash avatarID
  (r.1, { m with _avatarHash := r.2 })

/-- The method `AvatarManager::getRenderDistance`. -/
def getRenderDistance (m : AvatarManager) : ℚ := m._renderDistance

/-- A sequence of calls of `updateOtherAvatars`, one per frame. -/
def updateOtherAvatarsRun (env : Engine) : AvatarManager → List Frame → Option AvatarManager
  | m, [] => some m
  | m, frame :: rest =>
    match updateOtherAvatars env m frame with
    | none => none
    | some r => updateOtherAvatarsRun env r.1 rest

/-- Repeated calls of `simulateAvatarFades`, one per tick. -/
def simulateAvatarFadesRun (env : Engine) (deltaTime : ℚ) : Nat → AvatarManager → AvatarManager
  | 0, m => m
  | n + 1, m => simulateAvatarFadesRun env deltaTime n (simulateAvatarFades env m deltaTime).1

/-! ## The avatar manager: sample data -/

/-- An avatar object with the given flag `initialized` and scale. -/
def sampleAvatarData (initialized : Bool) (scale : ℚ) : AvatarData :=
  { initialized := initialized
    shouldDie := false
    shouldRender := true
    avatarScale := scale
    targetScale := scale
    motionState := none }

/-- A sample controller: proportional and integral terms, the output clamped
to the limits. -/
def samplePidUpdate (c : PIDController) (measuredValue dt : ℚ) : PIDController × ℚ :=
  let error := measuredValue - c.measuredValueSetpoint
  let accumulation := c.lastAccumulation + error * dt
  ({ c with lastError := error, lastAccumulation := accumulation },
    max c.controlledValueLowLimit
      (min c.controlledValueHighLimit (c.kp * error + c.ki * accumulation)))

/-- A sample engine: the smallest avatar scale is `1/200`, and `simulate`
brings the scale of the avatar to its target scale. -/
def sampleEngine : Engine :=
  { MIN_AVATAR_SCALE := 1 / 200
    simulate := fun _ a => { a with avatarScale := a.targetScale }
    pidUpdate := samplePidUpdate }

/-- A manager as its constructor leaves it: the local avatar is the object at
address 1; the objects at 2 and 4 are initialized avatars of scale 1, the
object at 3 is an avatar that is not initialized. -/
def constructedManager : AvatarManager :=
  { _avatarHash := []
    _avatarFades := []
    _myAvatar := 1
    avatars := fun p => sampleAvatarData (decide (p ≠ 3)) 1
    _renderDistance := 32768
    _renderedAvatarCount := 0
    _renderDistanceController := ⟨0, 0, 0, 0, 0, 0, 0, 0⟩
    _renderDistanceAverage := ⟨10, []⟩
    _avatarMotionStates := []
    _motionStatesToAdd := []
    _motionStatesToDelete := [] }

/-- The constructed manager after `init`, with target frame rate 60, the high
limit `1/5` and `TREE_SCALE = 32768`. -/
def initializedManager : AvatarManager := constructedManager.init 60 (1 / 5) 32768

/-- The initialized manager after the avatars at 2 and 3 were added under the
identifiers 5 and 6. -/
def sampleManager : AvatarManager :=
  { initializedManager with
    _avatarHash := initializedManager._avatarHash ++ [(5, some 2), (6, some 3)] }

/-- Whether `simulateAvatarFades` removes an avatar object: its scale times
the shrink rate is at most the smallest fade scale. -/
def vanishes (env : Engine) (a : AvatarData) : Bool :=
  decide (a.avatarScale * SHRINK_RATE ≤ env.MIN_AVATAR_SCALE)

/-- What one pass of `simulateAvatarFades` does to the avatar object of a fade
entry: the target scale becomes the scale times the shrink rate, and the
avatar is simulated unless it is removed. -/
def fadeStep (env : Engine) (deltaTime : ℚ) (a : AvatarData) : AvatarData :=
  if vanishes env a then a.setTargetScale (a.avatarScale * SHRINK_RATE)
  else env.simulate deltaTime (a.setTargetScale (a.avatarScale * SHRINK_RATE))

/-- The sample manager with the fade list `[2, 4]`: the avatar at 2 has scale
1, the avatar at 4 the smallest scale `1/200`. -/
def sampleFadingManager : AvatarManager :=
  { sampleManager with
    _avatarFades := [2, 4]
    avatars := fun p => if p = 4 then sampleAvatarData true (1 / 200) else sampleManager.avatars p }

/-- The sample manager with the single fade entry 2, of scale `s`. -/
def sampleSingleFade (s : ℚ) : AvatarManager :=
  { sampleManager with
    _avatarFades := [2]
    avatars := fun p => if p = 2 then sampleAvatarData true s else sampleManager.avatars p }

/-! ## The avatar manager: sequences of operations -/

/-- The operations on the avatar manager that remove or fade avatars. -/
inductive ManagerOp where
  | removeAvatar (sessionUUID : QUuid)
  | clearOtherAvatars
  | updateOtherAvatars (frame : Frame)
  | simulateAvatarFades (deltaTime : ℚ)
deriving DecidableEq, Repr

/-- The manager after one operation; `none` when a null avatar pointer is
dereferenced. -/
def ManagerOp.apply (env : Engine) (m : AvatarManager) : ManagerOp → Option AvatarManager
  | ManagerOp.removeAvatar sessionUUID => some (Hifi.removeAvatar m sessionUUID)
  | ManagerOp.clearOtherAvatars => Hifi.clearOtherAvatars m
  | ManagerOp.updateOtherAvatars frame => (Hifi.updateOtherAvatars env m frame).map Prod.fst
  | ManagerOp.simulateAvatarFades deltaTime => some (Hifi.simulateAvatarFades env m deltaTime).1

/-- The manager after a sequence of operations. -/
def runOperations (env : Engine) : AvatarManager → List ManagerOp → Option AvatarManager
  | m, [] => some m
  | m, op :: rest =>
    match op.apply env m with
    | none => none
    | some m1 => runOperations env m1 rest

/-- The shape of the registry that `init` establishes: no identifier occurs
twice, the null identifier maps to the local avatar, which is stored under no
other identifier, no entry holds a null pointer, and the local avatar is not
in the fade list. -/
def RegistryInvariant (m : AvatarManager) : Prop :=
  (QHash.keys m._avatarHash).Nodup ∧
    (MY_AVATAR_KEY, some m._myAvatar) ∈ m._avatarHash ∧
    (∀ e ∈ m._avatarHash, e.2 ≠ none) ∧
    (∀ e ∈ m._avatarHash, e.2 = some m._myAvatar → e.1 = MY_AVATAR_KEY) ∧
    m._myAvatar ∉ m._avatarFades

/-- The members that hold the state of the render-distance governor. -/
def governorState (m : AvatarManager) : PIDController × SimpleMovingAverage × ℚ :=
  (m._renderDistanceController, m._renderDistanceAverage, m._renderDistance)

/-- What a call of `updateOtherAvatars` that reaches the controller does to
it: the setpoint is set and `update` is called. -/
def governorStep (env : Engine) (c : PIDController) (frame : Frame) : PIDController :=
  (env.pidUpdate (c.setMeasuredValueSetpoint frame.getTargetFrameRate)
    frame.getLastUnsynchronizedFps frame.deltaTime).1

/-- The frames of a run in which the controller is updated: those that are
not throttled and get past the early return. -/
def governedFrames (env : Engine) : AvatarManager → List Frame → List Frame
  | _, [] => []
  | m, frame :: rest =>
    match updateOtherAvatars env m frame with
    | none => []
    | some r =>
      (if !returnsEarly m && !frame.isThrottleRendering then [frame] else []) ++
        governedFrames env r.1 rest

/-- A frame that is rendered at 30 frames per second, the target being 60. -/
def sampleFrame : Frame :=
  { isThrottleRendering := false
    getTargetFrameRate := 60
    getLastUnsynchronizedFps := 30
    deltaTime := 1 / 30 }

/-- A frame whose rendering is throttled. -/
def sampleThrottledFrame : Frame :=
  { sampleFrame with isThrottleRendering := true }

/-- The initialized manager with one other avatar, under the identifier 5,
that is about to die and has the smallest scale. -/
def sampleDyingManager : AvatarManager :=
  { initializedManager with
    _avatarHash := initializedManager._avatarHash ++ [(5, some 2)]
    avatars := fun p =>
      if p = 2 then { sampleAvatarData true (1 / 200) with shouldDie := true }
      else initializedManager.avatars p }

/-- The governor works within the limits `low` and `high`: these are the
limits of the controller, the window has room for a sample, and the samples
in the window and the stored render distance lie in `[1/high, 1/low]`. -/
def GovernorBounded (low high : ℚ) (m : AvatarManager) : Prop :=
  m._renderDistanceController.controlledValueLowLimit = low ∧
    m._renderDistanceController.controlledValueHighLimit = high ∧
    0 < m._renderDistanceAverage.numSamplesToAverage ∧
    (∀ x ∈ m._renderDistanceAverage.samples, 1 / high ≤ x ∧ x ≤ 1 / low) ∧
    1 / high ≤ m._renderDistance ∧ m._renderDistance ≤ 1 / low

/-- The controller keeps its output within its limits and does not move
them. -/
def ClampedController (env : Engine) : Prop :=
  ∀ (c : PIDController) (measuredValue dt : ℚ),
    c.controlledValueLowLimit ≤ c.controlledValueHighLimit →
      c.controlledValueLowLimit ≤ (env.pidUpdate c measuredValue dt).2 ∧
        (env.pidUpdate c measuredValue dt).2 ≤ c.controlledValueHighLimit ∧
        (env.pidUpdate c measuredValue dt).1.controlledValueLowLimit =
          c.controlledValueLowLimit ∧
        (env.pidUpdate c measuredValue dt).1.controlledValueHighLimit =
          c.controlledValueHighLimit

/-- A frame that is rendered at 90 frames per second, the target being 60. -/
def sampleFastFrame : Frame :=
  { sampleFrame with getLastUnsynchronizedFps := 90 }

/-- Whether an entry of the registry holds the local avatar or an avatar that
is not initialized, the entries that `clearOtherAvatars` leaves in place. -/
def staysOnClear (m : AvatarManager) (e : QUuid × Option Ptr) : Bool :=
  match e.2 with
  | some avatar => decide (avatar = m._myAvatar) || !(m.avatars avatar).initialized
  | none => false

/-! ## The avatar manager: motion states -/

/-- The method `AvatarManager::updateAvatarPhysicsShape`. `shape` tells
whether the shape manager returns a shape, `newMotionState` is the address
that `new AvatarMotionState` returns. The second component lists the motion
states that received `addDirtyFlags(Simulation::DIRTY_SHAPE)`. -/
def updateAvatarPhysicsShape (m : AvatarManager) (avatar : Ptr) (shape : Bool)
    (newMotionState : Ptr) : AvatarManager × List Ptr :=
  match (m.avatars avatar).motionState with
  | some motionState => (m, [motionState])
  | none =>
    if shape then
      ({ m with
          avatars :=
            Function.update m.avatars avatar
              ((m.avatars avatar).setMotionState (some newMotionState))
          _motionStatesToAdd := setInsert m._motionStatesToAdd newMotionState
          _avatarMotionStates := setInsert m._avatarMotionStates newMotionState }, [])
    else (m, [])

/-- The method `AvatarManager::getObjectsToDelete`: the vector `result` after
the call and the manager afterwards. -/
def getObjectsToDelete (m : AvatarManager) : List Ptr × AvatarManager :=
  (m._motionStatesToDelete, { m with _motionStatesToDelete := [] })

/-- The method `AvatarManager::getObjectsToAdd`: the vector `result` after the
call and the manager afterwards. -/
def getObjectsToAdd (m : AvatarManager) : List Ptr × AvatarManager :=
  (m._motionStatesToAdd, { m with _motionStatesToAdd := [] })

/-- The bookkeeping of the motion states: every motion state waiting to be
added is a motion state of an avatar, and a motion state waiting to be deleted
is neither. -/
def MotionStateInvariant (m : AvatarManager) : Prop :=
  (∀ motionState ∈ m._motionStatesToAdd, motionState ∈ m._avatarMotionStates) ∧
    (∀ motionState ∈ m._motionStatesToDelete,
      motionState ∉ m._avatarMotionStates ∧ motionState ∉ m._motionStatesToAdd)

/-- The sample manager after the avatars at 2 and 4 were given the motion
states 20 and 40, of which 20 has been handed to the physics engine. -/
def samplePhysicsManager : AvatarManager :=
  { sampleManager with
    avatars := fun p =>
      if p = 2 then { sampleAvatarData true 1 with motionState := some 20 }
      else if p = 4 then { sampleAvatarData true 1 with motionState := some 40 }
      else sampleManager.avatars p
    _avatarMotionStates := [20, 40]
    _motionStatesToAdd := [40]
    _motionStatesToDelete := [30] }

/-! ## "Nothing to update", in the words of the amended claims C8 and C11 -/

/-- The condition under which `updateArguments` has nothing to update, written
from its description and not from the guard of the code: the base class
reports no change, and nothing that was read differs from the stored member it
would replace. An extracted position, rotation, time scale, `kinematic`,
`kinematicSetVelocity` or `ignoreIK` equals the stored value; an extracted hand
that is "left" or "right" equals the stored hand; the session UUID of the
local avatar equals the stored holder. An argument that is absent or fails
extraction differs from nothing. -/
def nothingToUpdate (w : World) (self : AvatarActionHold) (arguments : QVariantMap) : Bool :=
  (w.objectActionUpdateArguments arguments self.toObjectAction).2 = false ∧
  (∀ v, arguments.extractVec3Argument "relativePosition" = some v → v = self._relativePosition) ∧
  (∀ q, arguments.extractQuatArgument "relativeRotation" = some q → q = self._relativeRotation) ∧
  (∀ t, arguments.extractFloatArgument "timeScale" = some t → t = self._linearTimeScale) ∧
  (∀ h, arguments.extractStringArgument "hand" = some h → h = "left" ∨ h = "right" →
    h = self._hand) ∧
  w.myAvatarSessionUUID = self._holderID ∧
  (∀ b, arguments.extractBooleanArgument "kinematic" = some b → b = self._kinematic) ∧
  (∀ b, arguments.extractBooleanArgument "kinematicSetVelocity" = some b →
    b = self._kinematicSetVelocity) ∧
  (∀ b, arguments.extractBooleanArgument "ignoreIK" = some b → b = self._ignoreIK)

/-- An arguments map with the two entries `timeScale = t` and
`kinematic = true`. -/
def timeScaleKinematicArguments (t : ℚ) : QVariantMap :=
  { extractVec3Argument := fun _ => none
    extractQuatArgument := fun _ => none
    extractFloatArgument := fun key => if key = "timeScale" then some t else none
    extractStringArgument := fun _ => none
    extractBooleanArgument := fun key => if key = "kinematic" then some true else none }

/-- The sample manager when every avatar object, the local one included, is
about to die. -/
def sampleAllDyingManager : AvatarManager :=
  { sampleManager with
    avatars := fun p => { sampleManager.avatars p with shouldDie := true } }

/-! ## Properties of the target resolver -/

theorem Vec3.add_def (a b : Vec3) : a + b = ⟨a.x + b.x, a.y + b.y, a.z + b.z⟩ := rfl

theorem Vectors.ZERO_eq_zero : Vectors.ZERO = (0 : Vec3) := rfl

theorem holdLoopBody_live (w : World) (heap : Ptr → AvatarActionHold) (this : Ptr)
    (acc : HoldLoop) (action : Ptr)
    (h : (targetOf w heap action).holdingAvatar.isSome = true) :
    holdLoopBody w heap this acc action =
      { holdCount := acc.holdCount + 1
        valid := if action = this then true else acc.valid
        rotation := if action = this then (targetOf w heap action).rotation else acc.rotation
        position := acc.position + (targetOf w heap action).position } := by
  unfold targetOf at h
  simp [holdLoopBody, targetOf, h]

theorem holdLoopBody_dead (w : World) (heap : Ptr → AvatarActionHold) (this : Ptr)
    (acc : HoldLoop) (action : Ptr)
    (h : (targetOf w heap action).holdingAvatar.isSome = false) :
    holdLoopBody w heap this acc action = acc := by
  unfold targetOf at h
  simp [holdLoopBody, h]

/-- The loop of `updateActionWorker`, started from any values of the locals:
it counts the live holders, adds up their positions, and records the rotation
of the evaluated action when that action is among them. -/
theorem foldl_holdLoopBody (w : World) (heap : Ptr → AvatarActionHold) (this : Ptr)
    (holdActions : List Ptr) (acc : HoldLoop) :
    holdActions.foldl (holdLoopBody w heap this) acc =
      { holdCount := acc.holdCount + (liveHolders w heap holdActions).length
        valid := acc.valid || decide (this ∈ liveHolders w heap holdActions)
        rotation :=
          if this ∈ liveHolders w heap holdActions then (targetOf w heap this).rotation
          else acc.rotation
        position :=
          acc.position +
            ((liveHolders w heap holdActions).map (fun p => (targetOf w heap p).position)).sum } := by
  induction holdActions generalizing acc with
  | nil => simp [liveHolders]
  | cons a rest ih =>
    rw [List.foldl_cons, ih]
    cases h : (targetOf w heap a).holdingAvatar.isSome
    · rw [holdLoopBody_dead w heap this acc a h]
      simp [liveHolders, List.filter_cons, h]
    · rw [holdLoopBody_live w heap this acc a h]
      by_cases hat : a = this
      · subst hat
        simp [liveHolders, List.filter_cons, h, add_assoc, Nat.add_comm]
      · have hne : ¬ this = a := fun e => hat e.symm
        simp [liveHolders, List.filter_cons, h, hat, hne, add_assoc, Nat.add_comm]

theorem holdLoop_eq (w : World) (heap : Ptr → AvatarActionHold) (this : Ptr)
    (holdActions : List Ptr) :
    holdLoop w heap this holdActions =
      { holdCount := (liveHolders w heap holdActions).length
        valid := decide (this ∈ liveHolders w heap holdActions)
        rotation :=
          if this ∈ liveHolders w heap holdActions then (targetOf w heap this).rotation
          else Quaternions.IDENTITY
        position :=
          ((liveHolders w heap holdActions).map (fun p => (targetOf w heap p).position)).sum } := by
  unfold holdLoop
  rw [foldl_holdLoopBody]
  simp [Vectors.ZERO_eq_zero]

theorem mem_liveHolders (w : World) (heap : Ptr → AvatarActionHold) (holdActions : List Ptr)
    (p : Ptr) :
    p ∈ liveHolders w heap holdActions ↔
      p ∈ holdActions ∧ (targetOf w heap p).holdingAvatar.isSome = true := by
  simp [liveHolders, List.mem_filter]

/-- The kinematic update writes only the `_previous*` members. -/
theorem doKinematicUpdate_spring (w : World) (self : AvatarActionHold) (deltaTimeStep : ℚ) :
    (doKinematicUpdate w self deltaTimeStep).1.toObjectActionSpring =
      self.toObjectActionSpring := by
  unfold doKinematicUpdate
  split
  · rfl
  · split
    · rfl
    · split
      · rfl
      · dsimp only
        split <;> rfl

/-- What `updateActionWorker` stores when the evaluated action has a live
holder and the write lock is obtained. -/
theorem updateActionWorker_spring (w : World) (heap : Ptr → AvatarActionHold) (this : Ptr)
    (deltaTimeStep : ℚ) (ownerEntity : EntityItem)
    (hOwner : w.ownerEntity = some ownerEntity)
    (hLive : this ∈ liveHolders w heap ownerEntity.holdActions)
    (hLock : w.tryWriteLock = true) :
    (updateActionWorker w heap this deltaTimeStep).1.toObjectActionSpring =
      { (heap this).toObjectActionSpring with
        _positionalTarget :=
          Vec3.divScalar
            ((liveHolders w heap ownerEntity.holdActions).map
              (fun p => (targetOf w heap p).position)).sum
            ((liveHolders w heap ownerEntity.holdActions).length : ℚ)
        _rotationalTarget := (targetOf w heap this).rotation
        _positionalTargetSet := true
        _rotationalTargetSet := true
        _active := true } := by
  have hpos : 0 < (liveHolders w heap ownerEntity.holdActions).length :=
    List.length_pos_of_mem hLive
  unfold updateActionWorker
  simp only [hOwner, holdLoop_eq, hLive, hLock, hpos, decide_True, Bool.and_self, if_true]
  split
  · rw [doKinematicUpdate_spring]
  · rfl

/-- C1. When the evaluated hold action has a live holder and the try-write
lock is acquired, `updateActionWorker` sets `_positionalTarget` to the sum of
the positions `getTarget` computed for exactly the hold actions whose holding
avatar is found, divided by their number; with two live holders this is the
mean of their two positions. -/
theorem updateActionWorker_positionalTarget_mean (w : World)
    (heap : Ptr → AvatarActionHold) (this : Ptr) (deltaTimeStep : ℚ)
    (ownerEntity : EntityItem)
    (hOwner : w.ownerEntity = some ownerEntity)
    (hThis : this ∈ ownerEntity.holdActions)
    (hHolder : (targetOf w heap this).holdingAvatar.isSome = true)
    (hLock : w.tryWriteLock = true) :
    (updateActionWorker w heap this deltaTimeStep).1._positionalTarget =
        Vec3.divScalar
          ((liveHolders w heap ownerEntity.holdActions).map
            (fun p => (targetOf w heap p).position)).sum
          ((liveHolders w heap ownerEntity.holdActions).length : ℚ) ∧
      ∀ a b : Ptr, liveHolders w heap ownerEntity.holdActions = [a, b] →
        (updateActionWorker w heap this deltaTimeStep).1._positionalTarget =
          Vec3.divScalar ((targetOf w heap a).position + (targetOf w heap b).position) 2 := by
  have hLive : this ∈ liveHolders w heap ownerEntity.holdActions :=
    (mem_liveHolders w heap _ this).2 ⟨hThis, hHolder⟩
  have h := congrArg ObjectActionSpring._positionalTarget
    (updateActionWorker_spring w heap this deltaTimeStep ownerEntity hOwner hLive hLock)
  refine ⟨h, ?_⟩
  intro a b hab
  have h2 := h
  rw [hab] at h2
  rw [h2]
  simp

/-- C1 on the sample data: the action at address 10 is evaluated; the
holders of the actions at 10 and 11 are present, at `(2, 0, 0)` and
`(4, 2, 6)`, the holder of 12 is not; the target is `(3, 1, 3)`. -/
theorem updateActionWorker_positionalTarget_mean_witness :
    liveHolders sampleWorld sampleHeap sampleEntity.holdActions = [10, 11] ∧
      (targetOf sampleWorld sampleHeap 10).position = ⟨2, 0, 0⟩ ∧
      (targetOf sampleWorld sampleHeap 11).position = ⟨4, 2, 6⟩ ∧
      (updateActionWorker sampleWorld sampleHeap 10 1).1._positionalTarget = ⟨3, 1, 3⟩ := by
  have hLive : liveHolders sampleWorld sampleHeap sampleEntity.holdActions = [10, 11] := by
    decide
  have h10 : (targetOf sampleWorld sampleHeap 10).position = ⟨2, 0, 0⟩ := by
    norm_num [targetOf, getTarget, sampleWorld, sampleHeap, sampleHold, palmPose,
      sampleMyAvatar, Quat.rotate, Vec3.cross, Vec3.mulScalar, Vec3.add_def, Vectors.ZERO]
  have h11 : (targetOf sampleWorld sampleHeap 11).position = ⟨4, 2, 6⟩ := by
    norm_num [targetOf, getTarget, sampleWorld, sampleHeap, sampleHold, palmPose,
      sampleAvatar, Quat.rotate, Vec3.cross, Vec3.mulScalar, Vec3.add_def, Vectors.ZERO]
  refine ⟨hLive, h10, h11, ?_⟩
  rw [(updateActionWorker_positionalTarget_mean sampleWorld sampleHeap 10 1 sampleEntity
    rfl (by decide) (by decide) rfl).2 10 11 hLive, h10, h11]
  norm_num [Vec3.add_def, Vec3.divScalar]

/-- C2. When the evaluated hold action has a live holder and the try-write
lock is acquired, `updateActionWorker` sets `_rotationalTarget` to the
rotation `getTarget` computed for the evaluated action itself; a second run
in which `getTarget` answers the same for the evaluated action stores the same
rotation, whatever the other hold actions and their holders are. -/
theorem updateActionWorker_rotationalTarget_own (w : World)
    (heap : Ptr → AvatarActionHold) (this : Ptr) (deltaTimeStep : ℚ)
    (ownerEntity : EntityItem)
    (hOwner : w.ownerEntity = some ownerEntity)
    (hThis : this ∈ ownerEntity.holdActions)
    (hHolder : (targetOf w heap this).holdingAvatar.isSome = true)
    (hLock : w.tryWriteLock = true) :
    (updateActionWorker w heap this deltaTimeStep).1._rotationalTarget =
        (targetOf w heap this).rotation ∧
      ∀ (w2 : World) (heap2 : Ptr → AvatarActionHold) (ownerEntity2 : EntityItem),
        w2.ownerEntity = some ownerEntity2 → this ∈ ownerEntity2.holdActions →
        w2.tryWriteLock = true → targetOf w2 heap2 this = targetOf w heap this →
        (updateActionWorker w2 heap2 this deltaTimeStep).1._rotationalTarget =
          (updateActionWorker w heap this deltaTimeStep).1._rotationalTarget := by
  have hLive : this ∈ liveHolders w heap ownerEntity.holdActions :=
    (mem_liveHolders w heap _ this).2 ⟨hThis, hHolder⟩
  have h := congrArg ObjectActionSpring._rotationalTarget
    (updateActionWorker_spring w heap this deltaTimeStep ownerEntity hOwner hLive hLock)
  refine ⟨h, ?_⟩
  intro w2 heap2 ownerEntity2 hOwner2 hThis2 hLock2 ht
  have hLive2 : this ∈ liveHolders w2 heap2 ownerEntity2.holdActions :=
    (mem_liveHolders w2 heap2 _ this).2 ⟨hThis2, by rw [ht]; exact hHolder⟩
  have h3 := congrArg ObjectActionSpring._rotationalTarget
    (updateActionWorker_spring w2 heap2 this deltaTimeStep ownerEntity2 hOwner2 hLive2 hLock2)
  rw [h]
  rw [h3]
  exact congrArg Target.rotation ht

/-- C2 on the sample data: the action at address 10 is evaluated while the
action at 11 has another live holder; the rotation stored is that of the
holder of 10, also after the action at 11 is given another relative rotation. -/
theorem updateActionWorker_rotationalTarget_own_witness :
    (updateActionWorker sampleWorld sampleHeap 10 1).1._rotationalTarget = ⟨0, 0, 0, 1⟩ ∧
      sampleHeapTurned 11 ≠ sampleHeap 11 ∧
      (updateActionWorker sampleWorld sampleHeapTurned 10 1).1._rotationalTarget =
        ⟨0, 0, 0, 1⟩ := by
  have h := updateActionWorker_rotationalTarget_own sampleWorld sampleHeap 10 1 sampleEntity
    rfl (by decide) (by decide) rfl
  have h10 : (targetOf sampleWorld sampleHeap 10).rotation = ⟨0, 0, 0, 1⟩ := by
    show (_ : Quat) = _
    norm_num [targetOf, getTarget, sampleWorld, sampleHeap, sampleHold, palmPose,
      sampleMyAvatar, Quaternions.IDENTITY]
    show Quat.mul _ _ = _
    norm_num [Quat.mul]
  refine ⟨h.1.trans h10, ?_, ?_⟩
  · simp [sampleHeapTurned, sampleHeap, sampleHold, Quaternions.IDENTITY]
  · rw [h.2 sampleWorld sampleHeapTurned sampleEntity rfl (by decide) rfl rfl]
    exact h.1.trans h10

/-- C3. If the owner entity no longer exists, or no hold action attached to
it has a live holder, `updateActionWorker` leaves the evaluated action as it
was and makes no call: neither the kinematic nor the spring update runs. -/
theorem updateActionWorker_no_holder (w : World) (heap : Ptr → AvatarActionHold)
    (this : Ptr) (deltaTimeStep : ℚ)
    (h : w.ownerEntity = none ∨
      ∃ ownerEntity, w.ownerEntity = some ownerEntity ∧
        ∀ p ∈ ownerEntity.holdActions, (targetOf w heap p).holdingAvatar = none) :
    updateActionWorker w heap this deltaTimeStep = (heap this, []) := by
  rcases h with h | ⟨ownerEntity, hOwner, hNone⟩
  · simp [updateActionWorker, h]
  · have hEmpty : liveHolders w heap ownerEntity.holdActions = [] := by
      unfold liveHolders
      rw [List.filter_eq_nil_iff]
      intro p hp
      simp [hNone p hp]
    simp [updateActionWorker, hOwner, holdLoop_eq, hEmpty]

/-- C3 on the sample data: the owner entity exists and none of its three
hold actions has a holder that is present. -/
theorem updateActionWorker_no_holder_witness :
    updateActionWorker sampleEmptyWorld sampleHeap 10 1 = (sampleHeap 10, []) :=
  updateActionWorker_no_holder sampleEmptyWorld sampleHeap 10 1
    (Or.inr ⟨sampleEntity, rfl, by decide⟩)

/-- C4. For a hold action whose holder is found, with the read lock
obtained, `getTarget` returns the holder, the rotation
`anchorRotation * _relativeRotation` and the position
`anchorPosition + (anchorRotation * _relativeRotation) * _relativePosition`,
the anchor being the right hand iff `_hand == "right"` and the raw tracked
palm iff `_ignoreIK` is set and the holder is the local avatar. -/
theorem getTarget_pose (w : World) (self : AvatarActionHold) (rotation : Quat)
    (position : Vec3) (holder : Avatar)
    (hHolder : w.getAvatarBySessionID self._holderID = some holder) :
    getTarget w self true rotation position =
      { holdingAvatar := some holder
        rotation :=
          (specAnchorPose (decide (self._hand = "right"))
            (self._ignoreIK && holder.isMyAvatar) holder).2 * self._relativeRotation
        position :=
          (specAnchorPose (decide (self._hand = "right"))
            (self._ignoreIK && holder.isMyAvatar) holder).1 +
          Quat.rotate
            ((specAnchorPose (decide (self._hand = "right"))
              (self._ignoreIK && holder.isMyAvatar) holder).2 * self._relativeRotation)
            self._relativePosition } := by
  have hp : palmPose self holder =
      specAnchorPose (decide (self._hand = "right"))
        (self._ignoreIK && holder.isMyAvatar) holder := by
    unfold palmPose specAnchorPose
    by_cases hr : self._hand = "right" <;>
      cases hi : (self._ignoreIK && holder.isMyAvatar) <;> simp [hr]
  simp [getTarget, hHolder, hp]

/-- C4 on the sample data: the local avatar holds with `_ignoreIK` set, so
the raw tracked right palm is the anchor. -/
theorem getTarget_pose_witness :
    getTarget sampleWorld { sampleHold 100 1 with _ignoreIK := true } true
        Quaternions.IDENTITY Vectors.ZERO =
      { holdingAvatar := some sampleMyAvatar
        rotation :=
          (specAnchorPose (decide ("right" = "right")) (true && sampleMyAvatar.isMyAvatar)
            sampleMyAvatar).2 * Quaternions.IDENTITY
        position :=
          (specAnchorPose (decide ("right" = "right")) (true && sampleMyAvatar.isMyAvatar)
            sampleMyAvatar).1 +
          Quat.rotate
            ((specAnchorPose (decide ("right" = "right")) (true && sampleMyAvatar.isMyAvatar)
              sampleMyAvatar).2 * Quaternions.IDENTITY)
            Vectors.ZERO } :=
  getTarget_pose sampleWorld { sampleHold 100 1 with _ignoreIK := true } Quaternions.IDENTITY
    Vectors.ZERO sampleMyAvatar rfl

/-! ## Properties of the wire format -/

/-- C5. Round trip: for hold actions `a` and `b` with the same action type
and id, `b.deserialize(a.serialize())` returns and restores in `b` the members
`_holderID`, `_relativePosition`, `_relativeRotation`, `_linearTimeScale`,
`_hand`, `_expires`, `_tag`, `_kinematic` and `_kinematicSetVelocity` of `a`,
and `_angularTimeScale` equals `_linearTimeScale` afterwards. The expiry goes
through the two clock conversions, which are taken to be inverse to each other
on the expiry of `a`. -/
theorem deserialize_serialize_roundtrip (w : World) (a b : AvatarActionHold)
    (hHold : a.getType = ACTION_TYPE_HOLD)
    (hType : b.getType = a.getType)
    (hId : b.getID = a.getID)
    (hClock :
      w.serverTimeToLocalTime (w.localTimeToServerTime a._expires % 2 ^ 64) = a._expires) :
    ∃ b1 : AvatarActionHold,
      deserialize w b (serialize w a) =
          some (b1, [Effect.activateBody, Effect.forceBodyNonStatic]) ∧
        b1._holderID = a._holderID ∧
        b1._relativePosition = a._relativePosition ∧
        b1._relativeRotation = a._relativeRotation ∧
        b1._linearTimeScale = a._linearTimeScale ∧
        b1._hand = a._hand ∧
        b1._expires = a._expires ∧
        b1._tag = a._tag ∧
        b1._kinematic = a._kinematic ∧
        b1._kinematicSetVelocity = a._kinematicSetVelocity ∧
        b1._angularTimeScale = b1._linearTimeScale := by
  have hT : b.getType = ACTION_TYPE_HOLD := hType.trans hHold
  refine ⟨readPayload w b (serialize w a).tail.tail.tail, ?_, ?_⟩
  · simp [deserialize, serialize, readActionType, readUuid, readUInt16, hT, hId, holdVersion]
  · have hC := hClock
    norm_num at hC
    simp [readPayload, serialize, readUuid, readVec3, readQuat, readFloat, readString,
      readUInt64, readBool, hC]

/-- C5 on the sample data: a record of the action with id 100 is read back
into a fresh action with the same id. -/
theorem deserialize_serialize_roundtrip_witness :
    ∃ b1 : AvatarActionHold,
      deserialize sampleWorld (sampleHold 100 2) (serialize sampleWorld sampleFastHold) =
          some (b1, [Effect.activateBody, Effect.forceBodyNonStatic]) ∧
        b1._holderID = sampleFastHold._holderID ∧
        b1._relativePosition = sampleFastHold._relativePosition ∧
        b1._relativeRotation = sampleFastHold._relativeRotation ∧
        b1._linearTimeScale = sampleFastHold._linearTimeScale ∧
        b1._hand = sampleFastHold._hand ∧
        b1._expires = sampleFastHold._expires ∧
        b1._tag = sampleFastHold._tag ∧
        b1._kinematic = sampleFastHold._kinematic ∧
        b1._kinematicSetVelocity = sampleFastHold._kinematicSetVelocity ∧
        b1._angularTimeScale = b1._linearTimeScale :=
  deserialize_serialize_roundtrip sampleWorld sampleFastHold (sampleHold 100 2)
    rfl rfl rfl (by decide)

/-- C6. For a serialized record whose action type and id are those of the
instance and whose format version is not the current one, `deserialize`
returns with every member at its value before the call and makes no call. -/
theorem deserialize_version_mismatch (w : World) (self : AvatarActionHold)
    (version : Nat) (payload : QByteArray)
    (hRange : version < 2 ^ 16)
    (hVersion : version ≠ holdVersion) :
    deserialize w self
        (Datum.actionType self.getType :: Datum.uuid self.getID ::
          Datum.uint16 version :: payload) =
      some (self, []) := by
  have hv : version % 65536 = version := Nat.mod_eq_of_lt hRange
  simp [deserialize, readActionType, readUuid, readUInt16, hv, hVersion]

/-- C6 on the sample data: a record with format version 2. -/
theorem deserialize_version_mismatch_witness :
    deserialize sampleWorld (sampleHold 100 2)
        (Datum.actionType (sampleHold 100 2).getType :: Datum.uuid (sampleHold 100 2).getID ::
          Datum.uint16 2 :: (serialize sampleWorld sampleFastHold).tail.tail.tail) =
      some (sampleHold 100 2, []) :=
  deserialize_version_mismatch sampleWorld (sampleHold 100 2) 2 _ (by decide) (by decide)

/-- C7 at the failing input: on a build without assertions, the record of the
action with id 999 is offered to the action with id 100. The identifiers
differ, yet the payload is applied: the holder of the action changes from 1
to 2 and the body is activated. On a build with assertions the same call is
aborted, and the sibling check of the format version (a record of the action's
own identity with version 2) leaves the action as it was and makes no call. -/
theorem deserialize_identity_mismatch_release :
    (sampleHold 999 2).getID ≠ (sampleHold 100 1).getID ∧
      (sampleHold 100 1)._holderID = 1 ∧
      (deserialize sampleReleaseWorld (sampleHold 100 1)
          (serialize sampleReleaseWorld (sampleHold 999 2))).map
        (fun r => (r.1._holderID, r.2)) =
        some (2, [Effect.activateBody, Effect.forceBodyNonStatic]) ∧
      deserialize sampleWorld (sampleHold 100 1)
          (serialize sampleWorld (sampleHold 999 2)) = none ∧
      deserialize sampleReleaseWorld (sampleHold 100 1)
          (Datum.actionType (sampleHold 100 1).getType :: Datum.uuid (sampleHold 100 1).getID ::
            Datum.uint16 2 :: (serialize sampleReleaseWorld (sampleHold 999 2)).tail.tail.tail) =
        some (sampleHold 100 1, []) := by
  refine ⟨by decide, rfl, ?_, ?_, ?_⟩
  · simp [deserialize, serialize, sampleReleaseWorld, sampleWorld, readActionType, readUuid,
      readUInt16, holdVersion, readPayload, sampleHold, AvatarActionHold.getType,
      AvatarActionHold.getID]
  · simp [deserialize, serialize, sampleWorld, readActionType, readUuid,
      sampleHold, AvatarActionHold.getType, AvatarActionHold.getID]
  · simp [deserialize, serialize, sampleReleaseWorld, sampleWorld, readActionType, readUuid,
      readUInt16, holdVersion, sampleHold, AvatarActionHold.getType,
      AvatarActionHold.getID]

/-- What `deserialize` does with a record whose action type or id differs
from that of the instance: with assertions the call is aborted at the
assertion and no member is written; without assertions the record's type and
id are not looked at, and the call behaves as on the same record carrying the
instance's own type and id. -/
theorem deserialize_identity_mismatch (w : World) (self : AvatarActionHold)
    (type : EntityActionType) (id : QUuid) (rest : QByteArray)
    (hMismatch : type ≠ self.getType ∨ id ≠ self.getID) :
    deserialize w self (Datum.actionType type :: Datum.uuid id :: rest) =
      if w.assertsEnabled then none
      else deserialize w self (Datum.actionType self.getType :: Datum.uuid self.getID :: rest) := by
  cases hA : w.assertsEnabled
  · simp [deserialize, readActionType, readUuid, hA]
  · rcases hMismatch with h | h
    · simp [deserialize, readActionType, hA, h]
    · simp [deserialize, readActionType, readUuid, hA, h]

/-! ## Properties of the argument update -/

theorem glmMax_eq_max (a b : ℚ) : glmMax a b = max a b := by
  unfold glmMax
  split
  · rename_i h
    exact (max_eq_right (le_of_lt h)).symm
  · rename_i h
    exact (max_eq_left (not_lt.mp h)).symm

/-- When the read-locked block of `updateArguments` finds nothing to update,
every local equals the stored member it would replace. -/
theorem readArguments_unchanged (w : World) (self : AvatarActionHold)
    (arguments : QVariantMap) (somethingChanged : Bool)
    (h : (readArguments w self arguments somethingChanged).needUpdate = false) :
    (readArguments w self arguments somethingChanged).relativePosition =
        self._relativePosition ∧
      (readArguments w self arguments somethingChanged).relativeRotation =
        self._relativeRotation ∧
      (readArguments w self arguments somethingChanged).timeScale = self._linearTimeScale ∧
      (readArguments w self arguments somethingChanged).hand = self._hand ∧
      (readArguments w self arguments somethingChanged).holderID = self._holderID ∧
      (readArguments w self arguments somethingChanged).kinematic = self._kinematic ∧
      (readArguments w self arguments somethingChanged).kinematicSetVelocity =
        self._kinematicSetVelocity ∧
      (readArguments w self arguments somethingChanged).ignoreIK = self._ignoreIK := by
  have h2 : (somethingChanged ||
      (readArguments w self arguments somethingChanged).relativePosition !=
        self._relativePosition ||
      (readArguments w self arguments somethingChanged).relativeRotation !=
        self._relativeRotation ||
      (readArguments w self arguments somethingChanged).timeScale != self._linearTimeScale ||
      (readArguments w self arguments somethingChanged).hand != self._hand ||
      (readArguments w self arguments somethingChanged).holderID != self._holderID ||
      (readArguments w self arguments somethingChanged).kinematic != self._kinematic ||
      (readArguments w self arguments somethingChanged).kinematicSetVelocity !=
        self._kinematicSetVelocity ||
      (readArguments w self arguments somethingChanged).ignoreIK != self._ignoreIK) = false := h
  simp only [Bool.or_eq_false_iff, bne_eq_false_iff_eq] at h2
  obtain ⟨⟨⟨⟨⟨⟨⟨⟨_, h1⟩, h3⟩, h4⟩, h5⟩, h6⟩, h7⟩, h8⟩, h9⟩ := h2
  exact ⟨h1, h3, h4, h5, h6, h7, h8, h9⟩

/-- The members of a hold action after `updateArguments`, in terms of the
locals of the read-locked block: each argument member holds its local, the
time scale its clamped local when the update is applied. -/
theorem updateArguments_action (w : World) (self : AvatarActionHold)
    (arguments : QVariantMap) :
    let base := w.objectActionUpdateArguments arguments self.toObjectAction
    let a := readArguments w (self.withObjectAction base.1) arguments base.2
    let r := (updateArguments w self arguments).action
    r._relativePosition = a.relativePosition ∧
      r._relativeRotation = a.relativeRotation ∧
      r._linearTimeScale =
        (if a.needUpdate then glmMax MIN_TIMESCALE a.timeScale else self._linearTimeScale) ∧
      r._hand = a.hand ∧
      r._holderID = a.holderID ∧
      r._kinematic = a.kinematic ∧
      r._kinematicSetVelocity = a.kinematicSetVelocity ∧
      r._ignoreIK = a.ignoreIK := by
  intro base a r
  cases hN : a.needUpdate
  · have hu := readArguments_unchanged w (self.withObjectAction base.1) arguments base.2 hN
    have hr : r = self.withObjectAction base.1 := by
      show (updateArguments w self arguments).action = _
      unfold updateArguments
      simp only []
      rw [if_neg]
      simpa using hN
    rw [hr]
    obtain ⟨h1, h2, _, h4, h5, h6, h7, h8⟩ := hu
    exact ⟨h1.symm, h2.symm, by simp [AvatarActionHold.withObjectAction], h4.symm, h5.symm,
      h6.symm, h7.symm, h8.symm⟩
  · have hr : r =
        { self.withObjectAction base.1 with
          _relativePosition := a.relativePosition
          _relativeRotation := a.relativeRotation
          _linearTimeScale := glmMax MIN_TIMESCALE a.timeScale
          _angularTimeScale := glmMax MIN_TIMESCALE a.timeScale
          _hand := a.hand
          _holderID := a.holderID
          _kinematic := a.kinematic
          _kinematicSetVelocity := a.kinematicSetVelocity
          _ignoreIK := a.ignoreIK
          _active := true } := by
      show (updateArguments w self arguments).action = _
      unfold updateArguments
      simp only []
      rw [if_pos hN]
    rw [hr]
    simp

theorem match_hand_eq_iff (o : Option String) (d : String) :
    (match o with
      | some h => if !(h == "left" || h == "right") then d else h
      | none => d) = d ↔ ∀ h, o = some h → h = "left" ∨ h = "right" → h = d := by
  cases o with
  | none => simp
  | some h =>
    by_cases hl : h = "left"
    · simp [hl]
    · by_cases hr : h = "right"
      · simp [hr]
      · simp [hl, hr]

/-- The guard of `updateArguments` is the negation of "nothing to update". -/
theorem readArguments_needUpdate (w : World) (self : AvatarActionHold)
    (arguments : QVariantMap) :
    (readArguments w
        (self.withObjectAction (w.objectActionUpdateArguments arguments self.toObjectAction).1)
        arguments (w.objectActionUpdateArguments arguments self.toObjectAction).2).needUpdate =
      !nothingToUpdate w self arguments := by
  have key : (readArguments w
        (self.withObjectAction (w.objectActionUpdateArguments arguments self.toObjectAction).1)
        arguments (w.objectActionUpdateArguments arguments self.toObjectAction).2).needUpdate =
        false ↔ nothingToUpdate w self arguments = true := by
    unfold readArguments nothingToUpdate
    simp only [AvatarActionHold.withObjectAction, Bool.or_eq_false_iff, bne_eq_false_iff_eq,
      decide_eq_true_eq, match_hand_eq_iff, and_assoc]
    refine and_congr Iff.rfl (and_congr ?_ (and_congr ?_ (and_congr ?_ (and_congr Iff.rfl
      (and_congr Iff.rfl (and_congr ?_ (and_congr ?_ ?_)))))))
    · cases arguments.extractVec3Argument "relativePosition" <;> simp
    · cases arguments.extractQuatArgument "relativeRotation" <;> simp
    · cases arguments.extractFloatArgument "timeScale" <;> simp
    · cases arguments.extractBooleanArgument "kinematic" <;> simp
    · cases arguments.extractBooleanArgument "kinematicSetVelocity" <;> simp
    · cases arguments.extractBooleanArgument "ignoreIK" <;> simp
  cases h : (readArguments w
        (self.withObjectAction (w.objectActionUpdateArguments arguments self.toObjectAction).1)
        arguments (w.objectActionUpdateArguments arguments self.toObjectAction).2).needUpdate
  · rw [key.mp h]
    rfl
  · cases h2 : nothingToUpdate w self arguments
    · rfl
    · rw [key.mpr h2] at h
      exact absurd h (by decide)

/-- When there is nothing to update, `updateArguments` writes no member of the
hold action and makes no call. -/
theorem updateArguments_nothingToUpdate (w : World) (self : AvatarActionHold)
    (arguments : QVariantMap) (h : nothingToUpdate w self arguments = true) :
    updateArguments w self arguments =
      { action := self.withObjectAction
          (w.objectActionUpdateArguments arguments self.toObjectAction).1
        effects := []
        returned := true } := by
  have hN := readArguments_needUpdate w self arguments
  rw [h] at hN
  unfold updateArguments
  simp only []
  rw [if_neg]
  simpa using hN

/-- The stored time scale after `updateArguments`: the prior one when there is
nothing to update, and otherwise the larger of `0.1` and the time scale read,
which is the extracted argument or, failing that, the prior stored value. -/
theorem updateArguments_linearTimeScale (w : World) (self : AvatarActionHold)
    (arguments : QVariantMap) :
    (updateArguments w self arguments).action._linearTimeScale =
      if nothingToUpdate w self arguments then self._linearTimeScale
      else max MIN_TIMESCALE
        (match arguments.extractFloatArgument "timeScale" with
          | some t => t
          | none => self._linearTimeScale) := by
  have hA := (updateArguments_action w self arguments).2.2.1
  simp only [] at hA
  rw [hA, readArguments_needUpdate, glmMax_eq_max]
  cases nothingToUpdate w self arguments
  · simp only [Bool.not_false, if_true, Bool.false_eq_true, if_false]
    rfl
  · simp only [Bool.not_true, Bool.false_eq_true, if_false, if_true]

/-- When there is nothing to update, an extracted time scale is the stored
one. -/
theorem nothingToUpdate_timeScale (w : World) (self : AvatarActionHold)
    (arguments : QVariantMap) (t : ℚ)
    (hT : arguments.extractFloatArgument "timeScale" = some t)
    (h : nothingToUpdate w self arguments = true) :
    self._linearTimeScale = t := by
  unfold nothingToUpdate at h
  simp only [decide_eq_true_eq] at h
  exact (h.2.2.2.1 t hT).symm

/-- C8 fails when nothing changes: the stored time scale is `0.05` (the value
`deserialize` stores for a record carrying `0.05`), the arguments supply
`timeScale = 0.05` and nothing else, and the stored value stays `0.05`, below
`max(0.1, 0.05) = 0.1`. -/
theorem updateArguments_timeScale_counterexample :
    (timeScaleArguments (1 / 20)).extractFloatArgument "timeScale" = some (1 / 20) ∧
      (updateArguments sampleWorld sampleFastHold
        (timeScaleArguments (1 / 20))).action._linearTimeScale = 1 / 20 ∧
      max MIN_TIMESCALE (1 / 20) = 1 / 10 ∧
      (updateArguments sampleWorld sampleFastHold
        (timeScaleArguments (1 / 20))).action._linearTimeScale < MIN_TIMESCALE ∧
      (deserialize sampleWorld (sampleHold 100 1) (serialize sampleWorld sampleFastHold)).map
        (fun r => r.1._linearTimeScale) = some (1 / 20) := by
  have h : (updateArguments sampleWorld sampleFastHold
      (timeScaleArguments (1 / 20))).action._linearTimeScale = 1 / 20 := by
    simp [updateArguments, readArguments, sampleWorld, sampleFastHold, sampleHold,
      timeScaleArguments, AvatarActionHold.withObjectAction]
  refine ⟨rfl, h, ?_, ?_, ?_⟩
  · norm_num [MIN_TIMESCALE]
  · rw [h]
    norm_num [MIN_TIMESCALE]
  · simp [deserialize, serialize, sampleWorld, readActionType, readUuid, readUInt16,
      holdVersion, readPayload, readVec3, readQuat, readFloat, sampleFastHold, sampleHold,
      AvatarActionHold.getType, AvatarActionHold.getID]

/-- C8, amended. When the arguments supply `timeScale = t`, the stored
`_linearTimeScale` after `updateArguments` is `max(0.1, t)`, hence not below
`0.1`, except when there is nothing to update (the base class reports no
change and nothing read differs from the stored member it would replace) and
`t < 0.1`: then, and only then, the stored value is below `0.1`. Whenever
there is nothing to update the prior stored value is `t`, no member is written,
no call is made and the stored value stays `t`. -/
theorem updateArguments_timeScale (w : World) (self : AvatarActionHold)
    (arguments : QVariantMap) (t : ℚ)
    (hT : arguments.extractFloatArgument "timeScale" = some t) :
    (updateArguments w self arguments).action._linearTimeScale =
        (if nothingToUpdate w self arguments then t else max MIN_TIMESCALE t) ∧
      (nothingToUpdate w self arguments = true →
        self._linearTimeScale = t ∧
          updateArguments w self arguments =
            { action := self.withObjectAction
                (w.objectActionUpdateArguments arguments self.toObjectAction).1
              effects := []
              returned := true }) ∧
      (¬ (nothingToUpdate w self arguments = true ∧ t < MIN_TIMESCALE) →
        (updateArguments w self arguments).action._linearTimeScale = max MIN_TIMESCALE t ∧
          MIN_TIMESCALE ≤ (updateArguments w self arguments).action._linearTimeScale) ∧
      ((updateArguments w self arguments).action._linearTimeScale < MIN_TIMESCALE ↔
        nothingToUpdate w self arguments = true ∧ t < MIN_TIMESCALE) := by
  have hL := updateArguments_linearTimeScale w self arguments
  rw [hT] at hL
  simp only [] at hL
  cases hN : nothingToUpdate w self arguments
  · rw [hN] at hL
    simp only [Bool.false_eq_true, if_false] at hL
    refine ⟨by simpa using hL, fun h => absurd h (by decide), fun _ => ?_, ?_⟩
    · rw [hL]
      exact ⟨rfl, le_max_left _ _⟩
    · rw [hL]
      constructor
      · intro h
        exact absurd (le_max_left MIN_TIMESCALE t) (not_le.mpr h)
      · intro h
        exact absurd h.1 (by decide)
  · have hst := nothingToUpdate_timeScale w self arguments t hT hN
    rw [hN, hst] at hL
    simp only [if_true] at hL
    refine ⟨by simpa using hL, fun _ => ⟨hst, updateArguments_nothingToUpdate w self arguments hN⟩,
      fun h => ?_, ?_⟩
    · have hge : MIN_TIMESCALE ≤ t := not_lt.mp (fun hlt => h ⟨rfl, hlt⟩)
      rw [hL]
      exact ⟨(max_eq_right hge).symm, hge⟩
    · rw [hL]
      exact ⟨fun h => ⟨rfl, h⟩, fun h => h.2⟩

/-- C8, amended, on the sample data. The stored time scale is `1` and the
arguments supply `timeScale = 0.05`: the stored value becomes `0.1`. The
stored time scale is `0.05` and the arguments supply `timeScale = 0.05` and
`kinematic = true`, which differs from the stored `kinematic`: the stored value
becomes `0.1`. The stored time scale is `0.05` and the arguments supply only
`timeScale = 0.05`: nothing is written. -/
theorem updateArguments_timeScale_witness :
    (updateArguments sampleWorld (sampleHold 100 1)
        (timeScaleArguments (1 / 20))).action._linearTimeScale = 1 / 10 ∧
      (updateArguments sampleWorld sampleFastHold
        (timeScaleKinematicArguments (1 / 20))).action._linearTimeScale = 1 / 10 ∧
      updateArguments sampleWorld sampleFastHold (timeScaleArguments (1 / 20)) =
        { action := sampleFastHold.withObjectAction
            (sampleWorld.objectActionUpdateArguments (timeScaleArguments (1 / 20))
              sampleFastHold.toObjectAction).1
          effects := []
          returned := true } := by
  have h1 := updateArguments_timeScale sampleWorld (sampleHold 100 1)
    (timeScaleArguments (1 / 20)) (1 / 20) rfl
  have h2 := updateArguments_timeScale sampleWorld sampleFastHold
    (timeScaleKinematicArguments (1 / 20)) (1 / 20) rfl
  have h3 := updateArguments_timeScale sampleWorld sampleFastHold
    (timeScaleArguments (1 / 20)) (1 / 20) rfl
  have n1 : nothingToUpdate sampleWorld (sampleHold 100 1) (timeScaleArguments (1 / 20)) =
      false := by
    simp [nothingToUpdate, sampleWorld, sampleHold, timeScaleArguments]
  have n2 : nothingToUpdate sampleWorld sampleFastHold (timeScaleKinematicArguments (1 / 20)) =
      false := by
    simp [nothingToUpdate, sampleWorld, sampleFastHold, sampleHold, timeScaleKinematicArguments]
  have n3 : nothingToUpdate sampleWorld sampleFastHold (timeScaleArguments (1 / 20)) = true := by
    simp [nothingToUpdate, sampleWorld, sampleFastHold, sampleHold, timeScaleArguments]
  refine ⟨?_, ?_, (h3.2.1 n3).2⟩
  · rw [h1.1, n1]
    norm_num [MIN_TIMESCALE]
  · rw [h2.1, n2]
    norm_num [MIN_TIMESCALE]

/-- C9. After `updateArguments`, `_hand` is the supplied hand value when that
value is exactly "left" or "right", and is the prior `_hand` when the hand
argument is absent, cannot be extracted, or is any other string. -/
theorem updateArguments_hand (w : World) (self : AvatarActionHold)
    (arguments : QVariantMap) :
    (updateArguments w self arguments).action._hand =
      match arguments.extractStringArgument "hand" with
      | some h => if h = "left" ∨ h = "right" then h else self._hand
      | none => self._hand := by
  have hA := (updateArguments_action w self arguments).2.2.2.1
  simp only [] at hA
  rw [hA]
  unfold readArguments
  simp only []
  cases arguments.extractStringArgument "hand" with
  | none => rfl
  | some h =>
    by_cases hl : h = "left"
    · simp [hl]
    · by_cases hr : h = "right"
      · simp [hr]
      · simp [hl, hr, AvatarActionHold.withObjectAction]

/-- C10. After `updateArguments`, whatever the prior state and the arguments
map, `_holderID` is the session UUID of the local avatar. -/
theorem updateArguments_holderID (w : World) (self : AvatarActionHold)
    (arguments : QVariantMap) :
    (updateArguments w self arguments).action._holderID = w.myAvatarSessionUUID := by
  have hA := (updateArguments_action w self arguments).2.2.2.2.1
  simp only [] at hA
  rw [hA]
  rfl

/-! ## Fallback of the arguments and the velocity of the kinematic update -/

/-- C11 fails for the time scale: the stored time scale is `0.05`, the
arguments supply only `kinematic = true`, and the update raises the stored
time scale to `0.1` although no `timeScale` was supplied. -/
theorem updateArguments_fallback_counterexample :
    kinematicArguments.extractFloatArgument "timeScale" = none ∧
      sampleFastHold._linearTimeScale = 1 / 20 ∧
      (updateArguments sampleWorld sampleFastHold kinematicArguments).action._linearTimeScale =
        1 / 10 := by
  refine ⟨rfl, rfl, ?_⟩
  simp [updateArguments, readArguments, sampleWorld, sampleFastHold, sampleHold,
    kinematicArguments, AvatarActionHold.withObjectAction, glmMax, MIN_TIMESCALE]
  norm_num

/-- C11, amended. For every arguments map and every prior state,
`updateArguments` returns true. Each of `relativePosition`,
`relativeRotation`, `kinematic`, `kinematicSetVelocity` and `ignoreIK` whose
argument is absent or fails extraction keeps its stored value, and each one
that is extracted is stored. An extracted `timeScale` `t` is stored as
`max(0.1, t)` when the update is applied and as `t` when there is nothing to
update. A `timeScale` that is absent or fails extraction keeps its stored
value when that value is at least `0.1` or when there is nothing to update;
when the stored value is below `0.1` and the update is applied, it is raised
to `0.1`. -/
theorem updateArguments_fallback (w : World) (self : AvatarActionHold)
    (arguments : QVariantMap) :
    (updateArguments w self arguments).returned = true ∧
      (updateArguments w self arguments).action._relativePosition =
        (match arguments.extractVec3Argument "relativePosition" with
          | some v => v
          | none => self._relativePosition) ∧
      (updateArguments w self arguments).action._relativeRotation =
        (match arguments.extractQuatArgument "relativeRotation" with
          | some q => q
          | none => self._relativeRotation) ∧
      (updateArguments w self arguments).action._linearTimeScale =
        (match arguments.extractFloatArgument "timeScale" with
          | some t => if nothingToUpdate w self arguments then t else max MIN_TIMESCALE t
          | none =>
            if nothingToUpdate w self arguments = true ∨ MIN_TIMESCALE ≤ self._linearTimeScale
            then self._linearTimeScale
            else MIN_TIMESCALE) ∧
      (updateArguments w self arguments).action._kinematic =
        (match arguments.extractBooleanArgument "kinematic" with
          | some b => b
          | none => self._kinematic) ∧
      (updateArguments w self arguments).action._kinematicSetVelocity =
        (match arguments.extractBooleanArgument "kinematicSetVelocity" with
          | some b => b
          | none => self._kinematicSetVelocity) ∧
      (updateArguments w self arguments).action._ignoreIK =
        (match arguments.extractBooleanArgument "ignoreIK" with
          | some b => b
          | none => self._ignoreIK) := by
  have hRet : (updateArguments w self arguments).returned = true := by
    unfold updateArguments
    simp only []
    split <;> rfl
  obtain ⟨h1, h2, _, _, _, h6, h7, h8⟩ := updateArguments_action w self arguments
  refine ⟨hRet, h1.trans rfl, h2.trans rfl, ?_, h6.trans rfl, h7.trans rfl, h8.trans rfl⟩
  have hL := updateArguments_linearTimeScale w self arguments
  rw [hL]
  cases hT : arguments.extractFloatArgument "timeScale" with
  | none =>
    simp only []
    cases hN : nothingToUpdate w self arguments
    · simp only [Bool.false_eq_true, if_false, false_or]
      by_cases hge : MIN_TIMESCALE ≤ self._linearTimeScale
      · rw [if_pos hge]
        exact max_eq_right hge
      · rw [if_neg hge]
        exact max_eq_left (le_of_lt (not_le.mp hge))
    · simp only [if_true, true_or]
  | some t =>
    simp only []
    cases hN : nothingToUpdate w self arguments
    · simp only [Bool.false_eq_true, if_false]
    · simp only [if_true]
      exact nothingToUpdate_timeScale w self arguments t hT hN

/-- C11, amended, on the sample data. The stored time scale is `1` and the
arguments supply only `kinematic = true`: the time scale stays `1` and
`kinematic` becomes true. The stored time scale is `0.05` and the arguments
supply only `kinematic = true`: the time scale is raised to `0.1`. -/
theorem updateArguments_fallback_witness :
    (updateArguments sampleWorld (sampleHold 100 1) kinematicArguments).returned = true ∧
      (updateArguments sampleWorld (sampleHold 100 1) kinematicArguments).action._linearTimeScale =
        1 ∧
      (updateArguments sampleWorld (sampleHold 100 1) kinematicArguments).action._kinematic =
        true ∧
      (updateArguments sampleWorld sampleFastHold kinematicArguments).action._linearTimeScale =
        1 / 10 := by
  have h := updateArguments_fallback sampleWorld (sampleHold 100 1) kinematicArguments
  have h2 := updateArguments_fallback sampleWorld sampleFastHold kinematicArguments
  have n2 : nothingToUpdate sampleWorld sampleFastHold kinematicArguments = false := by
    simp [nothingToUpdate, sampleWorld, sampleFastHold, sampleHold, kinematicArguments]
  refine ⟨h.1, h.2.2.2.1.trans ?_, h.2.2.2.2.1.trans rfl, h2.2.2.2.1.trans ?_⟩
  · norm_num [kinematicArguments, MIN_TIMESCALE, sampleHold]
  · rw [show kinematicArguments.extractFloatArgument "timeScale" = none from rfl]
    simp only [n2, Bool.false_eq_true, false_or]
    norm_num [MIN_TIMESCALE, sampleFastHold]

theorem Vec3.sub_def (a b : Vec3) : a - b = ⟨a.x - b.x, a.y - b.y, a.z - b.z⟩ := rfl

/-- The kinematic update when the owner entity, its motion state and its
rigid body all exist. -/
theorem doKinematicUpdate_run (w : World) (self : AvatarActionHold) (deltaTimeStep : ℚ)
    (ownerEntity : EntityItem) (motionState : ObjectMotionState)
    (hOwner : w.ownerEntity = some ownerEntity)
    (hPhysics : ownerEntity.physicsInfo = some motionState)
    (hBody : motionState.hasRigidBody = true) :
    doKinematicUpdate w self deltaTimeStep =
      (if self._kinematicSetVelocity && self._previousSet then
        ({ self with
            _previousPositionalDelta := self._positionalTarget - self._previousPositionalTarget
            _previousDeltaTimeStep := deltaTimeStep
            _previousPositionalTarget := self._positionalTarget
            _previousRotationalTarget := self._rotationalTarget
            _previousSet := true },
          [Effect.setLinearVelocity
              (Vec3.divScalar
                (self._positionalTarget - self._previousPositionalTarget +
                  self._previousPositionalDelta)
                (deltaTimeStep + self._previousDeltaTimeStep)),
            Effect.setWorldTransform self._positionalTarget self._rotationalTarget,
            Effect.dirtyInternalKinematicChanges, Effect.activateBody,
            Effect.forceBodyNonStatic])
      else
        ({ self with
            _previousPositionalTarget := self._positionalTarget
            _previousRotationalTarget := self._rotationalTarget
            _previousSet := true },
          [Effect.setWorldTransform self._positionalTarget self._rotationalTarget,
            Effect.dirtyInternalKinematicChanges, Effect.activateBody,
            Effect.forceBodyNonStatic])) := by
  unfold doKinematicUpdate
  simp only [hOwner, hPhysics, hBody, Bool.not_true, Bool.false_eq_true, if_false]
  cases hc : (self._kinematicSetVelocity && self._previousSet) <;> simp

/-- C20. On the last of three consecutive kinematic ticks with
`_kinematicSetVelocity` set, with positional targets `T0`, `T1`, `T2` and
time steps `dt1`, `dt2` on the last two ticks, the linear velocity written to
the rigid body is `(T2 - T0) / (dt1 + dt2)`; on a first kinematic tick, with
`_previousSet` false, no velocity is written. -/
theorem doKinematicUpdate_velocity (w : World) (self : AvatarActionHold)
    (ownerEntity : EntityItem) (motionState : ObjectMotionState)
    (T0 T1 T2 : Vec3) (R0 R1 R2 : Quat) (dt0 dt1 dt2 : ℚ)
    (hOwner : w.ownerEntity = some ownerEntity)
    (hPhysics : ownerEntity.physicsInfo = some motionState)
    (hBody : motionState.hasRigidBody = true)
    (hSet : self._kinematicSetVelocity = true)
    (_hDt : dt1 + dt2 ≠ 0) :
    (doKinematicUpdate w
        { (doKinematicUpdate w
            { (doKinematicUpdate w
                { self with _positionalTarget := T0, _rotationalTarget := R0 } dt0).1 with
              _positionalTarget := T1, _rotationalTarget := R1 } dt1).1 with
          _positionalTarget := T2, _rotationalTarget := R2 } dt2).2 =
        [Effect.setLinearVelocity (Vec3.divScalar (T2 - T0) (dt1 + dt2)),
          Effect.setWorldTransform T2 R2, Effect.dirtyInternalKinematicChanges,
          Effect.activateBody, Effect.forceBodyNonStatic] ∧
      (doKinematicUpdate w
        { self with _previousSet := false, _positionalTarget := T0, _rotationalTarget := R0 }
        dt0).2 =
        [Effect.setWorldTransform T0 R0, Effect.dirtyInternalKinematicChanges,
          Effect.activateBody, Effect.forceBodyNonStatic] := by
  have hsum : T2 - T1 + (T1 - T0) = T2 - T0 := by
    simp only [Vec3.sub_def, Vec3.add_def]
    ext <;> simp
  constructor
  · rw [doKinematicUpdate_run w _ dt0 ownerEntity motionState hOwner hPhysics hBody]
    rw [doKinematicUpdate_run w _ dt1 ownerEntity motionState hOwner hPhysics hBody]
    rw [doKinematicUpdate_run w _ dt2 ownerEntity motionState hOwner hPhysics hBody]
    cases hp : self._previousSet <;> simp [hSet, hp, hsum, add_comm dt2 dt1]
  · rw [doKinematicUpdate_run w _ dt0 ownerEntity motionState hOwner hPhysics hBody]
    simp

/-- C20 on the sample data: targets `(0, 0, 0)`, `(1, 0, 0)`, `(4, 2, 0)` with
time steps `1/2` and `3/2` give the velocity `(2, 1, 0)`. -/
theorem doKinematicUpdate_velocity_witness :
    (doKinematicUpdate sampleWorld
        { (doKinematicUpdate sampleWorld
            { (doKinematicUpdate sampleWorld
                { sampleKinematicHold ⟨9, 9, 9⟩ with
                  _positionalTarget := ⟨0, 0, 0⟩, _rotationalTarget := Quaternions.IDENTITY }
                1).1 with
              _positionalTarget := ⟨1, 0, 0⟩, _rotationalTarget := Quaternions.IDENTITY }
            (1 / 2)).1 with
          _positionalTarget := ⟨4, 2, 0⟩, _rotationalTarget := Quaternions.IDENTITY }
        (3 / 2)).2 =
      [Effect.setLinearVelocity ⟨2, 1, 0⟩,
        Effect.setWorldTransform ⟨4, 2, 0⟩ Quaternions.IDENTITY,
        Effect.dirtyInternalKinematicChanges, Effect.activateBody,
        Effect.forceBodyNonStatic] := by
  rw [(doKinematicUpdate_velocity sampleWorld (sampleKinematicHold ⟨9, 9, 9⟩) sampleEntity
    ⟨true⟩ ⟨0, 0, 0⟩ ⟨1, 0, 0⟩ ⟨4, 2, 0⟩ Quaternions.IDENTITY Quaternions.IDENTITY
    Quaternions.IDENTITY 1 (1 / 2) (3 / 2) rfl rfl rfl rfl (by norm_num)).1]
  norm_num [Vec3.sub_def, Vec3.divScalar]

/-! ## Properties of the avatar registry -/

theorem filter_key_ne_of_lookup_none (h : AvatarHash) (key : QUuid)
    (hNone : h.lookup key = none) : h.filter (fun e => e.1 ≠ key) = h := by
  induction h with
  | nil => rfl
  | cons e rest ih =>
    obtain ⟨k, v⟩ := e
    by_cases hk : key = k
    · subst hk
      simp [List.lookup] at hNone
    · have hb : (key == k) = false := by simpa using hk
      have hne : ¬ k = key := fun e => hk e.symm
      simp only [List.lookup, hb] at hNone
      rw [List.filter_cons_of_pos (by simpa using hne), ih hNone]

/-- What `removeAvatar` does for every registry state and every identifier:
the entry of the identifier leaves the registry and, when it held an avatar,
that avatar is appended to the fade list; removing an identifier that is not
in the registry changes nothing. -/
theorem removeAvatar_fades (m : AvatarManager) (sessionUUID : QUuid) :
    (removeAvatar m sessionUUID)._avatarHash =
        m._avatarHash.filter (fun e => e.1 ≠ sessionUUID) ∧
      (removeAvatar m sessionUUID)._avatarFades =
        (match QHash.value m._avatarHash sessionUUID with
          | some removedAvatar => m._avatarFades ++ [removedAvatar]
          | none => m._avatarFades) ∧
      (QHash.contains m._avatarHash sessionUUID = false → removeAvatar m sessionUUID = m) := by
  refine ⟨?_, ?_, ?_⟩
  · unfold removeAvatar
    simp only [QHash.take]
    cases QHash.value m._avatarHash sessionUUID with
    | none => rfl
    | some a =>
      simp only [handleRemovedAvatar, removeAvatarMotionState]
      split <;> rfl
  · unfold removeAvatar
    simp only [QHash.take]
    cases QHash.value m._avatarHash sessionUUID with
    | none => rfl
    | some a =>
      simp only [handleRemovedAvatar, removeAvatarMotionState]
      split <;> rfl
  · intro hAbsent
    have hNone : m._avatarHash.lookup sessionUUID = none := by
      simpa [QHash.contains] using hAbsent
    unfold removeAvatar
    simp only [QHash.take, QHash.value, hNone, Option.getD_none,
      filter_key_ne_of_lookup_none m._avatarHash sessionUUID hNone]

/-- C12 at the failing input: on the sample registry the entry under the
identifier 6 is not initialized and the entry under the null identifier is the
local avatar, and `removeAvatar` appends either of them to the fade list. The
sibling paths make the test that `removeAvatar` lacks: `clearOtherAvatars`
leaves both entries in the registry and fades only the avatar under 5, and so
does `updateOtherAvatars` when every avatar is about to die. The rest of the
claim holds: the initialized avatar under 5 goes to the fade list, and
removing the unknown identifier 9 changes nothing. -/
theorem removeAvatar_unguarded :
    QHash.value sampleManager._avatarHash 6 = some 3 ∧
      (sampleManager.avatars 3).initialized = false ∧
      (removeAvatar sampleManager 6)._avatarFades = [3] ∧
      QHash.value sampleManager._avatarHash MY_AVATAR_KEY = some sampleManager._myAvatar ∧
      (removeAvatar sampleManager MY_AVATAR_KEY)._avatarFades = [sampleManager._myAvatar] ∧
      (clearOtherAvatars sampleManager).map (fun m => (m._avatarHash, m._avatarFades)) =
        some ([(0, some 1), (6, some 3)], [2]) ∧
      (updateOtherAvatars sampleEngine sampleAllDyingManager sampleFrame).map
          (fun r => (r.1._avatarHash, r.1._avatarFades)) =
        some ([(0, some 1), (6, some 3)], [2]) ∧
      (removeAvatar sampleManager 5)._avatarFades = [2] ∧
      removeAvatar sampleManager 9 = sampleManager := by
  refine ⟨by decide, by decide, by decide, by decide, by decide, by decide, ?_, by decide,
    (removeAvatar_fades sampleManager 9).2.2 (by decide)⟩
  decide!

/-- C19 at the failing input: on the sample registry, whose keys are 0, 5 and
6, `getAvatar(7)` returns a null pointer, not the local avatar, and leaves a
null entry under 7; for the keys 0 and 5 it returns the stored avatars. -/
theorem getAvatar_unknown_identifier :
    QHash.contains sampleManager._avatarHash 7 = false ∧
      (getAvatar sampleManager 7).1 = none ∧
      (getAvatar sampleManager 7).2._avatarHash =
        [(0, some 1), (5, some 2), (6, some 3), (7, none)] ∧
      (getAvatar sampleManager 0).1 = some sampleManager._myAvatar ∧
      (getAvatar sampleManager 5).1 = some 2 := by
  decide

/-- For an identifier that is a key of the registry, `getAvatar` returns the
stored pointer and leaves the manager as it is; for any other identifier it
returns a null pointer. -/
theorem getAvatar_eq (m : AvatarManager) (avatarID : QUuid) :
    getAvatar m avatarID =
      match m._avatarHash.lookup avatarID with
      | some v => (v, m)
      | none => (none, { m with _avatarHash := m._avatarHash ++ [(avatarID, none)] }) := by
  unfold getAvatar QHash.index
  cases m._avatarHash.lookup avatarID <;> rfl

/-! ## Properties of the fade-out -/

/-- The loop of `simulateAvatarFades` over entries that are pairwise distinct:
every entry is handled once, in order, from the state of its avatar object
before the loop. -/
theorem fadeLoop_eq (env : Engine) (deltaTime : ℚ) (l : List Ptr) (st : FadeLoop)
    (hNodup : l.Nodup) :
    fadeLoop env deltaTime l st =
      { avatars := fun q => if q ∈ l then fadeStep env deltaTime (st.avatars q) else st.avatars q
        kept := st.kept ++ l.filter (fun p => !vanishes env (st.avatars p))
        removedFromScene := st.removedFromScene ++ l.filter (fun p => vanishes env (st.avatars p)) } := by
  induction l generalizing st with
  | nil => simp [fadeLoop]
  | cons p rest ih =>
    have hp : p ∉ rest := (List.nodup_cons.mp hNodup).1
    have hrest : rest.Nodup := (List.nodup_cons.mp hNodup).2
    have hother : ∀ (a : AvatarData) (q : Ptr), q ∈ rest →
        Function.update st.avatars p a q = st.avatars q := by
      intro a q hq
      have hqp : q ≠ p := fun e => hp (e ▸ hq)
      exact Function.update_noteq hqp a st.avatars
    have hfilter : ∀ (a : AvatarData),
        rest.filter (fun q => vanishes env (Function.update st.avatars p a q)) =
          rest.filter (fun q => vanishes env (st.avatars q)) := by
      intro a
      apply List.filter_congr
      intro q hq
      rw [hother a q hq]
    have hfilterNot : ∀ (a : AvatarData),
        rest.filter (fun q => !vanishes env (Function.update st.avatars p a q)) =
          rest.filter (fun q => !vanishes env (st.avatars q)) := by
      intro a
      apply List.filter_congr
      intro q hq
      rw [hother a q hq]
    have havatars : ∀ (a : AvatarData), a = fadeStep env deltaTime (st.avatars p) →
        (fun q => if q ∈ rest then fadeStep env deltaTime (Function.update st.avatars p a q)
          else Function.update st.avatars p a q) =
        (fun q => if q ∈ p :: rest then fadeStep env deltaTime (st.avatars q)
          else st.avatars q) := by
      intro a ha
      funext q
      by_cases hq : q ∈ rest
      · have hqp : q ≠ p := fun e => hp (e ▸ hq)
        simp [hq, Function.update_noteq hqp]
      · by_cases hqp : q = p
        · subst hqp
          simp [hq, ha]
        · simp [hq, hqp, Function.update_noteq hqp]
    unfold fadeLoop
    cases hv : vanishes env (st.avatars p)
    · have hgt : ¬ ((st.avatars p).setTargetScale
          ((st.avatars p).avatarScale * SHRINK_RATE)).targetScale ≤ env.MIN_AVATAR_SCALE := by
        simpa [vanishes, AvatarData.setTargetScale] using hv
      simp only [hgt, if_false]
      rw [ih _ hrest]
      simp only [hfilter, hfilterNot, List.filter_cons, hv, Bool.not_false, if_true,
        Bool.false_eq_true, if_false, List.append_assoc, List.singleton_append]
      rw [havatars _ (by simp [fadeStep, hv])]
    · have hle : ((st.avatars p).setTargetScale
          ((st.avatars p).avatarScale * SHRINK_RATE)).targetScale ≤ env.MIN_AVATAR_SCALE := by
        simpa [vanishes, AvatarData.setTargetScale] using hv
      simp only [hle, if_true]
      rw [ih _ hrest]
      simp only [hfilter, hfilterNot, List.filter_cons, hv, Bool.not_true, if_true,
        Bool.false_eq_true, if_false, List.append_assoc, List.singleton_append]
      rw [havatars _ (by simp [fadeStep, hv])]

/-- C15. One call of `simulateAvatarFades` on a fade list of pairwise distinct
avatars handles every entry once, in order: the target scale of the entry
becomes `0.9` times its scale; the list afterwards is the sub-sequence, in the
original order, of the entries whose new target scale is above the smallest
fade scale, and the entries removed from the scene are the others. -/
theorem simulateAvatarFades_pass (env : Engine) (m : AvatarManager) (deltaTime : ℚ)
    (hNodup : m._avatarFades.Nodup) :
    (simulateAvatarFades env m deltaTime).1._avatarFades =
        m._avatarFades.filter
          (fun p => decide (env.MIN_AVATAR_SCALE < (m.avatars p).avatarScale * SHRINK_RATE)) ∧
      (simulateAvatarFades env m deltaTime).2 =
        m._avatarFades.filter
          (fun p => decide ((m.avatars p).avatarScale * SHRINK_RATE ≤ env.MIN_AVATAR_SCALE)) ∧
      (∀ p ∈ m._avatarFades,
        (simulateAvatarFades env m deltaTime).1.avatars p =
          if (m.avatars p).avatarScale * SHRINK_RATE ≤ env.MIN_AVATAR_SCALE then
            (m.avatars p).setTargetScale ((m.avatars p).avatarScale * SHRINK_RATE)
          else
            env.simulate deltaTime
              ((m.avatars p).setTargetScale ((m.avatars p).avatarScale * SHRINK_RATE))) ∧
      (∀ p, p ∉ m._avatarFades →
        (simulateAvatarFades env m deltaTime).1.avatars p = m.avatars p) := by
  unfold simulateAvatarFades
  rw [fadeLoop_eq env deltaTime m._avatarFades _ hNodup]
  refine ⟨?_, ?_, ?_, ?_⟩
  · simp only [List.nil_append]
    apply List.filter_congr
    intro p _
    by_cases h : (m.avatars p).avatarScale * SHRINK_RATE ≤ env.MIN_AVATAR_SCALE
    · simp [vanishes, h, not_lt.mpr h]
    · simp [vanishes, h, not_le.mp h]
  · simp only [List.nil_append]
    rfl
  · intro p hp
    simp only [hp, if_true, fadeStep, vanishes, decide_eq_true_eq]
  · intro p hp
    simp only [hp, if_false]

/-- C15 on the sample data: of the fade entries 2 (scale 1) and 4 (scale
`1/200`) the first is kept and the second is removed from the scene. -/
theorem simulateAvatarFades_pass_witness :
    (simulateAvatarFades sampleEngine sampleFadingManager 1).1._avatarFades = [2] ∧
      (simulateAvatarFades sampleEngine sampleFadingManager 1).2 = [4] := by
  have h := simulateAvatarFades_pass sampleEngine sampleFadingManager 1 (by decide)
  refine ⟨h.1.trans ?_, h.2.1.trans ?_⟩
  · norm_num [sampleFadingManager, sampleManager, initializedManager, constructedManager,
      AvatarManager.init, sampleEngine, sampleAvatarData, SHRINK_RATE, List.filter]
  · norm_num [sampleFadingManager, sampleManager, initializedManager, constructedManager,
      AvatarManager.init, sampleEngine, sampleAvatarData, SHRINK_RATE, List.filter]

theorem fade_threshold (S M : ℝ) (hS : 0 < S) (hM : 0 < M) (j : ℕ) :
    S * (9 / 10 : ℝ) ^ j ≤ M ↔ ⌈Real.log (M / S) / Real.log (9 / 10)⌉₊ ≤ j := by
  have hlog : Real.log (9 / 10 : ℝ) < 0 := Real.log_neg (by norm_num) (by norm_num)
  have hpow : (0 : ℝ) < (9 / 10 : ℝ) ^ j := pow_pos (by norm_num) j
  rw [Nat.ceil_le, div_le_iff_of_neg hlog, ← Real.log_pow,
    Real.log_le_log_iff hpow (div_pos hM hS), le_div_iff₀ hS, mul_comm]

/-- The scale `S * 0.9 ^ j` is at most `M` exactly from the tick
`ceil(log(M / S) / log(0.9))` on. -/
theorem fade_threshold_rat (S M : ℚ) (hS : 0 < S) (hM : 0 < M) (j : ℕ) :
    S * SHRINK_RATE ^ j ≤ M ↔
      ⌈Real.log ((M : ℝ) / (S : ℝ)) / Real.log (9 / 10)⌉₊ ≤ j := by
  rw [← fade_threshold (S : ℝ) (M : ℝ) (by exact_mod_cast hS) (by exact_mod_cast hM) j]
  rw [← Rat.cast_le (K := ℝ)]
  unfold SHRINK_RATE
  push_cast
  rfl

/-- One pass of `simulateAvatarFades` over a single fade entry. -/
theorem simulateAvatarFades_single (env : Engine) (m : AvatarManager) (deltaTime : ℚ)
    (p : Ptr) (hFades : m._avatarFades = [p]) :
    (simulateAvatarFades env m deltaTime).1._avatarFades =
        (if (m.avatars p).avatarScale * SHRINK_RATE ≤ env.MIN_AVATAR_SCALE then [] else [p]) ∧
      (simulateAvatarFades env m deltaTime).1.avatars p = fadeStep env deltaTime (m.avatars p) := by
  unfold simulateAvatarFades
  rw [hFades, fadeLoop_eq env deltaTime [p] _ (List.nodup_singleton p)]
  constructor
  · by_cases h : (m.avatars p).avatarScale * SHRINK_RATE ≤ env.MIN_AVATAR_SCALE
    · simp [vanishes, h, List.filter]
    · simp [vanishes, h, List.filter]
  · simp

theorem simulateAvatarFadesRun_succ (env : Engine) (deltaTime : ℚ) (n : Nat)
    (m : AvatarManager) :
    simulateAvatarFadesRun env deltaTime (n + 1) m =
      (simulateAvatarFades env (simulateAvatarFadesRun env deltaTime n m) deltaTime).1 := by
  induction n generalizing m with
  | zero => rfl
  | succ k ih =>
    show simulateAvatarFadesRun env deltaTime (k + 1) (simulateAvatarFades env m deltaTime).1 = _
    rw [ih]
    rfl

/-- One pass of `simulateAvatarFades` seen from one entry of a fade list of
pairwise distinct avatars: the entry stays in the list exactly when its
shrunken scale is above the smallest fade scale, and is removed from the scene
otherwise; the other entries do not touch its avatar object. -/
theorem simulateAvatarFades_member (env : Engine) (m : AvatarManager) (deltaTime : ℚ)
    (p : Ptr) (hNodup : m._avatarFades.Nodup) (hp : p ∈ m._avatarFades) :
    (p ∈ (simulateAvatarFades env m deltaTime).1._avatarFades ↔
        ¬ (m.avatars p).avatarScale * SHRINK_RATE ≤ env.MIN_AVATAR_SCALE) ∧
      (p ∈ (simulateAvatarFades env m deltaTime).2 ↔
        (m.avatars p).avatarScale * SHRINK_RATE ≤ env.MIN_AVATAR_SCALE) ∧
      (simulateAvatarFades env m deltaTime).1.avatars p =
        fadeStep env deltaTime (m.avatars p) := by
  unfold simulateAvatarFades
  rw [fadeLoop_eq env deltaTime m._avatarFades _ hNodup]
  simp only [List.nil_append]
  refine ⟨?_, ?_, ?_⟩
  · simp [List.mem_filter, hp, vanishes]
  · simp [List.mem_filter, hp, vanishes]
  · simp [hp]

/-- One pass of `simulateAvatarFades` keeps the fade list free of repetitions
and adds no entry to it. -/
theorem simulateAvatarFades_nodup (env : Engine) (m : AvatarManager) (deltaTime : ℚ)
    (hNodup : m._avatarFades.Nodup) :
    (simulateAvatarFades env m deltaTime).1._avatarFades.Nodup ∧
      (∀ q ∈ (simulateAvatarFades env m deltaTime).1._avatarFades, q ∈ m._avatarFades) := by
  unfold simulateAvatarFades
  rw [fadeLoop_eq env deltaTime m._avatarFades _ hNodup]
  simp only [List.nil_append]
  exact ⟨hNodup.filter _, fun q hq => (List.mem_filter.mp hq).1⟩

/-- Repeated passes of `simulateAvatarFades` keep the fade list free of
repetitions and add no entry to it. -/
theorem simulateAvatarFadesRun_nodup (env : Engine) (deltaTime : ℚ) (k : Nat)
    (m : AvatarManager) (hNodup : m._avatarFades.Nodup) :
    (simulateAvatarFadesRun env deltaTime k m)._avatarFades.Nodup ∧
      (∀ q ∈ (simulateAvatarFadesRun env deltaTime (k + 1) m)._avatarFades,
        q ∈ (simulateAvatarFadesRun env deltaTime k m)._avatarFades) := by
  have hN : ∀ j, (simulateAvatarFadesRun env deltaTime j m)._avatarFades.Nodup := by
    intro j
    induction j with
    | zero => exact hNodup
    | succ j ih =>
      rw [simulateAvatarFadesRun_succ]
      exact (simulateAvatarFades_nodup env _ deltaTime ih).1
  refine ⟨hN k, ?_⟩
  rw [simulateAvatarFadesRun_succ]
  exact (simulateAvatarFades_nodup env _ deltaTime (hN k)).2

/-- An entry that has left the fade list does not come back. -/
theorem simulateAvatarFadesRun_absent (env : Engine) (deltaTime : ℚ) (p : Ptr)
    (m : AvatarManager) (hNodup : m._avatarFades.Nodup) (n : Nat)
    (hAbsent : p ∉ (simulateAvatarFadesRun env deltaTime n m)._avatarFades) :
    ∀ k, n ≤ k → p ∉ (simulateAvatarFadesRun env deltaTime k m)._avatarFades := by
  intro k hk
  induction k with
  | zero =>
    have : n = 0 := by omega
    subst this
    exact hAbsent
  | succ k ih =>
    by_cases hn : n = k + 1
    · subst hn
      exact hAbsent
    · have := ih (by omega)
      exact fun h => this ((simulateAvatarFadesRun_nodup env deltaTime k m hNodup).2 p h)

/-- While the shrunken scale stays above the smallest fade scale, an entry of
a fade list of pairwise distinct avatars is retained and its scale is
multiplied by `0.9` at every tick. -/
theorem simulateAvatarFadesRun_member (env : Engine) (deltaTime : ℚ) (p : Ptr)
    (hSim : SimulatesAtTargetScale env) (k : Nat) (m : AvatarManager)
    (hNodup : m._avatarFades.Nodup) (hp : p ∈ m._avatarFades)
    (hAbove : ∀ j, 1 ≤ j → j ≤ k →
      env.MIN_AVATAR_SCALE < (m.avatars p).avatarScale * SHRINK_RATE ^ j) :
    p ∈ (simulateAvatarFadesRun env deltaTime k m)._avatarFades ∧
      ((simulateAvatarFadesRun env deltaTime k m).avatars p).avatarScale =
        (m.avatars p).avatarScale * SHRINK_RATE ^ k := by
  induction k with
  | zero => exact ⟨hp, by simp [simulateAvatarFadesRun]⟩
  | succ k ih =>
    obtain ⟨hF, hS⟩ := ih (fun j h1 hj => hAbove j h1 (Nat.le_succ_of_le hj))
    rw [simulateAvatarFadesRun_succ]
    obtain ⟨h1, _, h2⟩ := simulateAvatarFades_member env
      (simulateAvatarFadesRun env deltaTime k m) deltaTime p
      (simulateAvatarFadesRun_nodup env deltaTime k m hNodup).1 hF
    have hgt : ¬ ((simulateAvatarFadesRun env deltaTime k m).avatars p).avatarScale *
        SHRINK_RATE ≤ env.MIN_AVATAR_SCALE := by
      rw [hS, mul_assoc, ← pow_succ]
      exact not_le.mpr (hAbove (k + 1) (Nat.succ_le_succ (Nat.zero_le k)) (le_refl _))
    refine ⟨h1.mpr hgt, ?_⟩
    rw [h2]
    unfold fadeStep
    have hv : vanishes env ((simulateAvatarFadesRun env deltaTime k m).avatars p) = false := by
      simpa [vanishes] using hgt
    rw [hv]
    simp only [Bool.false_eq_true, if_false]
    rw [hSim, AvatarData.setTargetScale, hS, mul_assoc, ← pow_succ]

/-- C14 fails for a fade entry whose scale is the smallest fade scale: with
`S = minScale = 1/200` the formula gives `ceil(log 1 / log 0.9) = 0` ticks,
but the entry is still in the fade list after no tick and is removed by the
first one. -/
theorem simulateAvatarFades_ticks_counterexample :
    ((sampleSingleFade (1 / 200)).avatars 2).avatarScale = sampleEngine.MIN_AVATAR_SCALE ∧
      ⌈Real.log (((1 / 200 : ℚ) : ℝ) / ((1 / 200 : ℚ) : ℝ)) / Real.log (9 / 10)⌉₊ = 0 ∧
      (simulateAvatarFadesRun sampleEngine 1 0 (sampleSingleFade (1 / 200)))._avatarFades =
        [2] ∧
      (simulateAvatarFadesRun sampleEngine 1 1 (sampleSingleFade (1 / 200)))._avatarFades =
        [] := by
  refine ⟨by simp [sampleSingleFade, sampleAvatarData, sampleEngine], ?_, rfl, ?_⟩
  · have h : ((1 / 200 : ℚ) : ℝ) / ((1 / 200 : ℚ) : ℝ) = 1 := by
      push_cast
      norm_num
    rw [h, Real.log_one, zero_div, Nat.ceil_zero]
  · rw [simulateAvatarFadesRun_succ]
    rw [(simulateAvatarFades_single sampleEngine _ 1 2 rfl).1]
    norm_num [simulateAvatarFadesRun, sampleSingleFade, sampleAvatarData, sampleEngine,
      SHRINK_RATE]

/-- C14, amended. For every entry of a fade list of pairwise distinct avatars,
with initial scale `S > 0` and smallest fade scale `minScale > 0`, with
`simulate` bringing the scale to the target scale: let
`n = max(1, ceil(log(minScale / S) / log(0.9)))`, which is the `ceil` when
`S > minScale` and is 1 when `S <= minScale`. The entry is in the fade list
after `k` ticks, with scale `S * 0.9 ^ k`, for every `k < n`, these scales
strictly decreasing; tick `n` removes it from the scene, and it is in the fade
list after no later tick. -/
theorem simulateAvatarFades_ticks (env : Engine) (m : AvatarManager) (deltaTime : ℚ)
    (p : Ptr)
    (hSim : SimulatesAtTargetScale env)
    (hNodup : m._avatarFades.Nodup)
    (hp : p ∈ m._avatarFades)
    (hMin : 0 < env.MIN_AVATAR_SCALE)
    (hS : 0 < (m.avatars p).avatarScale) :
    (env.MIN_AVATAR_SCALE < (m.avatars p).avatarScale →
        1 ≤ ⌈Real.log ((env.MIN_AVATAR_SCALE : ℝ) / ((m.avatars p).avatarScale : ℝ)) /
          Real.log (9 / 10)⌉₊) ∧
      ((m.avatars p).avatarScale ≤ env.MIN_AVATAR_SCALE →
        ⌈Real.log ((env.MIN_AVATAR_SCALE : ℝ) / ((m.avatars p).avatarScale : ℝ)) /
          Real.log (9 / 10)⌉₊ = 0) ∧
      (∀ k, k < max 1 ⌈Real.log ((env.MIN_AVATAR_SCALE : ℝ) / ((m.avatars p).avatarScale : ℝ)) /
          Real.log (9 / 10)⌉₊ →
        p ∈ (simulateAvatarFadesRun env deltaTime k m)._avatarFades ∧
          ((simulateAvatarFadesRun env deltaTime k m).avatars p).avatarScale =
            (m.avatars p).avatarScale * (9 / 10) ^ k ∧
          (m.avatars p).avatarScale * (9 / 10) ^ (k + 1) <
            ((simulateAvatarFadesRun env deltaTime k m).avatars p).avatarScale) ∧
      p ∈ (simulateAvatarFades env
          (simulateAvatarFadesRun env deltaTime
            (max 1 ⌈Real.log ((env.MIN_AVATAR_SCALE : ℝ) / ((m.avatars p).avatarScale : ℝ)) /
              Real.log (9 / 10)⌉₊ - 1) m) deltaTime).2 ∧
      (∀ k, max 1 ⌈Real.log ((env.MIN_AVATAR_SCALE : ℝ) / ((m.avatars p).avatarScale : ℝ)) /
          Real.log (9 / 10)⌉₊ ≤ k →
        p ∉ (simulateAvatarFadesRun env deltaTime k m)._avatarFades) := by
  have hthr := fade_threshold_rat (m.avatars p).avatarScale env.MIN_AVATAR_SCALE hS hMin
  generalize ⌈Real.log ((env.MIN_AVATAR_SCALE : ℝ) / ((m.avatars p).avatarScale : ℝ)) /
      Real.log (9 / 10)⌉₊ = c at hthr ⊢
  have hRetained : ∀ k, k < max 1 c →
      p ∈ (simulateAvatarFadesRun env deltaTime k m)._avatarFades ∧
        ((simulateAvatarFadesRun env deltaTime k m).avatars p).avatarScale =
          (m.avatars p).avatarScale * SHRINK_RATE ^ k := by
    intro k hk
    apply simulateAvatarFadesRun_member env deltaTime p hSim k m hNodup hp
    intro j hj1 hj
    by_contra hle
    have := (hthr j).1 (not_lt.mp hle)
    omega
  have hLast : (∃ k, max 1 c = k + 1) := ⟨max 1 c - 1, by omega⟩
  obtain ⟨k0, hk0⟩ := hLast
  have hTick := simulateAvatarFades_member env (simulateAvatarFadesRun env deltaTime k0 m)
    deltaTime p (simulateAvatarFadesRun_nodup env deltaTime k0 m hNodup).1
    (hRetained k0 (by omega)).1
  have hVanish : ((simulateAvatarFadesRun env deltaTime k0 m).avatars p).avatarScale *
      SHRINK_RATE ≤ env.MIN_AVATAR_SCALE := by
    rw [(hRetained k0 (by omega)).2, mul_assoc, ← pow_succ]
    exact (hthr (k0 + 1)).2 (by omega)
  refine ⟨?_, ?_, ?_, ?_, ?_⟩
  · intro hScale
    by_contra hlt
    have h0 : c ≤ 0 := by omega
    have := (hthr 0).2 h0
    simp only [pow_zero, mul_one] at this
    exact absurd hScale (not_lt.mpr this)
  · intro hScale
    have := (hthr 0).1 (by simpa using hScale)
    omega
  · intro k hk
    obtain ⟨h1, h2⟩ := hRetained k hk
    refine ⟨h1, h2, ?_⟩
    rw [h2]
    have hpow : (0 : ℚ) < (m.avatars p).avatarScale * SHRINK_RATE ^ k :=
      mul_pos hS (pow_pos (by norm_num [SHRINK_RATE]) k)
    have : (m.avatars p).avatarScale * (9 / 10) ^ (k + 1) =
        (m.avatars p).avatarScale * SHRINK_RATE ^ k * (9 / 10) := by
      rw [pow_succ, mul_assoc]
      rfl
    rw [this]
    linarith
  · have hk1 : max 1 c - 1 = k0 := by omega
    rw [hk1]
    exact hTick.2.1.mpr hVanish
  · apply simulateAvatarFadesRun_absent env deltaTime p m hNodup (max 1 c)
    rw [hk0, simulateAvatarFadesRun_succ]
    exact fun h => (hTick.1.mp h) hVanish

/-- C14, amended, on the sample data: the fade list holds the avatar at 2, of
scale 1, and the avatar at 4, of the smallest fade scale `1/200`. The first is
in the list with scale `0.9 ^ k` before tick `ceil(log(1/200) / log(0.9))` and
in it after no later tick; the second is removed from the scene by the first
tick. -/
theorem simulateAvatarFades_ticks_witness :
    1 ≤ ⌈Real.log ((sampleEngine.MIN_AVATAR_SCALE : ℝ) /
        ((sampleFadingManager.avatars 2).avatarScale : ℝ)) / Real.log (9 / 10)⌉₊ ∧
      (∀ k, k < max 1 ⌈Real.log ((sampleEngine.MIN_AVATAR_SCALE : ℝ) /
          ((sampleFadingManager.avatars 2).avatarScale : ℝ)) / Real.log (9 / 10)⌉₊ →
        2 ∈ (simulateAvatarFadesRun sampleEngine 1 k sampleFadingManager)._avatarFades ∧
          ((simulateAvatarFadesRun sampleEngine 1 k sampleFadingManager).avatars 2).avatarScale =
            (sampleFadingManager.avatars 2).avatarScale * (9 / 10) ^ k) ∧
      (∀ k, max 1 ⌈Real.log ((sampleEngine.MIN_AVATAR_SCALE : ℝ) /
          ((sampleFadingManager.avatars 2).avatarScale : ℝ)) / Real.log (9 / 10)⌉₊ ≤ k →
        2 ∉ (simulateAvatarFadesRun sampleEngine 1 k sampleFadingManager)._avatarFades) ∧
      4 ∈ (simulateAvatarFades sampleEngine sampleFadingManager 1).2 ∧
      (∀ k, 1 ≤ k →
        4 ∉ (simulateAvatarFadesRun sampleEngine 1 k sampleFadingManager)._avatarFades) := by
  have h2 := simulateAvatarFades_ticks sampleEngine sampleFadingManager 1 2
    (fun _ _ => rfl) (by decide) (by decide) (by norm_num [sampleEngine])
    (by norm_num [sampleFadingManager, sampleManager, initializedManager, constructedManager,
      AvatarManager.init, sampleAvatarData])
  have h4 := simulateAvatarFades_ticks sampleEngine sampleFadingManager 1 4
    (fun _ _ => rfl) (by decide) (by decide) (by norm_num [sampleEngine])
    (by norm_num [sampleFadingManager, sampleAvatarData])
  have hc := h4.2.1 (by norm_num [sampleFadingManager, sampleAvatarData, sampleEngine])
  have h4r := h4.2.2.2.1
  have h4a := h4.2.2.2.2
  rw [hc] at h4r h4a
  refine ⟨h2.1 ?_, fun k hk => ⟨(h2.2.2.1 k hk).1, (h2.2.2.1 k hk).2.1⟩, h2.2.2.2.2, h4r, h4a⟩
  norm_num [sampleFadingManager, sampleManager, initializedManager, constructedManager,
    AvatarManager.init, sampleAvatarData, sampleEngine]

/-! ## Properties of the render-distance governor -/

/-- What `removeAvatar` leaves alone and what it changes. -/
theorem removeAvatar_frame (m : AvatarManager) (sessionUUID : QUuid) :
    (removeAvatar m sessionUUID)._myAvatar = m._myAvatar ∧
      governorState (removeAvatar m sessionUUID) = governorState m ∧
      (removeAvatar m sessionUUID)._avatarHash =
        m._avatarHash.filter (fun e => e.1 ≠ sessionUUID) ∧
      (removeAvatar m sessionUUID)._avatarFades =
        (match QHash.value m._avatarHash sessionUUID with
          | some removedAvatar => m._avatarFades ++ [removedAvatar]
          | none => m._avatarFades) := by
  unfold removeAvatar
  simp only [QHash.take]
  cases QHash.value m._avatarHash sessionUUID with
  | none => exact ⟨rfl, rfl, rfl, rfl⟩
  | some a =>
    simp only [handleRemovedAvatar, removeAvatarMotionState]
    split <;> exact ⟨rfl, rfl, rfl, rfl⟩

/-- The avatar loop of `updateOtherAvatars` over a hash copy without null
pointers runs to its end, leaves the governor alone and adds no entry to the
registry. -/
theorem updateLoop_frame (env : Engine) (deltaTime : ℚ) (hashCopy : List (QUuid × Option Ptr))
    (st : AvatarManager × Nat) (hNoNull : ∀ e ∈ hashCopy, e.2 ≠ none) :
    ∃ st1, updateLoop env deltaTime hashCopy st = some st1 ∧
      st1.1._myAvatar = st.1._myAvatar ∧
      governorState st1.1 = governorState st.1 ∧
      (∀ e ∈ st1.1._avatarHash, e ∈ st.1._avatarHash) := by
  induction hashCopy generalizing st with
  | nil => exact ⟨st, rfl, rfl, rfl, fun _ h => h⟩
  | cons e rest ih =>
    obtain ⟨key, value⟩ := e
    obtain ⟨m, renderableCount⟩ := st
    have hrest : ∀ e ∈ rest, e.2 ≠ none := fun e he => hNoNull e (List.mem_cons_of_mem _ he)
    cases value with
    | none => exact absurd rfl (hNoNull (key, none) (List.mem_cons_self _ _))
    | some avatar =>
      unfold updateLoop
      split
      · exact ih (m, renderableCount) hrest
      · split
        · obtain ⟨st1, h1, h2, h3, h4⟩ := ih (removeAvatar m key, renderableCount) hrest
          obtain ⟨r1, r2, r3, _⟩ := removeAvatar_frame m key
          refine ⟨st1, h1, h2.trans r1, h3.trans r2, ?_⟩
          intro e he
          have := h4 e he
          rw [r3] at this
          exact (List.mem_filter.mp this).1
        · exact ih _ hrest

/-- What one call of `updateOtherAvatars` does to the governor, on a registry
without null pointers: nothing when it returns early, and otherwise what
`updateRenderDistance` does. -/
theorem updateOtherAvatars_governor (env : Engine) (m : AvatarManager) (frame : Frame)
    (hNoNull : ∀ e ∈ m._avatarHash, e.2 ≠ none) :
    ∃ r, updateOtherAvatars env m frame = some r ∧
      r.1._myAvatar = m._myAvatar ∧
      governorState r.1 =
        (if returnsEarly m then governorState m
          else governorState (updateRenderDistance env m frame)) ∧
      (∀ e ∈ r.1._avatarHash, e ∈ m._avatarHash) := by
  unfold updateOtherAvatars
  cases hE : returnsEarly m
  · simp only [Bool.false_eq_true, if_false]
    obtain ⟨st1, h1, h2, h3, h4⟩ := updateLoop_frame env frame.deltaTime
      (updateRenderDistance env m frame)._avatarHash (updateRenderDistance env m frame, 0)
      hNoNull
    rw [h1]
    exact ⟨_, rfl, h2, h3, h4⟩
  · exact ⟨(m, []), by simp, rfl, by simp, fun _ h => h⟩

/-- The mean of a non-empty list of values of an interval lies in the
interval. -/
theorem mean_mem_interval (l : List ℚ) (a b : ℚ) (hne : l ≠ [])
    (h : ∀ x ∈ l, a ≤ x ∧ x ≤ b) :
    a ≤ l.sum / (l.length : ℚ) ∧ l.sum / (l.length : ℚ) ≤ b := by
  have hlen : (0 : ℚ) < (l.length : ℚ) := by
    exact_mod_cast List.length_pos.mpr hne
  have hlow : (l.length : ℚ) * a ≤ l.sum := by
    have := List.card_nsmul_le_sum l a (fun x hx => (h x hx).1)
    simpa [nsmul_eq_mul] using this
  have hhigh : l.sum ≤ (l.length : ℚ) * b := by
    have := List.sum_le_card_nsmul l b (fun x hx => (h x hx).2)
    simpa [nsmul_eq_mul] using this
  constructor
  · rw [le_div_iff₀ hlen, mul_comm]
    exact hlow
  · rw [div_le_iff₀ hlen, mul_comm]
    exact hhigh

/-- The part of `updateOtherAvatars` that computes the render distance keeps
the governor within its limits. -/
theorem updateRenderDistance_bounded (env : Engine) (m : AvatarManager) (frame : Frame)
    (low high : ℚ) (hClamp : ClampedController env) (hPos : 0 < low) (hLe : low ≤ high)
    (hB : GovernorBounded low high m) :
    GovernorBounded low high (updateRenderDistance env m frame) := by
  obtain ⟨hL, hH, hN, hS, _, _⟩ := hB
  have hHighPos : 0 < high := lt_of_lt_of_le hPos hLe
  have hInv : 1 / high ≤ 1 / low := one_div_le_one_div_of_le hPos hLe
  -- the controller afterwards and the distance pushed into the window
  have hStep : ∃ (c : PIDController) (distance : ℚ),
      (if !frame.isThrottleRendering then
          ((env.pidUpdate
              (m._renderDistanceController.setMeasuredValueSetpoint frame.getTargetFrameRate)
              frame.getLastUnsynchronizedFps frame.deltaTime).1,
            1 / (env.pidUpdate
              (m._renderDistanceController.setMeasuredValueSetpoint frame.getTargetFrameRate)
              frame.getLastUnsynchronizedFps frame.deltaTime).2)
        else (m._renderDistanceController,
          1 / m._renderDistanceController.getControlledValueLowLimit)) = (c, distance) ∧
        c.controlledValueLowLimit = low ∧ c.controlledValueHighLimit = high ∧
        1 / high ≤ distance ∧ distance ≤ 1 / low := by
    cases hT : frame.isThrottleRendering
    · have hc := hClamp
        (m._renderDistanceController.setMeasuredValueSetpoint frame.getTargetFrameRate)
        frame.getLastUnsynchronizedFps frame.deltaTime
        (by
          show m._renderDistanceController.controlledValueLowLimit ≤
            m._renderDistanceController.controlledValueHighLimit
          rw [hL, hH]
          exact hLe)
      obtain ⟨h1, h2, h3, h4⟩ := hc
      have h1' : low ≤ (env.pidUpdate
          (m._renderDistanceController.setMeasuredValueSetpoint frame.getTargetFrameRate)
          frame.getLastUnsynchronizedFps frame.deltaTime).2 := by
        rw [← hL]
        exact h1
      have h2' : (env.pidUpdate
          (m._renderDistanceController.setMeasuredValueSetpoint frame.getTargetFrameRate)
          frame.getLastUnsynchronizedFps frame.deltaTime).2 ≤ high := by
        rw [← hH]
        exact h2
      refine ⟨_, _, rfl, h3.trans hL, h4.trans hH, ?_, ?_⟩
      · exact one_div_le_one_div_of_le (lt_of_lt_of_le hPos h1') h2'
      · exact one_div_le_one_div_of_le hPos h1'
    · refine ⟨_, _, rfl, hL, hH, ?_, ?_⟩
      · show 1 / high ≤ 1 / m._renderDistanceController.controlledValueLowLimit
        rw [hL]
        exact hInv
      · show 1 / m._renderDistanceController.controlledValueLowLimit ≤ 1 / low
        rw [hL]
  obtain ⟨c, distance, hEq, hcL, hcH, hd1, hd2⟩ := hStep
  unfold updateRenderDistance
  simp only [hEq]
  have hWin : ∀ x ∈ (m._renderDistanceAverage.updateAverage distance).samples,
      1 / high ≤ x ∧ x ≤ 1 / low := by
    intro x hx
    have hx2 : x ∈ distance :: m._renderDistanceAverage.samples :=
      List.mem_of_mem_take hx
    rcases List.mem_cons.mp hx2 with h | h
    · rw [h]
      exact ⟨hd1, hd2⟩
    · exact hS x h
  have hNe : (m._renderDistanceAverage.updateAverage distance).samples ≠ [] := by
    unfold SimpleMovingAverage.updateAverage
    obtain ⟨n, hn⟩ : ∃ n, m._renderDistanceAverage.numSamplesToAverage = n + 1 :=
      ⟨m._renderDistanceAverage.numSamplesToAverage - 1, by omega⟩
    simp [hn, List.take]
  have hMean := mean_mem_interval _ _ _ hNe hWin
  exact ⟨hcL, hcH, hN, hWin, hMean.1, hMean.2⟩

theorem governorBounded_of_governorState (low high : ℚ) (m m1 : AvatarManager)
    (h : governorState m1 = governorState m) (hB : GovernorBounded low high m) :
    GovernorBounded low high m1 := by
  unfold governorState at h
  simp only [Prod.mk.injEq] at h
  obtain ⟨h1, h2, h3⟩ := h
  unfold GovernorBounded
  rw [h1, h2, h3]
  exact hB

/-- Every run of `updateOtherAvatars` on a registry without null pointers
runs to its end and keeps the governor within its limits. -/
theorem updateOtherAvatarsRun_bounded (env : Engine) (low high : ℚ)
    (hClamp : ClampedController env) (hPos : 0 < low) (hLe : low ≤ high)
    (frames : List Frame) (m : AvatarManager)
    (hB : GovernorBounded low high m)
    (hNoNull : ∀ e ∈ m._avatarHash, e.2 ≠ none) :
    ∃ m1, updateOtherAvatarsRun env m frames = some m1 ∧ GovernorBounded low high m1 := by
  induction frames generalizing m with
  | nil => exact ⟨m, rfl, hB⟩
  | cons frame rest ih =>
    obtain ⟨r, hr, _, hG, hHash⟩ := updateOtherAvatars_governor env m frame hNoNull
    have hB1 : GovernorBounded low high r.1 := by
      cases hE : returnsEarly m
      · rw [hE] at hG
        exact governorBounded_of_governorState low high _ r.1 hG
          (updateRenderDistance_bounded env m frame low high hClamp hPos hLe hB)
      · rw [hE] at hG
        exact governorBounded_of_governorState low high m r.1 hG hB
    obtain ⟨m1, hm1, hB2⟩ := ih r.1 hB1 (fun e he => hNoNull e (hHash e he))
    refine ⟨m1, ?_, hB2⟩
    unfold updateOtherAvatarsRun
    rw [hr]
    exact hm1

/-- C16. With fixed limits `0 < lowLimit <= highLimit`, a controller whose
output is clamped to the limits, and a render distance that starts within
`[1/highLimit, 1/lowLimit]` (as `init` leaves it), every sequence of
`updateOtherAvatars` ticks, throttled or not, with any measured frame rates
and delta times, runs to its end and leaves `_renderDistance` within
`[1/highLimit, 1/lowLimit]`. -/
theorem updateOtherAvatarsRun_renderDistance (env : Engine) (m : AvatarManager)
    (frames : List Frame) (lowLimit highLimit : ℚ)
    (hClamp : ClampedController env)
    (hPos : 0 < lowLimit) (hLe : lowLimit ≤ highLimit)
    (hLow : m._renderDistanceController.getControlledValueLowLimit = lowLimit)
    (hHigh : m._renderDistanceController.getControlledValueHighLimit = highLimit)
    (hWindow : 0 < m._renderDistanceAverage.numSamplesToAverage)
    (hSamples : ∀ x ∈ m._renderDistanceAverage.samples, 1 / highLimit ≤ x ∧ x ≤ 1 / lowLimit)
    (hInit : 1 / highLimit ≤ getRenderDistance m ∧ getRenderDistance m ≤ 1 / lowLimit)
    (hNoNull : ∀ e ∈ m._avatarHash, e.2 ≠ none) :
    ∃ m1, updateOtherAvatarsRun env m frames = some m1 ∧
      1 / highLimit ≤ getRenderDistance m1 ∧ getRenderDistance m1 ≤ 1 / lowLimit := by
  obtain ⟨m1, h1, hB⟩ := updateOtherAvatarsRun_bounded env lowLimit highLimit hClamp hPos hLe
    frames m ⟨hLow, hHigh, hWindow, hSamples, hInit.1, hInit.2⟩ hNoNull
  exact ⟨m1, h1, hB.2.2.2.2.1, hB.2.2.2.2.2⟩

theorem sampleEngine_clamped : ClampedController sampleEngine := by
  intro c measuredValue dt hc
  refine ⟨le_max_left _ _, max_le hc (min_le_left _ _), rfl, rfl⟩

/-- C16 on the sample data: after a rendered and a throttled frame the render
distance of the sample manager lies between 5 and 32768. -/
theorem updateOtherAvatarsRun_renderDistance_witness :
    ∃ m1, updateOtherAvatarsRun sampleEngine sampleManager
        [sampleFrame, sampleThrottledFrame] = some m1 ∧
      1 / (1 / 5 : ℚ) ≤ getRenderDistance m1 ∧
      getRenderDistance m1 ≤ 1 / (1 / 32768 : ℚ) :=
  updateOtherAvatarsRun_renderDistance sampleEngine sampleManager
    [sampleFrame, sampleThrottledFrame] (1 / 32768) (1 / 5) sampleEngine_clamped
    (by norm_num) (by norm_num) rfl rfl (by decide) (by simp [sampleManager, initializedManager,
      constructedManager, AvatarManager.init])
    (by norm_num [getRenderDistance, sampleManager, initializedManager, constructedManager,
      AvatarManager.init])
    (by decide)

theorem updateRenderDistance_controller (env : Engine) (m : AvatarManager) (frame : Frame) :
    (updateRenderDistance env m frame)._renderDistanceController =
      (if frame.isThrottleRendering then m._renderDistanceController
        else governorStep env m._renderDistanceController frame) := by
  unfold updateRenderDistance governorStep
  cases frame.isThrottleRendering <;> rfl

/-- The controller after a run of `updateOtherAvatars` is the controller
before it, updated with the frames that were not throttled and got past the
early return, in order. -/
theorem updateOtherAvatarsRun_governed (env : Engine) (frames : List Frame)
    (m : AvatarManager) (hNoNull : ∀ e ∈ m._avatarHash, e.2 ≠ none) :
    ∃ m1, updateOtherAvatarsRun env m frames = some m1 ∧
      m1._renderDistanceController =
        (governedFrames env m frames).foldl (governorStep env) m._renderDistanceController ∧
      (governedFrames env m frames).Sublist
        (frames.filter (fun frame => !frame.isThrottleRendering)) := by
  induction frames generalizing m with
  | nil => exact ⟨m, rfl, rfl, List.Sublist.refl _⟩
  | cons frame rest ih =>
    obtain ⟨r, hr, _, hG, hHash⟩ := updateOtherAvatars_governor env m frame hNoNull
    obtain ⟨m1, hm1, hC, hSub⟩ := ih r.1 (fun e he => hNoNull e (hHash e he))
    have hCtl : r.1._renderDistanceController =
        (if !returnsEarly m && !frame.isThrottleRendering then
          governorStep env m._renderDistanceController frame
        else m._renderDistanceController) := by
      have h1 : r.1._renderDistanceController = (governorState r.1).1 := rfl
      rw [h1, hG]
      cases returnsEarly m
      · simp only [Bool.false_eq_true, if_false, Bool.not_false, Bool.true_and]
        show (updateRenderDistance env m frame)._renderDistanceController = _
        rw [updateRenderDistance_controller]
        cases frame.isThrottleRendering <;> rfl
      · rfl
    refine ⟨m1, ?_, ?_, ?_⟩
    · unfold updateOtherAvatarsRun
      rw [hr]
      exact hm1
    · unfold governedFrames
      rw [hr, hC, hCtl]
      cases (!returnsEarly m && !frame.isThrottleRendering) <;> rfl
    · unfold governedFrames
      rw [hr]
      cases hT : frame.isThrottleRendering
      · cases returnsEarly m
        · simp only [Bool.not_false, Bool.and_self, if_true, List.filter_cons, hT]
          exact List.Sublist.cons₂ _ hSub
        · simp only [Bool.not_true, Bool.false_and, Bool.false_eq_true, if_false,
            List.nil_append, List.filter_cons, hT, Bool.not_false, if_true]
          exact List.Sublist.cons _ hSub
      · simp only [Bool.not_true, Bool.and_false, Bool.false_eq_true, if_false,
          List.nil_append, List.filter_cons, hT]
        exact hSub

/-- C17 fails on the sample data: a throttled tick removes the dying avatar
and its fade entry, so the rendered tick after it returns early and leaves
the controller alone; with the throttled tick deleted, the rendered tick
updates the controller. -/
theorem updateOtherAvatarsRun_controller_counterexample :
    [sampleThrottledFrame, sampleFrame].filter (fun frame => !frame.isThrottleRendering) =
        [sampleFrame] ∧
      (updateOtherAvatarsRun sampleEngine sampleDyingManager
          [sampleThrottledFrame, sampleFrame]).map (fun m => m._renderDistanceController) =
        some sampleDyingManager._renderDistanceController ∧
      (updateOtherAvatarsRun sampleEngine sampleDyingManager [sampleFrame]).map
          (fun m => m._renderDistanceController) =
        some (governorStep sampleEngine sampleDyingManager._renderDistanceController
          sampleFrame) ∧
      governorStep sampleEngine sampleDyingManager._renderDistanceController sampleFrame ≠
        sampleDyingManager._renderDistanceController := by
  decide!

/-- C17, amended. On a registry without null pointers every run of
`updateOtherAvatars` ticks runs to its end, and the controller afterwards is
the controller before the run updated with exactly the ticks that were not
throttled and got past the early return, in order: a throttled tick, like a
tick that returns early, leaves every part of the controller state as it
was. -/
theorem updateOtherAvatarsRun_controller (env : Engine) (m : AvatarManager)
    (frames : List Frame) (hNoNull : ∀ e ∈ m._avatarHash, e.2 ≠ none) :
    ∃ m1, updateOtherAvatarsRun env m frames = some m1 ∧
      m1._renderDistanceController =
        (governedFrames env m frames).foldl (governorStep env) m._renderDistanceController ∧
      (governedFrames env m frames).Sublist
        (frames.filter (fun frame => !frame.isThrottleRendering)) ∧
      (∀ frame ∈ governedFrames env m frames, frame.isThrottleRendering = false) := by
  obtain ⟨m1, h1, h2, h3⟩ := updateOtherAvatarsRun_governed env frames m hNoNull
  refine ⟨m1, h1, h2, h3, ?_⟩
  intro frame hf
  have := (List.mem_filter.mp (h3.subset hf)).2
  simpa using this

/-- C17, amended, on the sample data: a throttled tick between two rendered
ticks; the controller is updated by the two rendered ticks only. -/
theorem updateOtherAvatarsRun_controller_witness :
    ∃ m1, updateOtherAvatarsRun sampleEngine sampleManager
        [sampleFrame, sampleThrottledFrame, sampleFastFrame] = some m1 ∧
      m1._renderDistanceController =
        governorStep sampleEngine
          (governorStep sampleEngine sampleManager._renderDistanceController sampleFrame)
          sampleFastFrame := by
  obtain ⟨m1, h1, h2, _, _⟩ := updateOtherAvatarsRun_controller sampleEngine sampleManager
    [sampleFrame, sampleThrottledFrame, sampleFastFrame] (by decide)
  refine ⟨m1, h1, h2.trans ?_⟩
  have hG : governedFrames sampleEngine sampleManager
      [sampleFrame, sampleThrottledFrame, sampleFastFrame] = [sampleFrame, sampleFastFrame] := by
    decide!
  rw [hG]
  rfl

/-- C18 fails on the sample data: after a rendered tick that stored the
distance `5000/123`, a throttled tick that gets past the early return leaves
the mean of `32768` and `5000/123` in `_renderDistance`, not
`1/lowLimit = 32768`. -/
theorem updateOtherAvatars_throttled_counterexample :
    1 / sampleManager._renderDistanceController.getControlledValueLowLimit = 32768 ∧
      (updateOtherAvatarsRun sampleEngine sampleManager [sampleFastFrame]).map
          (fun m => (returnsEarly m, getRenderDistance m)) = some (false, 5000 / 123) ∧
      (updateOtherAvatarsRun sampleEngine sampleManager
          [sampleFastFrame, sampleThrottledFrame]).map getRenderDistance =
        some (2017732 / 123) := by
  decide!

/-- C18, amended. On a registry without null pointers, a throttled
`updateOtherAvatars` tick that gets past the early return pushes `1/lowLimit`
into the moving average and stores the average of the window in
`_renderDistance`; the stored distance is `1/lowLimit` when the window has
room for a sample and held no sample other than `1/lowLimit`. -/
theorem updateOtherAvatars_throttled (env : Engine) (m : AvatarManager) (frame : Frame)
    (hThrottled : frame.isThrottleRendering = true)
    (hPast : returnsEarly m = false)
    (hNoNull : ∀ e ∈ m._avatarHash, e.2 ≠ none) :
    ∃ r, updateOtherAvatars env m frame = some r ∧
      getRenderDistance r.1 =
        (m._renderDistanceAverage.updateAverage
          (1 / m._renderDistanceController.getControlledValueLowLimit)).getAverage ∧
      (0 < m._renderDistanceAverage.numSamplesToAverage →
        (∀ x ∈ m._renderDistanceAverage.samples,
          x = 1 / m._renderDistanceController.getControlledValueLowLimit) →
        getRenderDistance r.1 = 1 / m._renderDistanceController.getControlledValueLowLimit) := by
  obtain ⟨r, hr, _, hG, _⟩ := updateOtherAvatars_governor env m frame hNoNull
  rw [hPast] at hG
  simp only [Bool.false_eq_true, if_false] at hG
  have hD : getRenderDistance r.1 =
      (m._renderDistanceAverage.updateAverage
        (1 / m._renderDistanceController.getControlledValueLowLimit)).getAverage := by
    have h1 : getRenderDistance r.1 = (governorState r.1).2.2 := rfl
    rw [h1, hG]
    unfold updateRenderDistance governorState
    simp only [hThrottled, Bool.not_true, Bool.false_eq_true, if_false]
  refine ⟨r, hr, hD, ?_⟩
  intro hN hSame
  rw [hD]
  have hWin : ∀ x ∈ (m._renderDistanceAverage.updateAverage
      (1 / m._renderDistanceController.getControlledValueLowLimit)).samples,
      1 / m._renderDistanceController.getControlledValueLowLimit ≤ x ∧
        x ≤ 1 / m._renderDistanceController.getControlledValueLowLimit := by
    intro x hx
    have hx2 := List.mem_of_mem_take hx
    rcases List.mem_cons.mp hx2 with h | h
    · rw [h]
      exact ⟨le_refl _, le_refl _⟩
    · rw [hSame x h]
      exact ⟨le_refl _, le_refl _⟩
  have hNe : (m._renderDistanceAverage.updateAverage
      (1 / m._renderDistanceController.getControlledValueLowLimit)).samples ≠ [] := by
    unfold SimpleMovingAverage.updateAverage
    obtain ⟨n, hn⟩ : ∃ n, m._renderDistanceAverage.numSamplesToAverage = n + 1 :=
      ⟨m._renderDistanceAverage.numSamplesToAverage - 1, by omega⟩
    simp [hn, List.take]
  have hMean := mean_mem_interval _ _ _ hNe hWin
  exact le_antisymm hMean.2 hMean.1

/-- C18, amended, on the sample data: the first tick is throttled, the window
is empty before it, and the stored render distance is `32768`. -/
theorem updateOtherAvatars_throttled_witness :
    ∃ r, updateOtherAvatars sampleEngine sampleManager sampleThrottledFrame = some r ∧
      getRenderDistance r.1 = 32768 := by
  obtain ⟨r, h1, _, h3⟩ := updateOtherAvatars_throttled sampleEngine sampleManager
    sampleThrottledFrame rfl (by decide) (by decide)
  refine ⟨r, h1, (h3 (by decide) (by decide)).trans ?_⟩
  decide!

/-! ## The local avatar in the registry -/

theorem mem_of_lookup_eq_some (h : AvatarHash) (key : QUuid) (v : Option Ptr)
    (hL : h.lookup key = some v) : (key, v) ∈ h := by
  induction h with
  | nil => simp [List.lookup] at hL
  | cons e rest ih =>
    obtain ⟨k, w⟩ := e
    by_cases hk : key = k
    · subst hk
      simp [List.lookup] at hL
      rw [hL]
      exact List.mem_cons_self _ _
    · have hb : (key == k) = false := by simpa using hk
      simp only [List.lookup, hb] at hL
      exact List.mem_cons_of_mem _ (ih hL)

theorem lookup_of_mem_of_nodup (h : AvatarHash) (hN : (QHash.keys h).Nodup) (key : QUuid)
    (v : Option Ptr) (hM : (key, v) ∈ h) : h.lookup key = some v := by
  induction h with
  | nil => simp at hM
  | cons e rest ih =>
    obtain ⟨k, w⟩ := e
    have hk : k ∉ QHash.keys rest := (List.nodup_cons.mp hN).1
    have hrest : (QHash.keys rest).Nodup := (List.nodup_cons.mp hN).2
    rcases List.mem_cons.mp hM with hEq | hIn
    · simp only [Prod.mk.injEq] at hEq
      obtain ⟨h1, h2⟩ := hEq
      subst h1
      subst h2
      simp [List.lookup]
    · have hne : key ≠ k := by
        intro e
        subst e
        exact hk (List.mem_map.mpr ⟨(key, v), hIn, rfl⟩)
      have hb : (key == k) = false := by simpa using hne
      simp only [List.lookup, hb]
      exact ih hrest hIn

/-- In a registry with the invariant, an entry that does not hold the local
avatar is not under the null identifier. -/
theorem key_ne_of_not_myAvatar (m : AvatarManager) (hInv : RegistryInvariant m)
    (e : QUuid × Option Ptr) (he : e ∈ m._avatarHash) (hv : e.2 ≠ some m._myAvatar) :
    e.1 ≠ MY_AVATAR_KEY := by
  obtain ⟨hN, hMy, _, _, _⟩ := hInv
  intro hk
  obtain ⟨k, v⟩ := e
  simp only at hk hv
  subst hk
  have h1 := lookup_of_mem_of_nodup _ hN _ _ he
  have h2 := lookup_of_mem_of_nodup _ hN _ _ hMy
  rw [h1] at h2
  exact hv (Option.some.inj h2)

/-- The method `removeAvatar`, called with an identifier other than the null
identifier, keeps the invariant of the registry. -/
theorem removeAvatar_invariant (m : AvatarManager) (sessionUUID : QUuid)
    (hKey : sessionUUID ≠ MY_AVATAR_KEY) (hInv : RegistryInvariant m) :
    RegistryInvariant (removeAvatar m sessionUUID) := by
  obtain ⟨r1, _, r3, r4⟩ := removeAvatar_frame m sessionUUID
  obtain ⟨hN, hMy, hNull, hSelf, hFade⟩ := hInv
  unfold RegistryInvariant
  rw [r1, r3, r4]
  refine ⟨?_, ?_, ?_, ?_, ?_⟩
  · exact hN.sublist (List.Sublist.map _ (List.filter_sublist _))
  · exact List.mem_filter.mpr ⟨hMy, by simpa using fun e => hKey e.symm⟩
  · exact fun e he => hNull e (List.mem_filter.mp he).1
  · exact fun e he => hSelf e (List.mem_filter.mp he).1
  · cases hV : QHash.value m._avatarHash sessionUUID with
    | none => exact hFade
    | some a =>
      simp only [List.mem_append, List.mem_singleton, not_or]
      refine ⟨hFade, ?_⟩
      intro hEq
      have hL : m._avatarHash.lookup sessionUUID = some (some a) := by
        unfold QHash.value at hV
        cases hl : m._avatarHash.lookup sessionUUID with
        | none => rw [hl] at hV; simp at hV
        | some w =>
          rw [hl] at hV
          simp only [Option.getD_some] at hV
          rw [hV]
      have hM := mem_of_lookup_eq_some _ _ _ hL
      exact hKey (hSelf _ hM (by rw [hEq]))

theorem fadeLoop_kept_subset (env : Engine) (deltaTime : ℚ) (l : List Ptr) (st : FadeLoop) :
    ∀ q ∈ (fadeLoop env deltaTime l st).kept, q ∈ st.kept ∨ q ∈ l := by
  induction l generalizing st with
  | nil => exact fun q hq => Or.inl hq
  | cons p rest ih =>
    intro q hq
    unfold fadeLoop at hq
    simp only [] at hq
    split at hq
    · rcases ih _ q hq with h | h
      · exact Or.inl h
      · exact Or.inr (List.mem_cons_of_mem _ h)
    · rcases ih _ q hq with h | h
      · simp only [List.mem_append, List.mem_singleton] at h
        rcases h with h | h
        · exact Or.inl h
        · exact Or.inr (h ▸ List.mem_cons_self _ _)
      · exact Or.inr (List.mem_cons_of_mem _ h)

/-- The method `simulateAvatarFades` keeps the invariant of the registry. -/
theorem simulateAvatarFades_invariant (env : Engine) (m : AvatarManager) (deltaTime : ℚ)
    (hInv : RegistryInvariant m) :
    RegistryInvariant (simulateAvatarFades env m deltaTime).1 := by
  obtain ⟨hN, hMy, hNull, hSelf, hFade⟩ := hInv
  refine ⟨hN, hMy, hNull, hSelf, ?_⟩
  intro hIn
  rcases fadeLoop_kept_subset env deltaTime m._avatarFades _ _ hIn with h | h
  · simp at h
  · exact hFade h

/-- The avatar loop of `updateOtherAvatars` keeps the invariant of the
registry: it removes only entries of the hash copy that do not hold the
local avatar. -/
theorem updateLoop_invariant (env : Engine) (deltaTime : ℚ)
    (hashCopy : List (QUuid × Option Ptr)) (st : AvatarManager × Nat)
    (hCopy : ∀ e ∈ hashCopy,
      e.2 ≠ none ∧ (e.2 ≠ some st.1._myAvatar → e.1 ≠ MY_AVATAR_KEY))
    (hInv : RegistryInvariant st.1) :
    ∃ st1, updateLoop env deltaTime hashCopy st = some st1 ∧ RegistryInvariant st1.1 := by
  induction hashCopy generalizing st with
  | nil => exact ⟨st, rfl, hInv⟩
  | cons e rest ih =>
    obtain ⟨key, value⟩ := e
    obtain ⟨m, renderableCount⟩ := st
    have hrest : ∀ e ∈ rest,
        e.2 ≠ none ∧ (e.2 ≠ some m._myAvatar → e.1 ≠ MY_AVATAR_KEY) :=
      fun e he => hCopy e (List.mem_cons_of_mem _ he)
    have hHead := hCopy (key, value) (List.mem_cons_self _ _)
    cases value with
    | none => exact absurd rfl hHead.1
    | some avatar =>
      unfold updateLoop
      split
      · exact ih (m, renderableCount) hrest hInv
      · rename_i hSkip
        have hNot : avatar ≠ m._myAvatar := by
          intro hEq
          apply hSkip
          simp [hEq]
        have hKey : key ≠ MY_AVATAR_KEY :=
          hHead.2 (fun hEq => hNot (Option.some.inj hEq))
        split
        · have hMy := (removeAvatar_frame m key).1
          refine ih (removeAvatar m key, renderableCount) ?_
            (removeAvatar_invariant m key hKey hInv)
          intro e he
          have := hrest e he
          rw [hMy]
          exact this
        · exact ih _ hrest hInv

theorem handleRemovedAvatar_frame (m : AvatarManager) (removedAvatar : Ptr) :
    (handleRemovedAvatar m removedAvatar)._myAvatar = m._myAvatar ∧
      (handleRemovedAvatar m removedAvatar)._avatarFades = m._avatarFades ++ [removedAvatar] := by
  unfold handleRemovedAvatar removeAvatarMotionState
  split <;> exact ⟨rfl, rfl⟩

/-- The loop of `clearOtherAvatars` over entries without null pointers runs to
its end; it keeps a sub-sequence of the entries that contains every entry of
the local avatar, and it does not put the local avatar into the fade list. -/
theorem clearLoop_spec (rest : List (QUuid × Option Ptr)) (kept : AvatarHash)
    (m : AvatarManager) (hNull : ∀ e ∈ rest, e.2 ≠ none)
    (hFade : m._myAvatar ∉ m._avatarFades) :
    ∃ m1, clearLoop rest kept m = some m1 ∧
      m1._myAvatar = m._myAvatar ∧
      m1._myAvatar ∉ m1._avatarFades ∧
      ∃ sub, sub.Sublist rest ∧ m1._avatarHash = kept ++ sub ∧
        ∀ e ∈ rest, e.2 = some m._myAvatar → e ∈ sub := by
  induction rest generalizing kept m with
  | nil => exact ⟨_, rfl, rfl, hFade, [], List.Sublist.refl _, by simp, by simp⟩
  | cons e rest ih =>
    obtain ⟨key, value⟩ := e
    have hrest : ∀ e ∈ rest, e.2 ≠ none := fun e he => hNull e (List.mem_cons_of_mem _ he)
    cases value with
    | none => exact absurd rfl (hNull (key, none) (List.mem_cons_self _ _))
    | some avatar =>
      unfold clearLoop
      split
      · obtain ⟨m1, h1, h2, h3, sub, hs1, hs2, hs3⟩ :=
          ih (kept ++ [(key, some avatar)]) m hrest hFade
        refine ⟨m1, h1, h2, h3, (key, some avatar) :: sub, List.Sublist.cons₂ _ hs1, ?_, ?_⟩
        · rw [hs2]
          simp
        · intro e he hv
          rcases List.mem_cons.mp he with hEq | hIn
          · rw [hEq]
            exact List.mem_cons_self _ _
          · exact List.mem_cons_of_mem _ (hs3 e hIn hv)
      · rename_i hSkip
        have hNot : avatar ≠ m._myAvatar := by
          intro hEq
          apply hSkip
          simp [hEq]
        obtain ⟨f1, f2⟩ := handleRemovedAvatar_frame m avatar
        have hFade1 : (handleRemovedAvatar m avatar)._myAvatar ∉
            (handleRemovedAvatar m avatar)._avatarFades := by
          rw [f1, f2]
          simp only [List.mem_append, List.mem_singleton, not_or]
          exact ⟨hFade, fun hEq => hNot hEq.symm⟩
        obtain ⟨m1, h1, h2, h3, sub, hs1, hs2, hs3⟩ :=
          ih kept (handleRemovedAvatar m avatar) hrest hFade1
        refine ⟨m1, h1, h2.trans f1, h3, sub, List.Sublist.cons _ hs1, hs2, ?_⟩
        intro e he hv
        rcases List.mem_cons.mp he with hEq | hIn
        · rw [hEq] at hv
          exact absurd (Option.some.inj hv) hNot
        · exact hs3 e hIn (by rw [f1]; exact hv)

/-- The method `clearOtherAvatars` runs to its end on a registry with the
invariant and keeps the invariant. -/
theorem clearOtherAvatars_invariant (m : AvatarManager) (hInv : RegistryInvariant m) :
    ∃ m1, clearOtherAvatars m = some m1 ∧ m1._myAvatar = m._myAvatar ∧
      RegistryInvariant m1 := by
  obtain ⟨hN, hMy, hNull, hSelf, hFade⟩ := hInv
  obtain ⟨m1, h1, h2, h3, sub, hs1, hs2, hs3⟩ :=
    clearLoop_spec m._avatarHash [] m hNull hFade
  refine ⟨m1, h1, h2, ?_⟩
  simp only [List.nil_append] at hs2
  unfold RegistryInvariant
  rw [hs2, h2]
  refine ⟨hN.sublist (List.Sublist.map _ hs1), hs3 _ hMy rfl,
    fun e he => hNull e (hs1.subset he), fun e he => hSelf e (hs1.subset he), ?_⟩
  rw [← h2]
  exact h3

/-- The method `updateOtherAvatars` runs to its end on a registry with the
invariant and keeps the invariant. -/
theorem updateOtherAvatars_invariant (env : Engine) (m : AvatarManager) (frame : Frame)
    (hInv : RegistryInvariant m) :
    ∃ r, updateOtherAvatars env m frame = some r ∧ RegistryInvariant r.1 := by
  unfold updateOtherAvatars
  cases returnsEarly m
  · simp only [Bool.false_eq_true, if_false]
    have hInv1 : RegistryInvariant (updateRenderDistance env m frame) := hInv
    obtain ⟨st1, h1, h2⟩ := updateLoop_invariant env frame.deltaTime
      (updateRenderDistance env m frame)._avatarHash (updateRenderDistance env m frame, 0)
      (fun e he => ⟨hInv.2.2.1 e he, fun hv => key_ne_of_not_myAvatar m hInv e he hv⟩)
      hInv1
    rw [h1]
    exact ⟨_, rfl, simulateAvatarFades_invariant env _ frame.deltaTime h2⟩
  · exact ⟨(m, []), by simp, hInv⟩

/-- The method `init`, called on a manager whose registry and fade list are
empty, establishes the invariant of the registry. -/
theorem init_invariant (m : AvatarManager) (targetFps highLimit treeScale : ℚ)
    (hHash : m._avatarHash = []) (hFades : m._avatarFades = []) :
    RegistryInvariant (m.init targetFps highLimit treeScale) := by
  unfold RegistryInvariant AvatarManager.init
  simp [hHash, hFades, QHash.insert, QHash.contains, QHash.keys]

/-- Every operation other than `removeAvatar` of the null identifier runs to
its end on a registry with the invariant, keeps the invariant and does not
replace the local avatar. -/
theorem apply_invariant (env : Engine) (m : AvatarManager) (op : ManagerOp)
    (hOp : op ≠ ManagerOp.removeAvatar MY_AVATAR_KEY) (hInv : RegistryInvariant m) :
    ∃ m1, op.apply env m = some m1 ∧ m1._myAvatar = m._myAvatar ∧ RegistryInvariant m1 := by
  cases op with
  | removeAvatar sessionUUID =>
    have hKey : sessionUUID ≠ MY_AVATAR_KEY := fun e => hOp (by rw [e])
    exact ⟨_, rfl, (removeAvatar_frame m sessionUUID).1,
      removeAvatar_invariant m sessionUUID hKey hInv⟩
  | clearOtherAvatars => exact clearOtherAvatars_invariant m hInv
  | updateOtherAvatars frame =>
    obtain ⟨r, h1, h2⟩ := updateOtherAvatars_invariant env m frame hInv
    obtain ⟨r2, g1, g2, _, _⟩ := updateOtherAvatars_governor env m frame hInv.2.2.1
    rw [h1] at g1
    have hr : r2 = r := (Option.some.inj g1).symm
    subst hr
    exact ⟨r2.1, by simp [ManagerOp.apply, h1], g2, h2⟩
  | simulateAvatarFades deltaTime =>
    exact ⟨_, rfl, rfl, simulateAvatarFades_invariant env m deltaTime hInv⟩

/-- Every sequence of operations without `removeAvatar` of the null
identifier runs to its end on a registry with the invariant and keeps it. -/
theorem runOperations_invariant (env : Engine) (ops : List ManagerOp) (m : AvatarManager)
    (hOps : ∀ op ∈ ops, op ≠ ManagerOp.removeAvatar MY_AVATAR_KEY)
    (hInv : RegistryInvariant m) :
    ∃ m1, runOperations env m ops = some m1 ∧ m1._myAvatar = m._myAvatar ∧
      RegistryInvariant m1 := by
  induction ops generalizing m with
  | nil => exact ⟨m, rfl, rfl, hInv⟩
  | cons op rest ih =>
    obtain ⟨m1, h1, h2, h3⟩ := apply_invariant env m op (hOps op (List.mem_cons_self _ _)) hInv
    obtain ⟨m2, g1, g2, g3⟩ := ih m1 (fun o ho => hOps o (List.mem_cons_of_mem _ ho)) h3
    refine ⟨m2, ?_, g2.trans h2, g3⟩
    unfold runOperations
    rw [h1]
    exact g1

/-- The invariant of the local avatar under the guarded operations. On a
registry as `init` leaves it (also after other avatars were added), every
sequence of the operations `removeAvatar` with an
identifier other than the null identifier, `clearOtherAvatars`,
`updateOtherAvatars` and `simulateAvatarFades` runs to its end, and after it
the registry maps `MY_AVATAR_KEY` to the local avatar, `getAvatarIdentifiers`
includes the null identifier, and the local avatar is not in the fade list. -/
theorem runOperations_selfAvatar (env : Engine) (m : AvatarManager) (ops : List ManagerOp)
    (hInit : RegistryInvariant m)
    (hOps : ∀ op ∈ ops, op ≠ ManagerOp.removeAvatar MY_AVATAR_KEY) :
    ∃ m1, runOperations env m ops = some m1 ∧
      QHash.value m1._avatarHash MY_AVATAR_KEY = some m._myAvatar ∧
      MY_AVATAR_KEY ∈ getAvatarIdentifiers m1 ∧
      m._myAvatar ∉ m1._avatarFades := by
  obtain ⟨m1, h1, h2, hN, hMy, _, _, hFade⟩ := runOperations_invariant env ops m hOps hInit
  refine ⟨m1, h1, ?_, ?_, ?_⟩
  · unfold QHash.value
    rw [lookup_of_mem_of_nodup _ hN _ _ hMy, h2]
    rfl
  · exact List.mem_map.mpr ⟨_, hMy, rfl⟩
  · rw [← h2]
    exact hFade

/-- C13 at the failing input: right after `init`, `removeAvatar` of the null
identifier takes the local avatar out of the registry, so that
`getAvatarIdentifiers` no longer holds the null identifier, and puts the local
avatar into the fade list. The sibling operations compare with the local
avatar before they remove: after `clearOtherAvatars`, and after
`updateOtherAvatars` when every avatar is about to die, the null identifier is
still in the registry and the local avatar is not in the fade list. -/
theorem runOperations_selfAvatar_removed :
    getAvatarIdentifiers initializedManager = [MY_AVATAR_KEY] ∧
      (runOperations sampleEngine initializedManager
          [ManagerOp.removeAvatar MY_AVATAR_KEY]).map
        (fun m => (getAvatarIdentifiers m, m._avatarFades)) =
        some ([], [initializedManager._myAvatar]) ∧
      (runOperations sampleEngine initializedManager [ManagerOp.clearOtherAvatars]).map
        (fun m => (getAvatarIdentifiers m, m._avatarFades)) =
        some ([MY_AVATAR_KEY], []) ∧
      (runOperations sampleEngine sampleAllDyingManager
          [ManagerOp.updateOtherAvatars sampleFrame]).map
        (fun m => (getAvatarIdentifiers m, m._avatarFades)) =
        some ([MY_AVATAR_KEY, 6], [2]) := by
  refine ⟨by decide, by decide, by decide, ?_⟩
  decide!

/-! ## The evaluated hold action without a holder of its own -/

/-- C21. When `getTarget` finds no holding avatar for the evaluated hold
action, `updateActionWorker` leaves the action as it was (the targets, the
target-set flags and `_active` included) and makes no call, neither the
kinematic nor the spring update, also when other hold actions of the same
owner have live holders. -/
theorem updateActionWorker_own_holder_missing (w : World) (heap : Ptr → AvatarActionHold)
    (this : Ptr) (deltaTimeStep : ℚ)
    (hMissing : (targetOf w heap this).holdingAvatar = none) :
    updateActionWorker w heap this deltaTimeStep = (heap this, []) := by
  unfold updateActionWorker
  cases hOwner : w.ownerEntity with
  | none => rfl
  | some ownerEntity =>
    have hNot : this ∉ liveHolders w heap ownerEntity.holdActions := by
      intro hIn
      have := ((mem_liveHolders w heap _ this).1 hIn).2
      rw [hMissing] at this
      simp at this
    simp [holdLoop_eq, hNot]

/-- C21 on the sample data: the action at address 12 is evaluated; its holder
is absent while the actions at 10 and 11 have live holders. -/
theorem updateActionWorker_own_holder_missing_witness :
    liveHolders sampleWorld sampleHeap sampleEntity.holdActions = [10, 11] ∧
      sampleWorld.ownerEntity = some sampleEntity ∧
      12 ∈ sampleEntity.holdActions ∧
      updateActionWorker sampleWorld sampleHeap 12 1 = (sampleHeap 12, []) :=
  ⟨by decide, rfl, by decide,
    updateActionWorker_own_holder_missing sampleWorld sampleHeap 12 1 (by decide)⟩

/-! ## Clearing the other avatars -/

theorem handleRemovedAvatar_avatars (m : AvatarManager) (removedAvatar : Ptr) (p : Ptr) :
    ((handleRemovedAvatar m removedAvatar).avatars p).initialized =
        (m.avatars p).initialized ∧
      (p ≠ removedAvatar → (handleRemovedAvatar m removedAvatar).avatars p = m.avatars p) := by
  unfold handleRemovedAvatar removeAvatarMotionState
  split
  · exact ⟨rfl, fun _ => rfl⟩
  · simp only []
    by_cases hp : p = removedAvatar
    · subst hp
      simp [AvatarData.setMotionState]
    · simp [Function.update_noteq hp]

theorem staysOnClear_handleRemovedAvatar (m : AvatarManager) (removedAvatar : Ptr) :
    staysOnClear (handleRemovedAvatar m removedAvatar) = staysOnClear m := by
  funext e
  obtain ⟨key, value⟩ := e
  cases value with
  | none => rfl
  | some avatar =>
    simp only [staysOnClear, (handleRemovedAvatar_frame m removedAvatar).1,
      (handleRemovedAvatar_avatars m removedAvatar avatar).1]

/-- The loop of `clearOtherAvatars` over entries without null pointers: the
entries that stay are kept in order, the avatars of the others are appended
to the fade list in order, and the avatar objects of the entries that stay are
not touched. -/
theorem clearLoop_eq (rest : List (QUuid × Option Ptr)) (kept : AvatarHash)
    (m : AvatarManager) (hNull : ∀ e ∈ rest, e.2 ≠ none) :
    ∃ m1, clearLoop rest kept m = some m1 ∧
      m1._avatarHash = kept ++ rest.filter (staysOnClear m) ∧
      m1._avatarFades =
        m._avatarFades ++ (rest.filter (fun e => !staysOnClear m e)).filterMap Prod.snd ∧
      (∀ p, (p = m._myAvatar ∨ (m.avatars p).initialized = false) →
        m1.avatars p = m.avatars p) := by
  induction rest generalizing kept m with
  | nil => exact ⟨_, rfl, by simp, by simp, fun _ _ => rfl⟩
  | cons e rest ih =>
    obtain ⟨key, value⟩ := e
    have hrest : ∀ e ∈ rest, e.2 ≠ none := fun e he => hNull e (List.mem_cons_of_mem _ he)
    cases value with
    | none => exact absurd rfl (hNull (key, none) (List.mem_cons_self _ _))
    | some avatar =>
      unfold clearLoop
      cases hStay : (decide (avatar = m._myAvatar) || !(m.avatars avatar).initialized)
      · have hS : staysOnClear m (key, some avatar) = false := hStay
        simp only [Bool.false_eq_true, if_false]
        obtain ⟨m1, h1, h2, h3, h4⟩ := ih kept (handleRemovedAvatar m avatar) hrest
        rw [staysOnClear_handleRemovedAvatar] at h2 h3
        refine ⟨m1, h1, ?_, ?_, ?_⟩
        · rw [h2, List.filter_cons, hS]
          simp
        · rw [h3, (handleRemovedAvatar_frame m avatar).2, List.filter_cons, hS]
          simp
        · intro p hp
          have hNe : p ≠ avatar := by
            intro hEq
            subst hEq
            rcases hp with hp | hp
            · simp [hp] at hStay
            · simp [hp] at hStay
          rw [h4 p ?_, (handleRemovedAvatar_avatars m avatar p).2 hNe]
          rw [(handleRemovedAvatar_frame m avatar).1,
            (handleRemovedAvatar_avatars m avatar p).1]
          exact hp
      · have hS : staysOnClear m (key, some avatar) = true := hStay
        simp only [if_true]
        obtain ⟨m1, h1, h2, h3, h4⟩ := ih (kept ++ [(key, some avatar)]) m hrest
        refine ⟨m1, h1, ?_, ?_, h4⟩
        · rw [h2, List.filter_cons, hS]
          simp
        · rw [h3, List.filter_cons, hS]
          simp

/-- C22. On a registry without null pointers `clearOtherAvatars` runs to its
end; the registry afterwards holds exactly the prior entries of the local
avatar and of avatars that are not initialized, in order and with their
avatar objects untouched, and the avatar of every other prior entry has been
appended to the fade list, once per entry and in order. -/
theorem clearOtherAvatars_spec (m : AvatarManager)
    (hNoNull : ∀ e ∈ m._avatarHash, e.2 ≠ none) :
    ∃ m1, clearOtherAvatars m = some m1 ∧
      m1._avatarHash = m._avatarHash.filter (staysOnClear m) ∧
      m1._avatarFades =
        m._avatarFades ++
          (m._avatarHash.filter (fun e => !staysOnClear m e)).filterMap Prod.snd ∧
      (∀ p, (p = m._myAvatar ∨ (m.avatars p).initialized = false) →
        m1.avatars p = m.avatars p) := by
  obtain ⟨m1, h1, h2, h3, h4⟩ := clearLoop_eq m._avatarHash [] m hNoNull
  exact ⟨m1, h1, by simpa using h2, h3, h4⟩

/-- C22 on the sample registry: the local avatar (under the null identifier)
and the avatar under 6, which is not initialized, stay; the avatar under 5
goes to the fade list. -/
theorem clearOtherAvatars_spec_witness :
    ∃ m1, clearOtherAvatars sampleManager = some m1 ∧
      m1._avatarHash = [(0, some 1), (6, some 3)] ∧
      m1._avatarFades = [2] := by
  obtain ⟨m1, h1, h2, h3, _⟩ := clearOtherAvatars_spec sampleManager (by decide)
  exact ⟨m1, h1, h2.trans (by decide), h3.trans (by decide)⟩

/-! ## Lookup of an avatar -/

/-- C23 at the failing input: on the sample registry, whose identifiers are
0, 5 and 6, `getAvatar(7)` adds the identifier 7 with a null avatar, so that
`getAvatarIdentifiers` answers differently afterwards and the next
`updateOtherAvatars` dereferences the null pointer; `getAvatar(5)`, for an
identifier that is present, leaves the registry as it was. -/
theorem getAvatar_inserts_null_entry :
    getAvatarIdentifiers sampleManager = [0, 5, 6] ∧
      getAvatarIdentifiers (getAvatar sampleManager 7).2 = [0, 5, 6, 7] ∧
      (7, none) ∈ (getAvatar sampleManager 7).2._avatarHash ∧
      (getAvatar sampleManager 5).2._avatarHash = sampleManager._avatarHash ∧
      (updateOtherAvatars sampleEngine sampleManager sampleFrame).isSome = true ∧
      (updateOtherAvatars sampleEngine (getAvatar sampleManager 7).2 sampleFrame).isSome =
        false := by
  decide!

/-! ## Properties of the motion-state bookkeeping -/

theorem mem_setInsert (s : List Ptr) (p q : Ptr) : q ∈ setInsert s p ↔ q ∈ s ∨ q = p := by
  unfold setInsert
  split
  · rename_i h
    constructor
    · exact Or.inl
    · rintro (hq | hq)
      · exact hq
      · rw [hq]
        exact h
  · simp

theorem mem_setRemove (s : List Ptr) (p q : Ptr) : q ∈ setRemove s p ↔ q ∈ s ∧ q ≠ p := by
  simp [setRemove, List.mem_filter]

/-- The method `updateAvatarPhysicsShape` keeps the bookkeeping of the motion
states when the new motion state is not among those waiting to be deleted. -/
theorem updateAvatarPhysicsShape_invariant (m : AvatarManager) (avatar : Ptr) (shape : Bool)
    (newMotionState : Ptr) (hFresh : newMotionState ∉ m._motionStatesToDelete)
    (hInv : MotionStateInvariant m) :
    MotionStateInvariant (updateAvatarPhysicsShape m avatar shape newMotionState).1 := by
  unfold updateAvatarPhysicsShape
  split
  · exact hInv
  · cases shape
    · exact hInv
    · obtain ⟨hAdd, hDel⟩ := hInv
      refine ⟨?_, ?_⟩
      · intro q hq
        have hq2 : q ∈ setInsert m._motionStatesToAdd newMotionState := hq
        show q ∈ setInsert m._avatarMotionStates newMotionState
        rw [mem_setInsert] at hq2 ⊢
        rcases hq2 with h | h
        · exact Or.inl (hAdd q h)
        · exact Or.inr h
      · intro q hq
        have hq2 : q ∈ m._motionStatesToDelete := hq
        have hne : q ≠ newMotionState := fun e => hFresh (e ▸ hq2)
        show q ∉ setInsert m._avatarMotionStates newMotionState ∧
          q ∉ setInsert m._motionStatesToAdd newMotionState
        rw [mem_setInsert, mem_setInsert]
        exact ⟨fun h => h.elim (hDel q hq2).1 hne, fun h => h.elim (hDel q hq2).2 hne⟩

/-- The method `removeAvatarMotionState` keeps the bookkeeping of the motion
states, and the motion state it puts on the delete list is in neither set. -/
theorem removeAvatarMotionState_invariant (m : AvatarManager) (avatar : Ptr)
    (hInv : MotionStateInvariant m) :
    MotionStateInvariant (removeAvatarMotionState m avatar) ∧
      ∀ motionState, (m.avatars avatar).motionState = some motionState →
        (removeAvatarMotionState m avatar)._motionStatesToDelete =
            m._motionStatesToDelete ++ [motionState] ∧
          motionState ∉ (removeAvatarMotionState m avatar)._avatarMotionStates ∧
          motionState ∉ (removeAvatarMotionState m avatar)._motionStatesToAdd := by
  obtain ⟨hAdd, hDel⟩ := hInv
  unfold removeAvatarMotionState
  cases hM : (m.avatars avatar).motionState with
  | none => exact ⟨⟨hAdd, hDel⟩, fun _ h => by simp at h⟩
  | some motionState =>
    refine ⟨⟨?_, ?_⟩, ?_⟩
    · intro q hq
      have hq2 : q ∈ setRemove m._motionStatesToAdd motionState := hq
      show q ∈ setRemove m._avatarMotionStates motionState
      rw [mem_setRemove] at hq2 ⊢
      exact ⟨hAdd q hq2.1, hq2.2⟩
    · intro q hq
      have hq2 : q ∈ m._motionStatesToDelete ++ [motionState] := hq
      show q ∉ setRemove m._avatarMotionStates motionState ∧
        q ∉ setRemove m._motionStatesToAdd motionState
      rw [mem_setRemove, mem_setRemove]
      rcases List.mem_append.mp hq2 with h | h
      · exact ⟨fun h2 => (hDel q h).1 h2.1, fun h2 => (hDel q h).2 h2.1⟩
      · have hEq : q = motionState := by simpa using h
        exact ⟨fun h2 => h2.2 hEq, fun h2 => h2.2 hEq⟩
    · intro ms hms
      have hEq : motionState = ms := Option.some.inj hms
      subst hEq
      refine ⟨rfl, ?_, ?_⟩
      · show motionState ∉ setRemove m._avatarMotionStates motionState
        rw [mem_setRemove]
        exact fun h => h.2 rfl
      · show motionState ∉ setRemove m._motionStatesToAdd motionState
        rw [mem_setRemove]
        exact fun h => h.2 rfl

/-- C24. The bookkeeping of the avatar motion states (every motion state in
`_motionStatesToAdd` is in `_avatarMotionStates`, and a motion state in
`_motionStatesToDelete` is in neither set) is preserved by
`updateAvatarPhysicsShape`, `removeAvatarMotionState`, `getObjectsToAdd` and
`getObjectsToDelete`; the motion state that `removeAvatarMotionState` puts on
the delete list is in neither set; `getObjectsToAdd` and `getObjectsToDelete`
return the whole pending collection and leave it empty. -/
theorem motionState_bookkeeping (m : AvatarManager) (hInv : MotionStateInvariant m) :
    (∀ (avatar : Ptr) (shape : Bool) (newMotionState : Ptr),
        newMotionState ∉ m._motionStatesToDelete →
        MotionStateInvariant (updateAvatarPhysicsShape m avatar shape newMotionState).1) ∧
      (∀ avatar : Ptr,
        MotionStateInvariant (removeAvatarMotionState m avatar) ∧
          ∀ motionState, (m.avatars avatar).motionState = some motionState →
            (removeAvatarMotionState m avatar)._motionStatesToDelete =
                m._motionStatesToDelete ++ [motionState] ∧
              motionState ∉ (removeAvatarMotionState m avatar)._avatarMotionStates ∧
              motionState ∉ (removeAvatarMotionState m avatar)._motionStatesToAdd) ∧
      (MotionStateInvariant (getObjectsToAdd m).2 ∧
        (getObjectsToAdd m).1 = m._motionStatesToAdd ∧
        (getObjectsToAdd m).2._motionStatesToAdd = []) ∧
      (MotionStateInvariant (getObjectsToDelete m).2 ∧
        (getObjectsToDelete m).1 = m._motionStatesToDelete ∧
        (getObjectsToDelete m).2._motionStatesToDelete = []) := by
  refine ⟨?_, ?_, ⟨?_, rfl, rfl⟩, ⟨?_, rfl, rfl⟩⟩
  · exact fun avatar shape newMotionState hFresh =>
      updateAvatarPhysicsShape_invariant m avatar shape newMotionState hFresh hInv
  · exact fun avatar => removeAvatarMotionState_invariant m avatar hInv
  · obtain ⟨_, hDel⟩ := hInv
    refine ⟨fun q hq => ?_, fun q hq => ⟨(hDel q hq).1, ?_⟩⟩
    · exact absurd hq (List.not_mem_nil q)
    · exact List.not_mem_nil q
  · obtain ⟨hAdd, _⟩ := hInv
    exact ⟨hAdd, fun q hq => absurd hq (List.not_mem_nil q)⟩

/-- C24 on the sample data: with the motion states 20 and 40 of avatars, 40
waiting to be added and 30 to be deleted, a new motion state 50 for the avatar
at 3 is added to both sets, removing the motion state of the avatar at 4 moves
40 out of both sets onto the delete list, and the two getters hand out `[40]`
and `[30]`. -/
theorem motionState_bookkeeping_witness :
    MotionStateInvariant samplePhysicsManager ∧
      (updateAvatarPhysicsShape samplePhysicsManager 3 true 50).1._motionStatesToAdd =
        [40, 50] ∧
      (updateAvatarPhysicsShape samplePhysicsManager 3 true 50).1._avatarMotionStates =
        [20, 40, 50] ∧
      MotionStateInvariant (updateAvatarPhysicsShape samplePhysicsManager 3 true 50).1 ∧
      (removeAvatarMotionState samplePhysicsManager 4)._motionStatesToDelete = [30, 40] ∧
      40 ∉ (removeAvatarMotionState samplePhysicsManager 4)._avatarMotionStates ∧
      40 ∉ (removeAvatarMotionState samplePhysicsManager 4)._motionStatesToAdd ∧
      (getObjectsToAdd samplePhysicsManager).1 = [40] ∧
      (getObjectsToDelete samplePhysicsManager).1 = [30] := by
  have hInv : MotionStateInvariant samplePhysicsManager := by
    unfold MotionStateInvariant
    decide
  have h := motionState_bookkeeping samplePhysicsManager hInv
  have hR := (h.2.1 4).2 40 (by decide!)
  exact ⟨hInv, by decide!, by decide!, h.1 3 true 50 (by decide), hR.1.trans (by decide),
    hR.2.1, hR.2.2, h.2.2.1.2.1.trans (by decide), h.2.2.2.2.1.trans (by decide)⟩

end Hifi
